import Mathlib

/-!
# Rho / psm / gmm.c — incremental 2-D Gaussian mixture model

A shallow embedding of `src/psm/gmm.c` and statements about it.

## Number model

A C `double` is modelled by `Dbl`: a rational, `+∞`, `-∞` or NaN.  The sum, the
difference, the product and the quotient of two finite values are rounded to
binary64 by `Dbl.round`: to the nearest value with a 53-bit significand and an
exponent from -1074 on, a tie to the even significand, and to an infinity from
magnitude `2^1024 - 2^970` on.  The sign of zero is not modelled.  The special
values follow the IEEE-754 rules (`∞ - ∞ = NaN`, `0 * ∞ = NaN`, every comparison
with NaN is false, ...).  A finite value `Dbl.fin q` stands for a double when
`Dbl.round q = Dbl.fin q`; every arithmetic result does.
`sqrt`, `log` (libm) and every collaborator whose body is not in `gmm.c` and
is not pinned down by the specification are fields of `Env`.

## Memory model

`model->cluster_mem` is a map from storage index to component state and
`model->cluster` is a list of slots, each `none` (NULL) or `some p`
(`&cluster_mem[p]`).  Reading a slot outside the array or dereferencing NULL is
undefined behaviour in C and makes the embedded function return `none`.

The loop counters of `gmm.c` are `uint8_t`; `Env.MAX_CLUSTERS_le` keeps the
capacity within their range, so counters are plain naturals here.
-/

set_option autoImplicit false

namespace Rho

/-! ## Doubles -/

/-- A C `double`: NaN, minus infinity, a finite value, plus infinity. -/
inductive Dbl where
  | nan : Dbl
  | ninf : Dbl
  | fin (q : ℚ) : Dbl
  | pinf : Dbl
deriving DecidableEq

namespace Dbl

/-- The C macro `isnan`. -/
def isnan : Dbl → Bool
  | nan => true
  | _ => false

/-- The C macro `isfinite`: neither infinite nor NaN. -/
def isfinite : Dbl → Bool
  | fin _ => true
  | _ => false

/-- Unary minus. -/
def neg : Dbl → Dbl
  | nan => nan
  | ninf => pinf
  | fin q => fin (-q)
  | pinf => ninf

/-- The power `2^e` for an integer exponent. -/
def pow2 (e : ℤ) : ℚ :=
  if 0 ≤ e then ((2 ^ e.toNat : ℕ) : ℚ) else 1 / ((2 ^ (-e).toNat : ℕ) : ℚ)

/-- The integer nearest to `x`; a tie goes to the even one. -/
def nearestEven (x : ℚ) : ℤ :=
  if x - ⌊x⌋ < 1 / 2 then ⌊x⌋
  else if 1 / 2 < x - ⌊x⌋ then ⌊x⌋ + 1
  else if ⌊x⌋ % 2 = 0 then ⌊x⌋ else ⌊x⌋ + 1

/-- The binary logarithm of `n`, rounded down, by at most `fuel` halvings. -/
def log2Fuel : Nat → Nat → Nat
  | 0, _ => 0
  | fuel + 1, n => if n < 2 then 0 else log2Fuel fuel (n / 2) + 1

/-- The binary logarithm of a natural number, rounded down. -/
def ilog2 (n : Nat) : Nat := log2Fuel n n

/-- The binary exponent of a positive rational `q`: `2^e ≤ q < 2^(e+1)`. -/
def exponent (q : ℚ) : ℤ :=
  if pow2 ((ilog2 q.num.natAbs : ℤ) - (ilog2 q.den : ℤ)) ≤ q
  then (ilog2 q.num.natAbs : ℤ) - (ilog2 q.den : ℤ)
  else (ilog2 q.num.natAbs : ℤ) - (ilog2 q.den : ℤ) - 1

/-- The spacing of the doubles around a positive rational `q`: `2^(e-52)` in the binade
`e` of `q`, and `2^(-1074)` below `2^(-1022)`. -/
def ulp (q : ℚ) : ℚ := pow2 (max (exponent q) (-1022) - 52)

/-- A rational that is not negative, rounded to the nearest multiple of the spacing
around it, a tie to the even multiple. -/
def roundMag (q : ℚ) : ℚ := nearestEven (q / ulp q) * ulp q

/-- The binary64 value of an exact result `q`: round to nearest, ties to even; a rounded
magnitude of `2^1024` or more is an infinity. -/
def round (q : ℚ) : Dbl :=
  if 0 ≤ q then (if pow2 1024 ≤ roundMag q then pinf else fin (roundMag q))
  else (if pow2 1024 ≤ roundMag (-q) then ninf else fin (-roundMag (-q)))

/-- Addition `x + y`. -/
def add : Dbl → Dbl → Dbl
  | nan, _ => nan
  | _, nan => nan
  | pinf, ninf => nan
  | ninf, pinf => nan
  | pinf, _ => pinf
  | _, pinf => pinf
  | ninf, _ => ninf
  | _, ninf => ninf
  | fin a, fin b => round (a + b)

/-- Subtraction `x - y`. -/
def sub (x y : Dbl) : Dbl := add x (neg y)

/-- Sign of a non-NaN value times an infinity: the factor `0` gives NaN. -/
def infTimes (positive : Bool) : Dbl → Dbl
  | nan => nan
  | ninf => if positive then ninf else pinf
  | pinf => if positive then pinf else ninf
  | fin q =>
    if q = 0 then nan
    else if 0 < q then (if positive then pinf else ninf)
    else (if positive then ninf else pinf)

/-- Multiplication `x * y`. -/
def mul : Dbl → Dbl → Dbl
  | nan, _ => nan
  | _, nan => nan
  | pinf, y => infTimes true y
  | ninf, y => infTimes false y
  | x, pinf => infTimes true x
  | x, ninf => infTimes false x
  | fin a, fin b => round (a * b)

/-- Division `x / y`. -/
def div : Dbl → Dbl → Dbl
  | nan, _ => nan
  | _, nan => nan
  | pinf, fin b => if 0 ≤ b then pinf else ninf
  | ninf, fin b => if 0 ≤ b then ninf else pinf
  | pinf, _ => nan
  | ninf, _ => nan
  | fin _, pinf => fin 0
  | fin _, ninf => fin 0
  | fin a, fin b =>
    if b = 0 then (if a = 0 then nan else if 0 < a then pinf else ninf)
    else round (a / b)

/-- The comparison `x < y`; false as soon as one side is NaN. -/
def lt : Dbl → Dbl → Bool
  | nan, _ => false
  | _, nan => false
  | ninf, ninf => false
  | ninf, _ => true
  | _, ninf => false
  | pinf, _ => false
  | fin _, pinf => true
  | fin a, fin b => decide (a < b)

/-- The comparison `x > y`. -/
def gt (x y : Dbl) : Bool := lt y x

/-- The value is one a C `double` can hold: an infinity, NaN, or a rational that
rounding leaves as it is. -/
def isDouble : Dbl → Bool
  | fin q => decide (round q = fin q)
  | _ => true

/-- The comparison `x <= y`; false as soon as one side is NaN. -/
def le : Dbl → Dbl → Bool
  | nan, _ => false
  | _, nan => false
  | ninf, _ => true
  | _, pinf => true
  | pinf, _ => false
  | _, ninf => false
  | fin a, fin b => decide (a ≤ b)

/-- The comparison `x == y`; false as soon as one side is NaN. -/
def eq : Dbl → Dbl → Bool
  | nan, _ => false
  | _, nan => false
  | x, y => decide (x = y)

/-- The libm function `fabs`. -/
def fabs : Dbl → Dbl
  | nan => nan
  | ninf => pinf
  | fin q => fin |q|
  | pinf => pinf

end Dbl

/-- The literal `0`. -/
def d0 : Dbl := Dbl.fin 0

/-- The literal `1`. -/
def d1 : Dbl := Dbl.fin 1

/-- The `math.h` constant `M_PI`, the double nearest to pi. -/
def M_PI : Dbl := Dbl.fin (884279719003555 / 281474976710656)

/-! ## Data model (declarations of `gmm.h`, which is not in `gmm.c`) -/

/-- The type `vec2_t`. -/
structure vec2_t where
  a : Dbl
  b : Dbl
deriving DecidableEq

/-- The type `mat2x2`, row major: `a b / c d`. -/
structure mat2x2 where
  a : Dbl
  b : Dbl
  c : Dbl
  d : Dbl
deriving DecidableEq

/-- The type `gaussian2d_t`. -/
structure gaussian2d_t where
  mean : vec2_t
  covariance : mat2x2
deriving DecidableEq

/-- The type `observation_t`; its first two members are read as a `vec2_t`. -/
structure observation_t where
  density : Dbl
  thresh : Dbl
  label : Nat
deriving DecidableEq

/-- The label histogram `cluster->labels`, indexed by label. -/
structure label_manager_t where
  average : Nat → Dbl
  count : Nat → Nat
  num_valid : Nat

/-- The type `gaussian_mixture_cluster_t`. -/
structure gaussian_mixture_cluster_t where
  gaussian_in : gaussian2d_t
  gaussian_out : gaussian2d_t
  inv_covariance_in : mat2x2
  llt_in : mat2x2
  score : Dbl
  log_gaussian_norm_factor : Dbl
  mahalanobis_sq : Dbl
  probability_of_in : Dbl
  probability_condition_input : Dbl
  weight : Dbl
  primary_id : Dbl
  secondary_id : Dbl
  min_y : Dbl
  max_y : Dbl
  timestamp : Dbl
  labels : label_manager_t

/-- The type `gaussian_mixture_model_t`. -/
structure gaussian_mixture_model_t where
  name : String
  cluster : List (Option Nat)
  cluster_mem : Nat → gaussian_mixture_cluster_t
  num_clusters : Nat
  min_in : vec2_t
  max_in : vec2_t
  min_out : vec2_t
  max_out : vec2_t

/-- The constants and collaborators that `gmm.c` takes from headers and other
translation units. -/
structure Env where
  MAX_CLUSTERS : Nat
  /-- An array `cluster[MAX_CLUSTERS]` needs a positive size. -/
  MAX_CLUSTERS_pos : 0 < MAX_CLUSTERS
  /-- The loops count the components in a `uint8_t`. -/
  MAX_CLUSTERS_le : MAX_CLUSTERS ≤ 255
  INITIAL_VARIANCE : Dbl
  INV_INITIAL_VARIANCE : Dbl
  ALPHA : Dbl
  BETA : Dbl
  MAX_DISTANCE : Dbl
  MAX_MAHALANOBIS_SQ : Dbl
  MAX_MAHALANOBIS_SQ_FOR_UPDATE : Dbl
  MAX_ERROR : Dbl
  MIN_CLUSTER_SCORE : Dbl
  MIN_TOTAL_MIXTURE_PROBABILITY : Dbl
  VALID_CLUSTER_STD_DEV : Dbl
  MAX_CLUSTER_LIFETIME : Dbl
  /-- The libm function `sqrt`. -/
  sqrt : Dbl → Dbl
  /-- The libm function `log`. -/
  log : Dbl → Dbl
  /-- The safe exponential `SafeExp`. -/
  SafeExp : Dbl → Dbl
  /-- The histogram update `ReportLabel( &labels, label )`. -/
  ReportLabel : label_manager_t → Nat → label_manager_t
  /-- The macro `ISTIMEDOUT( timestamp, lifetime )`, read at clock value `now`. -/
  ISTIMEDOUT : Dbl → Dbl → Dbl → Bool

/-! ## Collaborators fixed by the specification -/

/-- Modelled from the spec: the macro `MIN` (not in `gmm.c`), the smaller of two values. -/
def MIN (x y : Dbl) : Dbl := if Dbl.lt x y then x else y

/-- Modelled from the spec: the macro `MAX` (not in `gmm.c`), the larger of two values. -/
def MAX (x y : Dbl) : Dbl := if Dbl.gt x y then x else y

/-- Modelled from the spec: the macro `BOUNDU` (not in `gmm.c`), a clamp from above. -/
def BOUNDU (x hi : Dbl) : Dbl := if Dbl.gt x hi then hi else x

/-- Modelled from the spec: the macro `ZDIV` (not in `gmm.c`), the zero-safe division
that yields zero for a zero denominator. -/
def ZDIV (x y : Dbl) : Dbl := if Dbl.eq y d0 then d0 else Dbl.div x y

/-- Modelled from the spec: `MatVec.Vec2.Subtract` (matvec is not in `gmm.c`). -/
def Vec2_Subtract (x y : vec2_t) : vec2_t := ⟨Dbl.sub x.a y.a, Dbl.sub x.b y.b⟩

/-- Modelled from the spec: `MatVec.Vec2.Add` (matvec is not in `gmm.c`). -/
def Vec2_Add (x y : vec2_t) : vec2_t := ⟨Dbl.add x.a y.a, Dbl.add x.b y.b⟩

/-- Modelled from the spec: `MatVec.Vec2.ScalarMultiply` (matvec is not in `gmm.c`). -/
def Vec2_ScalarMultiply (s : Dbl) (x : vec2_t) : vec2_t := ⟨Dbl.mul s x.a, Dbl.mul s x.b⟩

/-- Modelled from the spec: `MatVec.Mat2x2.DotVec2` (matvec is not in `gmm.c`), the
matrix-vector product. -/
def Mat2x2_DotVec2 (m : mat2x2) (v : vec2_t) : vec2_t :=
  ⟨Dbl.add (Dbl.mul m.a v.a) (Dbl.mul m.b v.b), Dbl.add (Dbl.mul m.c v.a) (Dbl.mul m.d v.b)⟩

/-- Modelled from the spec: `MatVec.Gaussian2D.Covariance.MahalanobisSq` (matvec is not
in `gmm.c`), `delta^T · inv_covariance · delta`. -/
def MahalanobisSq (inv : mat2x2) (delta : vec2_t) : Dbl :=
  let w := Mat2x2_DotVec2 inv delta
  Dbl.add (Dbl.mul delta.a w.a) (Dbl.mul delta.b w.b)

/-- Modelled from the spec: `MatVec.Mat2x2.LLT` (matvec is not in `gmm.c`), the
lower-triangular Cholesky factor. -/
def Mat2x2_LLT (E : Env) (m : mat2x2) : mat2x2 :=
  let la := E.sqrt m.a
  let lc := Dbl.div m.c la
  ⟨la, d0, lc, E.sqrt (Dbl.sub m.d (Dbl.mul lc lc))⟩

/-- Modelled from the spec: `MatVec.Mat2x2.Inverse` (matvec is not in `gmm.c`), the
inverse of a 2x2 matrix. -/
def Mat2x2_Inverse (m : mat2x2) : mat2x2 :=
  let det := Dbl.sub (Dbl.mul m.a m.d) (Dbl.mul m.b m.c)
  ⟨Dbl.div m.d det, Dbl.div (Dbl.neg m.b) det, Dbl.div (Dbl.neg m.c) det, Dbl.div m.a det⟩

/-- Modelled from the spec: `MatVec.Gaussian2D.WeightedMeanUpdate` (matvec is not in
`gmm.c`): the delta `weight · (new_val - mean)` is added to the mean and returned. -/
def WeightedMeanUpdate (new_val : vec2_t) (g : gaussian2d_t) (weight : Dbl) :
    vec2_t × gaussian2d_t :=
  let delta := Vec2_ScalarMultiply weight (Vec2_Subtract new_val g.mean)
  (delta, { g with mean := Vec2_Add g.mean delta })

/-- Modelled from the spec: `MatVec.Gaussian2D.WeightedUpdate` (matvec is not in
`gmm.c`): `covariance += weight · (x ⊗ y - covariance)`. -/
def WeightedUpdate (x y : vec2_t) (g : gaussian2d_t) (weight : Dbl) : gaussian2d_t :=
  let blend (o c : Dbl) : Dbl := Dbl.add c (Dbl.mul weight (Dbl.sub o c))
  { g with covariance :=
      ⟨blend (Dbl.mul x.a y.a) g.covariance.a, blend (Dbl.mul x.a y.b) g.covariance.b,
       blend (Dbl.mul x.b y.a) g.covariance.c, blend (Dbl.mul x.b y.b) g.covariance.d⟩ }

/-! ## Component operations (`gmm.c` lines 12-142) -/

/-- The histogram after `memset( &cluster->labels, 0, sizeof(cluster->labels) )`. -/
def labels_zero : label_manager_t := ⟨fun _ => d0, fun _ => 0, 0⟩

/-- `GaussianMixtureCluster_UpdateNormal`. -/
def GaussianMixtureCluster_UpdateNormal (E : Env) (cluster : gaussian_mixture_cluster_t) :
    gaussian_mixture_cluster_t :=
  let norm_factor :=
    Dbl.neg (E.log (Dbl.mul (Dbl.mul (Dbl.mul (Dbl.fin 2) M_PI) (E.sqrt cluster.llt_in.a))
      (E.sqrt cluster.llt_in.d)))
  { cluster with log_gaussian_norm_factor := norm_factor }

/-- `GaussianMixtureCluster_Initialize` on a non-NULL component. -/
def GaussianMixtureCluster_Initialize (E : Env) (cluster : gaussian_mixture_cluster_t)
    (observation : observation_t) (output : vec2_t) : gaussian_mixture_cluster_t :=
  let c1 : gaussian_mixture_cluster_t :=
    { cluster with
      gaussian_in := ⟨⟨observation.density, observation.thresh⟩,
        ⟨E.INITIAL_VARIANCE, d0, d0, E.INITIAL_VARIANCE⟩⟩
      gaussian_out := ⟨⟨output.a, output.b⟩, ⟨d0, d0, d0, d0⟩⟩
      inv_covariance_in := ⟨E.INV_INITIAL_VARIANCE, d0, d0, E.INV_INITIAL_VARIANCE⟩
      score := d1
      labels :=
        { average := Function.update labels_zero.average observation.label d1
          count := Function.update labels_zero.count observation.label
            (labels_zero.count observation.label + 1)
          num_valid := labels_zero.num_valid } }
  let c2 := { c1 with llt_in := Mat2x2_LLT E c1.gaussian_in.covariance }
  GaussianMixtureCluster_UpdateNormal E c2

/-- `GaussianMixtureCluster_UpdateLimits`. -/
def GaussianMixtureCluster_UpdateLimits (E : Env) (cluster : gaussian_mixture_cluster_t) :
    gaussian_mixture_cluster_t :=
  let radius_y := Dbl.mul cluster.gaussian_in.covariance.d E.VALID_CLUSTER_STD_DEV
  { cluster with
    max_y := Dbl.add cluster.gaussian_in.mean.b radius_y
    min_y := Dbl.sub cluster.gaussian_in.mean.b radius_y }

/-- `GaussianMixtureCluster_Update`; `now` is the value of `TIMESTAMP()`. -/
def GaussianMixtureCluster_Update (E : Env) (cluster : gaussian_mixture_cluster_t)
    (observation : observation_t) (output : vec2_t) (now : Dbl) : gaussian_mixture_cluster_t :=
  if Dbl.isnan cluster.log_gaussian_norm_factor then cluster
  else if Dbl.gt cluster.mahalanobis_sq E.MAX_MAHALANOBIS_SQ_FOR_UPDATE then cluster
  else
    let score_weight := Dbl.mul E.ALPHA (E.SafeExp (Dbl.mul (Dbl.neg E.BETA) cluster.mahalanobis_sq))
    let score := Dbl.add cluster.score
      (Dbl.mul score_weight (Dbl.sub cluster.probability_condition_input cluster.score))
    let weight := Dbl.mul E.ALPHA cluster.probability_condition_input
    let r_in := WeightedMeanUpdate ⟨observation.density, observation.thresh⟩ cluster.gaussian_in weight
    let r_out := WeightedMeanUpdate output cluster.gaussian_out weight
    let delta_mean_in := r_in.1
    let delta_mean_out := r_out.1
    let g_in := WeightedUpdate delta_mean_in delta_mean_in r_in.2 weight
    let g_out := WeightedUpdate delta_mean_in delta_mean_out r_out.2 weight
    let c1 : gaussian_mixture_cluster_t :=
      { cluster with
        score := score
        gaussian_in := g_in
        gaussian_out := g_out
        llt_in := Mat2x2_LLT E g_in.covariance
        inv_covariance_in := Mat2x2_Inverse g_in.covariance }
    let c2 := GaussianMixtureCluster_UpdateLimits E (GaussianMixtureCluster_UpdateNormal E c1)
    { c2 with labels := E.ReportLabel c2.labels observation.label, timestamp := now }

/-- `GaussianMixtureCluster_GetScore`. -/
def GaussianMixtureCluster_GetScore (E : Env) (cluster : gaussian_mixture_cluster_t)
    (input : vec2_t) : gaussian_mixture_cluster_t :=
  let input_delta := Vec2_Subtract input cluster.gaussian_in.mean
  let mahalanobis_sq := BOUNDU (MahalanobisSq cluster.inv_covariance_in input_delta) E.MAX_DISTANCE
  { cluster with
    mahalanobis_sq := mahalanobis_sq
    probability_of_in := E.SafeExp
      (Dbl.sub cluster.log_gaussian_norm_factor (Dbl.mul (Dbl.fin (1 / 2)) mahalanobis_sq)) }

/-- `GaussianMixtureCluster_UpdateInputProbability`. -/
def GaussianMixtureCluster_UpdateInputProbability (E : Env)
    (cluster : gaussian_mixture_cluster_t) (total_probability : Dbl) :
    gaussian_mixture_cluster_t :=
  { cluster with
    probability_condition_input :=
      if Dbl.gt total_probability E.MIN_TOTAL_MIXTURE_PROBABILITY
      then ZDIV cluster.probability_of_in total_probability else d0 }

/-- `GaussianMixtureCluster_ContributeToOutput`; returns the new `*output`. -/
def GaussianMixtureCluster_ContributeToOutput (cluster : gaussian_mixture_cluster_t)
    (input : vec2_t) (output : vec2_t) : vec2_t :=
  let input_delta := Vec2_Subtract input cluster.gaussian_in.mean
  let inv_covariance_delta := Mat2x2_DotVec2 cluster.inv_covariance_in input_delta
  let cov_out_T : mat2x2 :=
    ⟨cluster.gaussian_out.covariance.a, cluster.gaussian_out.covariance.c,
     cluster.gaussian_out.covariance.b, cluster.gaussian_out.covariance.d⟩
  let input_covariance := Mat2x2_DotVec2 cov_out_T inv_covariance_delta
  let pre_condition := Vec2_Add cluster.gaussian_out.mean input_covariance
  let pre_output := Vec2_ScalarMultiply cluster.probability_condition_input pre_condition
  Vec2_Add output pre_output

/-- The loop of `GaussianMixtureCluster_Weigh` from index `i`, with `k` iterations left. -/
def Weigh_scan (average : Nat → Dbl) : Nat → Nat → Dbl × Dbl → Dbl × Dbl
  | 0, _, fs => fs
  | k + 1, i, (first, second) =>
    let check := average i
    if Dbl.gt check first then Weigh_scan average k (i + 1) (check, first)
    else if Dbl.gt check second then Weigh_scan average k (i + 1) (first, check)
    else Weigh_scan average k (i + 1) (first, second)

/-- `GaussianMixtureCluster_Weigh`. -/
def GaussianMixtureCluster_Weigh (cluster : gaussian_mixture_cluster_t) :
    gaussian_mixture_cluster_t :=
  let fs := Weigh_scan cluster.labels.average (cluster.labels.num_valid - 1) 1
    (cluster.labels.average 0, d0)
  let a := Dbl.mul cluster.gaussian_in.covariance.b cluster.gaussian_in.covariance.c
  let b := Dbl.mul cluster.gaussian_in.covariance.a cluster.gaussian_in.covariance.d
  let eccentricity_factor := ZDIV a b
  { cluster with
    weight := Dbl.mul (Dbl.add fs.1 fs.2) eccentricity_factor
    primary_id := fs.1
    secondary_id := fs.2 }

/-! ## Model operations (`gmm.c` lines 144-275) -/

/-- A component after `memset( ..., 0, ... )`. -/
def cluster_zero : gaussian_mixture_cluster_t :=
  { gaussian_in := ⟨⟨d0, d0⟩, ⟨d0, d0, d0, d0⟩⟩
    gaussian_out := ⟨⟨d0, d0⟩, ⟨d0, d0, d0, d0⟩⟩
    inv_covariance_in := ⟨d0, d0, d0, d0⟩
    llt_in := ⟨d0, d0, d0, d0⟩
    score := d0
    log_gaussian_norm_factor := d0
    mahalanobis_sq := d0
    probability_of_in := d0
    probability_condition_input := d0
    weight := d0
    primary_id := d0
    secondary_id := d0
    min_y := d0
    max_y := d0
    timestamp := d0
    labels := labels_zero }

/-- `GaussianMixtureModel_Initialize`: zero everything, then point slot `i` at
`cluster_mem[i]`. -/
def GaussianMixtureModel_Initialize (E : Env) (name : String) : gaussian_mixture_model_t :=
  { name := name
    cluster := (List.range E.MAX_CLUSTERS).map some
    cluster_mem := fun _ => cluster_zero
    num_clusters := 0
    min_in := ⟨d0, d0⟩
    max_in := ⟨d0, d0⟩
    min_out := ⟨d0, d0⟩
    max_out := ⟨d0, d0⟩ }

/-- The storage index behind `model->cluster[i]` when the component is accessed through
it: `none` when `i` is outside the array or the slot is NULL. -/
def deref (model : gaussian_mixture_model_t) (i : Nat) : Option Nat :=
  match model.cluster[i]? with
  | some (some p) => some p
  | _ => none

/-- Store a component at storage index `p`. -/
def store (model : gaussian_mixture_model_t) (p : Nat) (c : gaussian_mixture_cluster_t) :
    gaussian_mixture_model_t :=
  { model with cluster_mem := Function.update model.cluster_mem p c }

/-- The loop shape shared by `GetScoreSumOfClusters`, `GetOutputAndBestDistance` and the
first loop of `Update`:
`for( uint8_t i = 0; i < model->num_clusters; i++ ) { cluster = model->cluster[i]; ... }`,
from index `i` with `k` iterations left.  The body rewrites the component and a local
state `s`; it does not touch `num_clusters`. -/
def forClusters {σ : Type} (body : gaussian_mixture_cluster_t → σ → gaussian_mixture_cluster_t × σ) :
    Nat → Nat → gaussian_mixture_model_t → σ → Option (gaussian_mixture_model_t × σ)
  | 0, _, model, s => some (model, s)
  | k + 1, i, model, s =>
    match deref model i with
    | none => none
    | some p =>
      let r := body (model.cluster_mem p) s
      forClusters body k (i + 1) (store model p r.1) r.2

/-- `GaussianMixtureModel_GetScoreSumOfClusters`; returns the model and `score_sum`. -/
def GaussianMixtureModel_GetScoreSumOfClusters (E : Env) (model : gaussian_mixture_model_t)
    (input : vec2_t) : Option (gaussian_mixture_model_t × Dbl) :=
  forClusters
    (fun cluster score_sum =>
      let c := GaussianMixtureCluster_GetScore E cluster input
      (c, Dbl.add score_sum c.probability_of_in))
    model.num_clusters 0 model d0

/-- `GaussianMixtureModel_GetOutputAndBestDistance`; the local state is
`(*output, best_match_distance)`. -/
def GaussianMixtureModel_GetOutputAndBestDistance (E : Env) (model : gaussian_mixture_model_t)
    (total_probability : Dbl) (input : vec2_t) (output : vec2_t) :
    Option (gaussian_mixture_model_t × (vec2_t × Dbl)) :=
  forClusters
    (fun cluster (s : vec2_t × Dbl) =>
      let c := GaussianMixtureCluster_UpdateInputProbability E cluster total_probability
      let out := if Dbl.gt c.score E.MIN_CLUSTER_SCORE
        then GaussianMixtureCluster_ContributeToOutput c input s.1 else s.1
      let best := if Dbl.lt c.mahalanobis_sq s.2 then c.mahalanobis_sq else s.2
      (c, (out, best)))
    model.num_clusters 0 model (output, E.MAX_DISTANCE)

/-- `GaussianMixtureModel_GetMaxError`. -/
def GaussianMixtureModel_GetMaxError (output value min_max_delta : vec2_t) : Dbl :=
  let output_delta := Vec2_Subtract value output
  let a_error := Dbl.fabs (ZDIV output_delta.a min_max_delta.a)
  let b_error := Dbl.fabs (ZDIV output_delta.b min_max_delta.b)
  MAX a_error b_error

/-- The scan of `GaussianMixtureModel_AddCluster` for a NULL slot, from index `i` with
`k` iterations left; returns the index at which the loop stops. -/
def AddCluster_scan (model : gaussian_mixture_model_t) : Nat → Nat → Option Nat
  | 0, i => some i
  | k + 1, i =>
    match model.cluster[i]? with
    | none => none
    | some none => some i
    | some (some _) => AddCluster_scan model k (i + 1)

/-- `GaussianMixtureModel_AddCluster`. -/
def GaussianMixtureModel_AddCluster (E : Env) (model : gaussian_mixture_model_t)
    (observation : observation_t) (value : vec2_t) : Option gaussian_mixture_model_t :=
  match AddCluster_scan model model.num_clusters 0 with
  | none => none
  | some i =>
    match model.cluster[i]? with
    | none => none
    | some none => some { model with num_clusters := model.num_clusters + 1 }
    | some (some p) =>
      some { store model p (GaussianMixtureCluster_Initialize E (model.cluster_mem p) observation value)
             with num_clusters := model.num_clusters + 1 }

/-- `GaussianMixtureModel_RemoveCluster`.  With `num_clusters = 0` the decrement wraps
and the slot read that follows leaves the array. -/
def GaussianMixtureModel_RemoveCluster (model : gaussian_mixture_model_t) (index : Nat) :
    Option gaussian_mixture_model_t :=
  if model.num_clusters = 0 then none
  else
    let n := model.num_clusters - 1
    match model.cluster[index]?, model.cluster[n]? with
    | some remove_cluster, some last =>
      some { model with
             num_clusters := n
             cluster := (model.cluster.set index last).set n remove_cluster }
    | _, _ => none

/-- The removal test of the maintenance loop of `GaussianMixtureModel_Update`. -/
def removal_condition (E : Env) (now : Dbl) (cluster : gaussian_mixture_cluster_t) : Bool :=
  Dbl.lt cluster.score E.MIN_CLUSTER_SCORE
    || E.ISTIMEDOUT now cluster.timestamp E.MAX_CLUSTER_LIFETIME
    || Dbl.isnan cluster.log_gaussian_norm_factor

/-- The second loop of `GaussianMixtureModel_Update` (the maintenance pass), from index
`i`; `k` bounds the iterations that are left, and running out of it gives `none`. -/
def Update_maintenance (E : Env) (now : Dbl) :
    Nat → Nat → gaussian_mixture_model_t → Option gaussian_mixture_model_t
  | 0, i, model => if i < model.num_clusters then none else some model
  | k + 1, i, model =>
    if i < model.num_clusters then
      match deref model i with
      | none => none
      | some p =>
        if removal_condition E now (model.cluster_mem p) then
          match GaussianMixtureModel_RemoveCluster model i with
          | none => none
          | some model1 => Update_maintenance E now k (i + 1) model1
        else Update_maintenance E now k (i + 1) model
    else some model

/-- The first loop of `GaussianMixtureModel_Update`: update every live component. -/
def Update_components (E : Env) (model : gaussian_mixture_model_t)
    (observation : observation_t) (value : vec2_t) (now : Dbl) :
    Option (gaussian_mixture_model_t × Unit) :=
  forClusters
    (fun cluster u => (GaussianMixtureCluster_Update E cluster observation value now, u))
    model.num_clusters 0 model ()

/-- `GaussianMixtureModel_Update`. -/
def GaussianMixtureModel_Update (E : Env) (model : gaussian_mixture_model_t)
    (observation : observation_t) (value : vec2_t) (now : Dbl) :
    Option gaussian_mixture_model_t :=
  match Update_components E model observation value now with
  | none => none
  | some r => Update_maintenance E now r.1.num_clusters 0 r.1

/-- The range trackers at the head of `GaussianMixtureModel_AddValue` (lines 232-245). -/
def AddValue_extrema (model : gaussian_mixture_model_t) (observation : observation_t)
    (value : vec2_t) : gaussian_mixture_model_t :=
  if model.num_clusters = 0 then
    { model with
      min_in := ⟨observation.density, observation.thresh⟩
      max_in := ⟨observation.density, observation.thresh⟩
      min_out := value
      max_out := value }
  else
    { model with
      min_in := ⟨MIN model.min_in.a observation.density, MIN model.min_in.b observation.thresh⟩
      max_in := ⟨MAX model.max_in.a observation.density, MAX model.max_in.b observation.thresh⟩
      min_out := ⟨MIN model.min_out.a value.a, MIN model.min_out.b value.b⟩
      max_out := ⟨MAX model.max_out.a value.a, MAX model.max_out.b value.b⟩ }

/-- What `GaussianMixtureModel_AddValue` has computed when it reaches the call of
`Update` (lines 232-254). -/
structure AddValue_scored where
  model : gaussian_mixture_model_t
  output : vec2_t
  best_distance : Dbl
  max_error : Dbl

/-- Lines 232-254 of `GaussianMixtureModel_AddValue`: range trackers, scores,
blended output, best distance and maximum error. -/
def AddValue_score (E : Env) (model : gaussian_mixture_model_t) (observation : observation_t)
    (value : vec2_t) : Option AddValue_scored :=
  let model0 := AddValue_extrema model observation value
  let observation_vec : vec2_t := ⟨observation.density, observation.thresh⟩
  match GaussianMixtureModel_GetScoreSumOfClusters E model0 observation_vec with
  | none => none
  | some r1 =>
    match GaussianMixtureModel_GetOutputAndBestDistance E r1.1 r1.2 observation_vec ⟨d0, d0⟩ with
    | none => none
    | some r2 =>
      let min_max_delta := Vec2_Subtract r2.1.max_out r2.1.min_out
      some ⟨r2.1, r2.2.1, r2.2.2,
        GaussianMixtureModel_GetMaxError r2.2.1 value min_max_delta⟩

/-- The spawn test of `GaussianMixtureModel_AddValue` (lines 260-263). -/
def spawn_condition (E : Env) (model : gaussian_mixture_model_t) (max_error best_distance : Dbl) :
    Bool :=
  decide (model.num_clusters < E.MAX_CLUSTERS)
    && (decide (model.num_clusters = 0)
        || (Dbl.gt max_error E.MAX_ERROR && Dbl.gt best_distance E.MAX_MAHALANOBIS_SQ))

/-- `GaussianMixtureModel_AddValue`; `now` is the clock value during the call. -/
def GaussianMixtureModel_AddValue (E : Env) (model : gaussian_mixture_model_t)
    (observation : observation_t) (value : vec2_t) (now : Dbl) :
    Option gaussian_mixture_model_t :=
  match AddValue_score E model observation value with
  | none => none
  | some s =>
    match GaussianMixtureModel_Update E s.model observation value now with
    | none => none
    | some model2 =>
      if spawn_condition E model2 s.max_error s.best_distance
      then GaussianMixtureModel_AddCluster E model2 observation value
      else some model2

/-- One call of `AddValue`: the observation, the target value and the clock value. -/
structure Call where
  observation : observation_t
  value : vec2_t
  now : Dbl

/-- A sequence of `AddValue` calls on one model. -/
def AddValues (E : Env) : gaussian_mixture_model_t → List Call → Option gaussian_mixture_model_t
  | model, [] => some model
  | model, c :: cs =>
    match GaussianMixtureModel_AddValue E model c.observation c.value c.now with
    | none => none
    | some model1 => AddValues E model1 cs

/-! ## A concrete configuration, used to run the model on examples -/

/-- One Newton step for the square root of `q` from the estimate `x`. -/
def sqrtStep (q x : ℚ) : ℚ := (x + q / x) / 2

/-- A stand-in for the libm `sqrt`: five Newton steps from the power of two next to the
root, rounded to binary64. -/
def sqrt0 : Dbl → Dbl
  | Dbl.nan => Dbl.nan
  | Dbl.ninf => Dbl.nan
  | Dbl.pinf => Dbl.pinf
  | Dbl.fin q =>
    if q < 0 then Dbl.nan
    else if q = 0 then Dbl.fin 0
    else
      Dbl.round (sqrtStep q (sqrtStep q (sqrtStep q (sqrtStep q (sqrtStep q
        (Dbl.pow2 ((Dbl.exponent q + 1) / 2)))))))

/-- A stand-in for the libm `log`: the first two terms of the area-tangent series,
rounded to binary64. -/
def log0 : Dbl → Dbl
  | Dbl.nan => Dbl.nan
  | Dbl.ninf => Dbl.nan
  | Dbl.pinf => Dbl.pinf
  | Dbl.fin q =>
    if q < 0 then Dbl.nan
    else if q = 0 then Dbl.ninf
    else Dbl.round (2 * ((q - 1) / (q + 1)) * (1 + (q - 1) / (q + 1) * ((q - 1) / (q + 1)) / 3))

/-- A stand-in for `SafeExp`: always finite, zero below -700, capped above 700, and in
between a quotient of quadratics rounded to binary64. -/
def SafeExp0 : Dbl → Dbl
  | Dbl.nan => Dbl.fin 0
  | Dbl.ninf => Dbl.fin 0
  | Dbl.pinf => Dbl.fin (2 ^ 1000)
  | Dbl.fin q =>
    if q < -700 then Dbl.fin 0
    else if 700 < q then Dbl.fin (2 ^ 1000)
    else if q < 0 then Dbl.round (1 / (1 - q + q * q / 2))
    else Dbl.round (1 + q + q * q / 2)

/-- A stand-in for `ReportLabel`: count the label and make it valid. -/
def ReportLabel0 (labels : label_manager_t) (label : Nat) : label_manager_t :=
  { labels with
    count := Function.update labels.count label (labels.count label + 1)
    num_valid := max labels.num_valid (label + 1) }

/-- The macro `ISTIMEDOUT` as `now - timestamp > lifetime`. -/
def ISTIMEDOUT0 (now timestamp lifetime : Dbl) : Bool :=
  Dbl.gt (Dbl.sub now timestamp) lifetime

/-- A configuration with capacity four; the constants are the doubles nearest to the
decimal values. -/
def Env0 : Env :=
  { MAX_CLUSTERS := 4
    MAX_CLUSTERS_pos := by decide
    MAX_CLUSTERS_le := by decide
    INITIAL_VARIANCE := Dbl.fin 1
    INV_INITIAL_VARIANCE := Dbl.fin 1
    ALPHA := Dbl.round (1 / 10)
    BETA := Dbl.fin 1
    MAX_DISTANCE := Dbl.fin 1000
    MAX_MAHALANOBIS_SQ := Dbl.fin 9
    MAX_MAHALANOBIS_SQ_FOR_UPDATE := Dbl.fin 20
    MAX_ERROR := Dbl.round (1 / 5)
    MIN_CLUSTER_SCORE := Dbl.round (1 / 10)
    MIN_TOTAL_MIXTURE_PROBABILITY := Dbl.round (1 / 100000)
    VALID_CLUSTER_STD_DEV := Dbl.fin 1
    MAX_CLUSTER_LIFETIME := Dbl.fin 10
    sqrt := sqrt0
    log := log0
    SafeExp := SafeExp0
    ReportLabel := ReportLabel0
    ISTIMEDOUT := ISTIMEDOUT0 }

/-! ## Well-formed models -/

/-- The slot array as `GaussianMixtureModel_Initialize` leaves it and as every operation
keeps it: `MAX_CLUSTERS` slots, none NULL, no two pointing at the same storage, and
`num_clusters` within the capacity. -/
structure Initialised (E : Env) (model : gaussian_mixture_model_t) : Prop where
  length_eq : model.cluster.length = E.MAX_CLUSTERS
  num_le : model.num_clusters ≤ E.MAX_CLUSTERS
  non_null : ∀ s ∈ model.cluster, s ≠ none
  nodup : model.cluster.Nodup

/-- The storage indices of the live components, in slot order. -/
def live (model : gaussian_mixture_model_t) : List Nat :=
  (List.range' 0 model.num_clusters).filterMap (deref model)

/-! ## Concrete inputs -/

/-- A zeroed component with the given score and normalisation factor whose last
Mahalanobis distance is saturated at `Env0.MAX_DISTANCE`. -/
def cluster_far (score log_norm : Dbl) : gaussian_mixture_cluster_t :=
  { cluster_zero with
    score := score
    log_gaussian_norm_factor := log_norm
    mahalanobis_sq := Dbl.fin 1000 }

/-- A model of `Env0` with two live components, both with a score below
`MIN_CLUSTER_SCORE = 1/10`. -/
def model_two_weak : gaussian_mixture_model_t :=
  { GaussianMixtureModel_Initialize Env0 "gmm" with
    cluster_mem := fun p =>
      if p = 0 then cluster_far (Dbl.round (1 / 20)) d0
      else if p = 1 then cluster_far (Dbl.round (1 / 50)) d0
      else cluster_zero
    num_clusters := 2 }

/-- A model of `Env0` with one live component of score 1 whose normalisation factor is
plus infinity. -/
def model_one_inf : gaussian_mixture_model_t :=
  { GaussianMixtureModel_Initialize Env0 "gmm" with
    cluster_mem := fun p => if p = 0 then cluster_far d1 Dbl.pinf else cluster_zero
    num_clusters := 1 }

/-- The observation `(density 0, thresh 0, label 0)`. -/
def observation_zero : observation_t := ⟨d0, d0, 0⟩

/-! ## Range trackers against the history of calls -/

/-- `x` is the minimum of the values `xs`: one of them, and none of them is below it. -/
def IsMinimumOf (x : Dbl) (xs : List Dbl) : Prop :=
  x ∈ xs ∧ ∀ y ∈ xs, Dbl.lt y x = false

/-- `x` is the maximum of the values `xs`: one of them, and none of them is above it. -/
def IsMaximumOf (x : Dbl) (xs : List Dbl) : Prop :=
  x ∈ xs ∧ ∀ y ∈ xs, Dbl.lt x y = false

/-- The inputs and the target of a call are numbers (none is NaN). -/
def Call.numeric (k : Call) : Prop :=
  Dbl.isnan k.observation.density = false ∧ Dbl.isnan k.observation.thresh = false ∧
    Dbl.isnan k.value.a = false ∧ Dbl.isnan k.value.b = false

/-- The range trackers of `model` are the component-wise extrema of the inputs
`(density, thresh)` and of the target values of the calls `seen`. -/
structure Tracked (model : gaussian_mixture_model_t) (seen : List Call) : Prop where
  min_in_a : IsMinimumOf model.min_in.a (seen.map fun k => k.observation.density)
  min_in_b : IsMinimumOf model.min_in.b (seen.map fun k => k.observation.thresh)
  max_in_a : IsMaximumOf model.max_in.a (seen.map fun k => k.observation.density)
  max_in_b : IsMaximumOf model.max_in.b (seen.map fun k => k.observation.thresh)
  min_out_a : IsMinimumOf model.min_out.a (seen.map fun k => k.value.a)
  min_out_b : IsMinimumOf model.min_out.b (seen.map fun k => k.value.b)
  max_out_a : IsMaximumOf model.max_out.a (seen.map fun k => k.value.a)
  max_out_b : IsMaximumOf model.max_out.b (seen.map fun k => k.value.b)

/-! ## The blended output as the specification words it -/

/-- The transpose of a 2x2 matrix. -/
def Mat2x2_transpose (m : mat2x2) : mat2x2 := ⟨m.a, m.c, m.b, m.d⟩

/-- The vote of one component as the specification words it:
`probability_condition_input · (gaussian_out.mean +
transpose(gaussian_out.covariance) · inv_covariance_in · (input - gaussian_in.mean))`. -/
def weighted_prediction (cluster : gaussian_mixture_cluster_t) (input : vec2_t) : vec2_t :=
  Vec2_ScalarMultiply cluster.probability_condition_input
    (Vec2_Add cluster.gaussian_out.mean
      (Mat2x2_DotVec2 (Mat2x2_transpose cluster.gaussian_out.covariance)
        (Mat2x2_DotVec2 cluster.inv_covariance_in
          (Vec2_Subtract input cluster.gaussian_in.mean))))

/-- The sum of a list of vectors, accumulated from zero in list order. -/
def Vec2_sum (vs : List vec2_t) : vec2_t := vs.foldl Vec2_Add ⟨d0, d0⟩

/-- Both coordinates are finite. -/
def vec2_t.finite (v : vec2_t) : Bool := Dbl.isfinite v.a && Dbl.isfinite v.b

/-- All four entries are finite. -/
def mat2x2.finite (m : mat2x2) : Bool :=
  Dbl.isfinite m.a && Dbl.isfinite m.b && Dbl.isfinite m.c && Dbl.isfinite m.d

/-- The first call of the scenario of the specification: observation
`(density 0, thresh 0, label 0)` with target `(0, 0)`, at clock value 0. -/
def call_first : Call := ⟨⟨Dbl.fin 0, Dbl.fin 0, 0⟩, ⟨Dbl.fin 0, Dbl.fin 0⟩, Dbl.fin 0⟩

/-- The second call of the scenario of the specification: observation
`(density 10, thresh 10, label 1)` with target `(10, 10)`, at clock value 1. -/
def call_second : Call := ⟨⟨Dbl.fin 10, Dbl.fin 10, 1⟩, ⟨Dbl.fin 10, Dbl.fin 10⟩, Dbl.fin 1⟩

/-- A zeroed component of score 1 whose normalisation factor is plus infinity; its last
Mahalanobis distance is 0 and its timestamp is 0. -/
def cluster_inf : gaussian_mixture_cluster_t :=
  { cluster_zero with score := d1, log_gaussian_norm_factor := Dbl.pinf }

/-! ## Further concrete inputs and the formulas of the specification -/

/-- A zeroed component that carries data of an earlier life: timestamp 7, weight 3 and a
saturated last distance. -/
def cluster_old : gaussian_mixture_cluster_t :=
  { cluster_zero with
    timestamp := Dbl.fin 7
    weight := Dbl.fin 3
    mahalanobis_sq := Dbl.fin 1000 }

/-- A model of `Env0` at full capacity: four live components. -/
def model_full : gaussian_mixture_model_t :=
  { GaussianMixtureModel_Initialize Env0 "gmm" with num_clusters := 4 }

/-- The configuration `Env0` with an initial variance of 4. -/
def Env4 : Env :=
  { Env0 with INITIAL_VARIANCE := Dbl.fin 4, INV_INITIAL_VARIANCE := Dbl.fin (1 / 4) }

/-- The formula `-log(2π·sqrt(m.a)·sqrt(m.d))` of the specification on the diagonal of a
matrix `m`. -/
def log_norm_formula (E : Env) (m : mat2x2) : Dbl :=
  Dbl.neg (E.log (Dbl.mul (Dbl.mul (Dbl.mul (Dbl.fin 2) M_PI) (E.sqrt m.a)) (E.sqrt m.d)))

/-- Modelled from the spec: the contract of `SafeExp` (its body is not in `gmm.c`), "a
clamped, always-finite result". -/
def SafeExp_finite (E : Env) : Prop :=
  ∀ x, Dbl.isfinite (E.SafeExp x) = true

/-- Modelled from the spec: on arguments that are not positive, minus infinity included,
`SafeExp` (its body is not in `gmm.c`) behaves as the exponential: finite, between 0 and
1, and non-decreasing. -/
def SafeExp_decays (E : Env) : Prop :=
  (∀ x : Dbl, Dbl.le x (Dbl.fin 0) = true →
    ∃ y : ℚ, E.SafeExp x = Dbl.fin y ∧ 0 ≤ y ∧ y ≤ 1) ∧
  (∀ (x x' : Dbl) (y y' : ℚ), Dbl.le x x' = true → Dbl.le x' (Dbl.fin 0) = true →
    E.SafeExp x = Dbl.fin y → E.SafeExp x' = Dbl.fin y' → y ≤ y')

/-- The first and the second of the values `xs`: `first` is their maximum and,
with `rest` what is left after one occurrence of `first` is taken out, `second` is
the maximum of `rest`, or 0 when nothing is left. -/
def IsTopTwo (first second : Dbl) (xs : List Dbl) : Prop :=
  ∃ rest, List.Perm xs (first :: rest) ∧ IsMaximumOf first xs ∧
    (rest = [] → second = d0) ∧ (rest ≠ [] → IsMaximumOf second rest)

/-- A component with two valid labels whose averages are -1 and -2. -/
def cluster_negative : gaussian_mixture_cluster_t :=
  { cluster_zero with
    labels :=
      { average := fun i => if i = 0 then Dbl.fin (-1) else Dbl.fin (-2)
        count := fun _ => 0
        num_valid := 2 } }

/-- A component with three valid labels whose averages are 1/4, 1/2 and 1/4. -/
def cluster_three_labels : gaussian_mixture_cluster_t :=
  { cluster_zero with
    labels :=
      { average := fun i => if i = 1 then Dbl.fin (1 / 2) else Dbl.fin (1 / 4)
        count := fun _ => 0
        num_valid := 3 } }

/-- Modelled from the spec: `SafeExp` (its body is not in `gmm.c`) returns a finite double
that is not negative: "0 for very negative exponents and a bounded value for overflow". -/
def SafeExp_probability (E : Env) : Prop :=
  ∀ x, ∃ q : ℚ, E.SafeExp x = Dbl.fin q ∧ 0 ≤ q ∧ Dbl.round q = Dbl.fin q

/-- The only live component of a model after the two scoring loops of `AddValue` on the
input `x`: scored, with the total probability its own `probability_of_in` added to 0. -/
def sole_scored (E : Env) (c : gaussian_mixture_cluster_t) (x : vec2_t) :
    gaussian_mixture_cluster_t :=
  GaussianMixtureCluster_UpdateInputProbability E (GaussianMixtureCluster_GetScore E c x)
    (Dbl.add d0 (GaussianMixtureCluster_GetScore E c x).probability_of_in)

/-- The blended output of a model whose only live component is `c`. -/
def sole_output (E : Env) (c : gaussian_mixture_cluster_t) (x : vec2_t) : vec2_t :=
  if Dbl.gt (sole_scored E c x).score E.MIN_CLUSTER_SCORE
  then GaussianMixtureCluster_ContributeToOutput (sole_scored E c x) x ⟨d0, d0⟩
  else ⟨d0, d0⟩

/-- The best distance of a model whose only live component is `c`. -/
def sole_best (E : Env) (c : gaussian_mixture_cluster_t) (x : vec2_t) : Dbl :=
  if Dbl.lt (sole_scored E c x).mahalanobis_sq E.MAX_DISTANCE
  then (sole_scored E c x).mahalanobis_sq
  else E.MAX_DISTANCE

/-- The only live component of a model after the per-component update of `AddValue`. -/
def sole_updated (E : Env) (c : gaussian_mixture_cluster_t) (observation : observation_t)
    (value : vec2_t) (now : Dbl) : gaussian_mixture_cluster_t :=
  GaussianMixtureCluster_Update E
    (sole_scored E c ⟨observation.density, observation.thresh⟩) observation value now

/-- The configuration `Env0` with `ALPHA = 1`. -/
def Env1 : Env := { Env0 with ALPHA := Dbl.fin 1 }

/-- A zeroed component of score 1 whose responsibility is the double nearest to 0.1; its
last Mahalanobis distance is 0. -/
def cluster_tenth : gaussian_mixture_cluster_t :=
  { cluster_zero with score := d1, probability_condition_input := Dbl.round (1 / 10) }

/-! ## Inputs for the responsibilities -/

/-- A component fresh from `Initialize` at input `(0, 0)` with target `(5, 6)`, scored
with `probability_of_in = 1`. -/
def cluster_fresh : gaussian_mixture_cluster_t :=
  { GaussianMixtureCluster_Initialize Env0 cluster_zero observation_zero
      ⟨Dbl.fin 5, Dbl.fin 6⟩ with probability_of_in := d1 }

/-- A model of `Env0` whose only live component is `cluster_fresh`. -/
def model_fresh : gaussian_mixture_model_t :=
  { GaussianMixtureModel_Initialize Env0 "gmm" with
    cluster_mem := fun p => if p = 0 then cluster_fresh else cluster_zero
    num_clusters := 1 }

/-- The component `cluster_fresh` moved to the input mean `(-2^1023, 0)`. -/
def cluster_edge : gaussian_mixture_cluster_t :=
  { cluster_fresh with
    gaussian_in := ⟨⟨Dbl.fin (-Dbl.pow2 1023), Dbl.fin 0⟩, cluster_fresh.gaussian_in.covariance⟩ }

/-- A model of `Env0` whose only live component is `cluster_edge`. -/
def model_edge : gaussian_mixture_model_t :=
  { GaussianMixtureModel_Initialize Env0 "gmm" with
    cluster_mem := fun p => if p = 0 then cluster_edge else cluster_zero
    num_clusters := 1 }

/-! ## Inputs for the repeated observation -/

/-- The second call of the scenario at clock value 11, past the lifetime 10 of `Env0`. -/
def call_second_late : Call :=
  ⟨⟨Dbl.fin 10, Dbl.fin 10, 1⟩, ⟨Dbl.fin 10, Dbl.fin 10⟩, Dbl.fin 11⟩

/-- The configuration `Env0` with `INITIAL_VARIANCE = 50` and its inverse, the double
nearest to 0.02. -/
def Env50 : Env :=
  { Env0 with INITIAL_VARIANCE := Dbl.fin 50, INV_INITIAL_VARIANCE := Dbl.round (1 / 50) }

/-! ## Rounding to binary64 -/

namespace Dbl

theorem pow2_eq (e : ℤ) : pow2 e = (2 : ℚ) ^ e := by
  unfold pow2
  split
  · next h =>
    obtain ⟨n, rfl⟩ := Int.eq_ofNat_of_zero_le h
    simp
  · next h =>
    obtain ⟨n, hn⟩ := Int.eq_ofNat_of_zero_le (by omega : 0 ≤ -e)
    have he : e = -(n : ℤ) := by omega
    subst he
    simp

theorem pow2_pos (e : ℤ) : 0 < pow2 e := by
  rw [pow2_eq]; positivity

theorem log2Fuel_eq : ∀ (fuel n : Nat), n ≤ fuel → log2Fuel fuel n = Nat.log 2 n := by
  intro fuel
  induction fuel with
  | zero =>
    intro n h
    have : n = 0 := by omega
    subst this
    simp [log2Fuel]
  | succ k ih =>
    intro n h
    simp only [log2Fuel]
    split
    · next h2 => rw [Nat.log_of_lt h2]
    · next h2 =>
      rw [Nat.log_of_one_lt_of_le (by decide) (by omega : 2 ≤ n), ih (n / 2) (by omega)]

theorem ilog2_eq (n : Nat) : ilog2 n = Nat.log 2 n := log2Fuel_eq n n (le_refl n)

theorem exponent_spec {q : ℚ} (hq : 0 < q) :
    (2 : ℚ) ^ exponent q ≤ q ∧ q < (2 : ℚ) ^ (exponent q + 1) := by
  have hnum : 0 < q.num := Rat.num_pos.mpr hq
  have hden : 0 < q.den := q.den_pos
  obtain ⟨n, hn⟩ := Int.eq_ofNat_of_zero_le hnum.le
  have hn0 : n ≠ 0 := by rintro rfl; simp [hn] at hnum
  have hna : q.num.natAbs = n := by rw [hn]; rfl
  have hqe : q = (n : ℚ) / (q.den : ℚ) := by
    conv_lhs => rw [← Rat.num_div_den q, hn]
    simp
  have a1 : 2 ^ Nat.log 2 n ≤ n := Nat.pow_log_le_self 2 hn0
  have a2 : n < 2 ^ (Nat.log 2 n + 1) := Nat.lt_pow_succ_log_self (by decide) n
  have b1 : 2 ^ Nat.log 2 q.den ≤ q.den := Nat.pow_log_le_self 2 (ne_of_gt hden)
  have b2 : q.den < 2 ^ (Nat.log 2 q.den + 1) := Nat.lt_pow_succ_log_self (by decide) _
  have a1q : (2 : ℚ) ^ (Nat.log 2 n) ≤ n := by exact_mod_cast a1
  have a2q : (n : ℚ) < (2 : ℚ) ^ (Nat.log 2 n + 1) := by exact_mod_cast a2
  have b1q : (2 : ℚ) ^ (Nat.log 2 q.den) ≤ q.den := by exact_mod_cast b1
  have b2q : (q.den : ℚ) < (2 : ℚ) ^ (Nat.log 2 q.den + 1) := by exact_mod_cast b2
  have hdq : (0 : ℚ) < q.den := by exact_mod_cast hden
  set a := Nat.log 2 n with ha
  set b := Nat.log 2 q.den with hb
  have hpa : (0 : ℚ) < 2 ^ a := by positivity
  have hpb : (0 : ℚ) < 2 ^ b := by positivity
  have hz : ∀ k : ℤ, (2 : ℚ) ^ (k + 1) = 2 ^ k * 2 := fun k => by
    rw [zpow_add₀ (by norm_num : (2 : ℚ) ≠ 0), zpow_one]
  have hsub : (2 : ℚ) ^ ((a : ℤ) - (b : ℤ)) = 2 ^ a / 2 ^ b := by
    rw [zpow_sub₀ (by norm_num : (2 : ℚ) ≠ 0), zpow_natCast, zpow_natCast]
  have hup : q < (2 : ℚ) ^ ((a : ℤ) - (b : ℤ) + 1) := by
    rw [hz, hsub, hqe, div_lt_iff₀ hdq]
    have : (2 : ℚ) ^ a / 2 ^ b * 2 * q.den ≥ 2 ^ a * 2 := by
      rw [ge_iff_le, div_mul_eq_mul_div, div_mul_eq_mul_div, le_div_iff₀ hpb]
      nlinarith
    rw [pow_succ] at a2q
    linarith
  have hlow : (2 : ℚ) ^ ((a : ℤ) - (b : ℤ) - 1 + 1) ≤ 2 * q := by
    rw [sub_add_cancel, hsub, hqe, div_le_iff₀ hpb]
    rw [pow_succ] at b2q
    have : 2 * ((n : ℚ) / q.den) * 2 ^ b = (n : ℚ) * (2 * 2 ^ b) / q.den := by ring
    rw [this, le_div_iff₀ hdq]
    nlinarith
  unfold exponent
  rw [hna, ilog2_eq, ilog2_eq, pow2_eq]
  split
  · next h => exact ⟨h, hup⟩
  · next h =>
    rw [not_le] at h
    constructor
    · have := hz ((a : ℤ) - (b : ℤ) - 1)
      rw [this] at hlow
      linarith
    · rw [sub_add_cancel]; exact h

theorem exponent_unique {q : ℚ} (hq : 0 < q) (e : ℤ) (h1 : (2 : ℚ) ^ e ≤ q)
    (h2 : q < (2 : ℚ) ^ (e + 1)) : exponent q = e := by
  obtain ⟨s1, s2⟩ := exponent_spec hq
  have two : (1 : ℚ) < 2 := by norm_num
  have c1 : exponent q < e + 1 := (zpow_lt_zpow_iff_right₀ two).mp (lt_of_le_of_lt s1 h2)
  have c2 : e < exponent q + 1 := (zpow_lt_zpow_iff_right₀ two).mp (lt_of_le_of_lt h1 s2)
  omega

theorem exponent_mono {q1 q2 : ℚ} (hq : 0 < q1) (h : q1 ≤ q2) : exponent q1 ≤ exponent q2 := by
  obtain ⟨s1, _⟩ := exponent_spec hq
  obtain ⟨_, t2⟩ := exponent_spec (lt_of_lt_of_le hq h)
  have two : (1 : ℚ) < 2 := by norm_num
  have := (zpow_lt_zpow_iff_right₀ two).mp (lt_of_le_of_lt (s1.trans h) t2)
  omega

theorem nearestEven_intCast (n : ℤ) : nearestEven (n : ℚ) = n := by
  unfold nearestEven
  simp

theorem nearestEven_bounds (x : ℚ) : ⌊x⌋ ≤ nearestEven x ∧ nearestEven x ≤ ⌊x⌋ + 1 := by
  unfold nearestEven
  split_ifs <;> constructor <;> omega

theorem nearestEven_mono {x y : ℚ} (h : x ≤ y) : nearestEven x ≤ nearestEven y := by
  have hf : ⌊x⌋ ≤ ⌊y⌋ := Int.floor_mono h
  rcases lt_or_eq_of_le hf with hlt | heq
  · have h1 := (nearestEven_bounds x).2
    have h2 := (nearestEven_bounds y).1
    omega
  · unfold nearestEven
    rw [heq]
    have hfr : x - ⌊y⌋ ≤ y - ⌊y⌋ := by linarith
    split_ifs <;> first | omega | linarith

theorem nearestEven_error (x : ℚ) : |(nearestEven x : ℚ) - x| ≤ 1 / 2 := by
  have h1 := Int.floor_le x
  have h2 := Int.lt_floor_add_one x
  unfold nearestEven
  split_ifs <;> rw [abs_le] <;> constructor <;> push_cast <;> linarith

theorem ulp_pos (q : ℚ) : 0 < ulp q := pow2_pos _

theorem ulp_eq (q : ℚ) : ulp q = (2 : ℚ) ^ (max (exponent q) (-1022) - 52) := pow2_eq _

theorem roundMag_zero : roundMag 0 = 0 := by
  simp [roundMag, nearestEven]

theorem roundMag_nonneg {q : ℚ} (h : 0 ≤ q) : 0 ≤ roundMag q := by
  unfold roundMag
  have h0 : (0 : ℚ) ≤ q / ulp q := div_nonneg h (ulp_pos q).le
  have := nearestEven_mono h0
  rw [show (0 : ℚ) = ((0 : ℤ) : ℚ) by simp, nearestEven_intCast] at this
  exact mul_nonneg (by exact_mod_cast this) (ulp_pos q).le

/-- The quotient of a positive `q` by its spacing is below `2^53`. -/
theorem div_ulp_lt {q : ℚ} (hq : 0 < q) : q / ulp q < 2 ^ 53 := by
  rw [div_lt_iff₀ (ulp_pos q), ulp_eq]
  obtain ⟨_, s2⟩ := exponent_spec hq
  have two : (1 : ℚ) ≤ 2 := by norm_num
  have h1 : (2 : ℚ) ^ (exponent q + 1) ≤ 2 ^ (max (exponent q) (-1022) + 1) :=
    zpow_le_zpow_right₀ two (by omega)
  have h2 : (2 : ℚ) ^ (max (exponent q) (-1022) + 1)
      = 2 ^ 53 * 2 ^ (max (exponent q) (-1022) - 52) := by
    rw [show ((2 : ℚ) ^ 53) = (2 : ℚ) ^ (53 : ℤ) by norm_cast,
      ← zpow_add₀ (by norm_num : (2 : ℚ) ≠ 0)]
    congr 1
    ring
  linarith

theorem nearestEven_div_ulp_le {q : ℚ} (hq : 0 < q) : nearestEven (q / ulp q) ≤ 2 ^ 53 := by
  have := nearestEven_mono (div_ulp_lt hq).le
  rw [show ((2 : ℚ) ^ 53) = (((2 : ℤ) ^ 53 : ℤ) : ℚ) by norm_cast, nearestEven_intCast] at this
  exact this

/-- In the normal range the quotient of `q` by its spacing is at least `2^52`. -/
theorem le_div_ulp {q : ℚ} (hq : 0 < q) (he : -1022 ≤ exponent q) : 2 ^ 52 ≤ q / ulp q := by
  rw [le_div_iff₀ (ulp_pos q), ulp_eq, max_eq_left he]
  obtain ⟨s1, _⟩ := exponent_spec hq
  have h2 : (2 : ℚ) ^ 52 * 2 ^ (exponent q - 52) = 2 ^ exponent q := by
    rw [show ((2 : ℚ) ^ 52) = (2 : ℚ) ^ (52 : ℤ) by norm_cast,
      ← zpow_add₀ (by norm_num : (2 : ℚ) ≠ 0)]
    congr 1
    ring
  linarith

theorem le_nearestEven_div_ulp {q : ℚ} (hq : 0 < q) (he : -1022 ≤ exponent q) :
    2 ^ 52 ≤ nearestEven (q / ulp q) := by
  have := nearestEven_mono (le_div_ulp hq he)
  rw [show ((2 : ℚ) ^ 52) = (((2 : ℤ) ^ 52 : ℤ) : ℚ) by norm_cast, nearestEven_intCast] at this
  exact this

theorem roundMag_mono {q1 q2 : ℚ} (h0 : 0 ≤ q1) (h : q1 ≤ q2) : roundMag q1 ≤ roundMag q2 := by
  rcases eq_or_lt_of_le h0 with hz | hpos
  · rw [← hz, roundMag_zero]
    exact roundMag_nonneg (h0.trans h)
  have hpos2 : 0 < q2 := lt_of_lt_of_le hpos h
  have hexp := exponent_mono hpos h
  have two : (1 : ℚ) ≤ 2 := by norm_num
  rcases eq_or_lt_of_le (max_le_max_right (-1022) hexp) with heq | hlt
  · have hu : ulp q1 = ulp q2 := by rw [ulp_eq, ulp_eq, heq]
    unfold roundMag
    rw [hu]
    have : q1 / ulp q2 ≤ q2 / ulp q2 := div_le_div_of_nonneg_right h (ulp_pos q2).le
    have := nearestEven_mono this
    exact mul_le_mul_of_nonneg_right (by exact_mod_cast this) (ulp_pos q2).le
  · have he2 : -1022 ≤ exponent q2 := by
      by_contra hc
      rw [max_eq_right (by omega : exponent q2 ≤ -1022)] at hlt
      have := le_max_right (exponent q1) (-1022)
      omega
    rw [max_eq_left he2] at hlt
    have a1 : roundMag q1 ≤ 2 ^ 53 * ulp q1 := by
      unfold roundMag
      exact mul_le_mul_of_nonneg_right (by exact_mod_cast nearestEven_div_ulp_le hpos)
        (ulp_pos q1).le
    have a2 : 2 ^ 52 * ulp q2 ≤ roundMag q2 := by
      unfold roundMag
      exact mul_le_mul_of_nonneg_right (by exact_mod_cast le_nearestEven_div_ulp hpos2 he2)
        (ulp_pos q2).le
    have a3 : (2 : ℚ) ^ 53 * ulp q1 ≤ 2 ^ 52 * ulp q2 := by
      rw [ulp_eq, ulp_eq, max_eq_left he2,
        show ((2 : ℚ) ^ 53) = (2 : ℚ) ^ (53 : ℤ) by norm_cast,
        show ((2 : ℚ) ^ 52) = (2 : ℚ) ^ (52 : ℤ) by norm_cast,
        ← zpow_add₀ (by norm_num : (2 : ℚ) ≠ 0), ← zpow_add₀ (by norm_num : (2 : ℚ) ≠ 0)]
      exact zpow_le_zpow_right₀ two (by omega)
    linarith

theorem roundMag_repr {q : ℚ} (hq : 0 ≤ q) :
    ∃ n k : ℤ, 0 ≤ n ∧ n ≤ 2 ^ 53 ∧ -1074 ≤ k ∧ roundMag q = n * (2 : ℚ) ^ k := by
  rcases eq_or_lt_of_le hq with hz | hpos
  · exact ⟨0, 0, le_refl _, by norm_num, by norm_num, by rw [← hz, roundMag_zero]; simp⟩
  · refine ⟨nearestEven (q / ulp q), max (exponent q) (-1022) - 52, ?_,
      nearestEven_div_ulp_le hpos, ?_, ?_⟩
    · have := nearestEven_mono (div_nonneg hq (ulp_pos q).le)
      rw [show (0 : ℚ) = ((0 : ℤ) : ℚ) by simp, nearestEven_intCast] at this
      exact this
    · have := le_max_right (exponent q) (-1022)
      omega
    · unfold roundMag
      rw [ulp_eq]

theorem roundMag_of_lt (n k : ℤ) (hn0 : 0 ≤ n) (hn : n < 2 ^ 53) (hk : -1074 ≤ k) :
    roundMag (n * (2 : ℚ) ^ k) = n * (2 : ℚ) ^ k := by
  rcases eq_or_lt_of_le hn0 with hz | hpos
  · rw [← hz]; simp [roundMag_zero]
  have two0 : (2 : ℚ) ≠ 0 := by norm_num
  have two : (1 : ℚ) < 2 := by norm_num
  have hk0 : (0 : ℚ) < 2 ^ k := by positivity
  have hr : (0 : ℚ) < n * 2 ^ k := mul_pos (by exact_mod_cast hpos) hk0
  obtain ⟨s1, _⟩ := exponent_spec hr
  have hlt : (n : ℚ) * 2 ^ k < 2 ^ (53 + k) := by
    rw [zpow_add₀ two0]
    have : (n : ℚ) < 2 ^ (53 : ℤ) := by exact_mod_cast hn
    exact mul_lt_mul_of_pos_right this hk0
  have he : exponent (n * (2 : ℚ) ^ k) < 53 + k :=
    (zpow_lt_zpow_iff_right₀ two).mp (lt_of_le_of_lt s1 hlt)
  have hE : max (exponent (n * (2 : ℚ) ^ k)) (-1022) - 52 ≤ k := by
    rcases max_cases (exponent (n * (2 : ℚ) ^ k)) (-1022) with ⟨h1, _⟩ | ⟨h1, _⟩ <;> omega
  obtain ⟨j, hj⟩ := Int.eq_ofNat_of_zero_le (sub_nonneg.mpr hE)
  have hdiv : (n : ℚ) * 2 ^ k / ulp (n * (2 : ℚ) ^ k) = ((n * 2 ^ j : ℤ) : ℚ) := by
    rw [ulp_eq, mul_div_assoc, ← zpow_sub₀ two0, hj]
    push_cast
    rw [zpow_natCast]
  unfold roundMag
  rw [hdiv, nearestEven_intCast, ← hdiv, div_mul_cancel₀ _ (ne_of_gt (ulp_pos _))]

theorem roundMag_of_repr (n k : ℤ) (hn0 : 0 ≤ n) (hn : n ≤ 2 ^ 53) (hk : -1074 ≤ k) :
    roundMag (n * (2 : ℚ) ^ k) = n * (2 : ℚ) ^ k := by
  rcases eq_or_lt_of_le hn with heq | hlt
  · have e : (n : ℚ) * 2 ^ k = ((2 ^ 52 : ℤ) : ℚ) * 2 ^ (k + 1) := by
      rw [heq, zpow_add₀ (by norm_num : (2 : ℚ) ≠ 0)]
      push_cast
      ring
    rw [e]
    exact roundMag_of_lt _ _ (by norm_num) (by norm_num) (by omega)
  · exact roundMag_of_lt n k hn0 hlt hk

theorem roundMag_idem {q : ℚ} (hq : 0 ≤ q) : roundMag (roundMag q) = roundMag q := by
  obtain ⟨n, k, h1, h2, h3, h4⟩ := roundMag_repr hq
  rw [h4]
  exact roundMag_of_repr n k h1 h2 h3

theorem round_zero : round 0 = fin 0 := by
  simp [round, roundMag_zero, pow2_pos]

theorem round_isnan (q : ℚ) : isnan (round q) = false := by
  unfold round
  split_ifs <;> rfl

theorem round_neg (q : ℚ) : round (-q) = neg (round q) := by
  rcases lt_trichotomy q 0 with h | h | h
  · have h1 : 0 ≤ -q := by linarith
    have h2 : ¬ 0 ≤ q := by linarith
    simp only [round, h1, h2, if_true, if_false]
    split_ifs <;> simp [neg]
  · subst h
    simp [round_zero, neg]
  · have h1 : ¬ 0 ≤ -q := by linarith
    have h2 : 0 ≤ q := by linarith
    simp only [round, h1, h2, if_true, if_false, neg_neg]
    split_ifs <;> simp [neg]

theorem round_mono {a b : ℚ} (h : a ≤ b) : le (round a) (round b) = true := by
  by_cases ha : 0 ≤ a
  · have hb : 0 ≤ b := ha.trans h
    have hm := roundMag_mono ha h
    simp only [round, ha, hb, if_true]
    split_ifs with h1 h2 <;> simp [le]
    · linarith
    · exact hm
  · by_cases hb : 0 ≤ b
    · have hn := roundMag_nonneg hb
      have hn2 := roundMag_nonneg (by linarith : 0 ≤ -a)
      simp only [round, ha, hb, if_true, if_false]
      split_ifs <;> simp [le]
      linarith
    · have hm := roundMag_mono (by linarith : 0 ≤ -b) (by linarith : -b ≤ -a)
      simp only [round, ha, hb, if_false]
      split_ifs with h1 h2 <;> simp [le]
      · linarith
      · exact hm

theorem round_idem {q r : ℚ} (h : round q = fin r) : round r = fin r := by
  by_cases hq : 0 ≤ q
  · simp only [round, hq, if_true] at h
    split_ifs at h with h1
    have hr : r = roundMag q := by cases h; rfl
    subst hr
    have h0 := roundMag_nonneg hq
    simp only [round, h0, if_true, roundMag_idem hq, h1, if_false]
  · simp only [round, hq, if_false] at h
    split_ifs at h with h1
    have hr : r = -roundMag (-q) := by cases h; rfl
    have hq2 : 0 ≤ -q := by linarith
    have h0 := roundMag_nonneg hq2
    rw [hr, round_neg]
    simp only [round, h0, if_true, roundMag_idem hq2, h1, if_false, neg]

theorem round_between {lo q hi a b : ℚ} (hlo : round lo = fin a) (hhi : round hi = fin b)
    (h1 : lo ≤ q) (h2 : q ≤ hi) : ∃ r, round q = fin r ∧ a ≤ r ∧ r ≤ b := by
  have c1 := round_mono h1
  have c2 := round_mono h2
  rw [hlo] at c1
  rw [hhi] at c2
  cases hr : round q with
  | nan => rw [hr] at c1; simp [le] at c1
  | ninf => rw [hr] at c1; simp [le] at c1
  | pinf => rw [hr] at c2; simp [le] at c2
  | fin r =>
    rw [hr] at c1 c2
    simp only [le, decide_eq_true_eq] at c1 c2
    exact ⟨r, rfl, c1, c2⟩

theorem round_ge {lo q a : ℚ} (hlo : round lo = fin a) (h1 : lo ≤ q) :
    round q = pinf ∨ ∃ r, round q = fin r ∧ a ≤ r := by
  have c1 := round_mono h1
  rw [hlo] at c1
  cases hr : round q with
  | nan => rw [hr] at c1; simp [le] at c1
  | ninf => rw [hr] at c1; simp [le] at c1
  | pinf => exact Or.inl rfl
  | fin r =>
    rw [hr] at c1
    simp only [le, decide_eq_true_eq] at c1
    exact Or.inr ⟨r, rfl, c1⟩

theorem round_le {q hi b : ℚ} (hhi : round hi = fin b) (h2 : q ≤ hi) :
    round q = ninf ∨ ∃ r, round q = fin r ∧ r ≤ b := by
  have c2 := round_mono h2
  rw [hhi] at c2
  cases hr : round q with
  | nan => rw [hr] at c2; simp [le] at c2
  | ninf => exact Or.inl rfl
  | pinf => rw [hr] at c2; simp [le] at c2
  | fin r =>
    rw [hr] at c2
    simp only [le, decide_eq_true_eq] at c2
    exact Or.inr ⟨r, rfl, c2⟩

/-- The powers of two from `2^(-1074)` to `2^1023` are doubles. -/
theorem round_zpow (k : ℤ) (h1 : -1074 ≤ k) (h2 : k ≤ 1023) :
    round ((2 : ℚ) ^ k) = fin ((2 : ℚ) ^ k) := by
  have hpos : (0 : ℚ) ≤ 2 ^ k := by positivity
  have hfix : roundMag ((2 : ℚ) ^ k) = 2 ^ k := by
    have := roundMag_of_repr 1 k (by norm_num) (by norm_num) h1
    simpa using this
  have hlt : ¬ pow2 1024 ≤ (2 : ℚ) ^ k := by
    rw [pow2_eq, not_le]
    exact (zpow_lt_zpow_iff_right₀ (by norm_num : (1 : ℚ) < 2)).mpr (by omega)
  simp only [round, hpos, if_true, hfix, hlt, if_false]

theorem round_one : round 1 = fin 1 := by
  have := round_zpow 0 (by norm_num) (by norm_num)
  simpa using this

/-- A positive double lies between `2^(-1074)` and `2^1024`. -/
theorem double_range {q : ℚ} (hq : 0 < q) (h : round q = fin q) :
    (2 : ℚ) ^ (-1074 : ℤ) ≤ q ∧ q < (2 : ℚ) ^ (1024 : ℤ) := by
  simp only [round, hq.le, if_true] at h
  split_ifs at h with h1
  have hr : roundMag q = q := Dbl.fin.inj h
  rw [pow2_eq, not_le, hr] at h1
  refine ⟨?_, h1⟩
  obtain ⟨n, k, hn0, _, hk, he⟩ := roundMag_repr hq.le
  rw [hr] at he
  have hn1 : 1 ≤ n := by
    rcases eq_or_lt_of_le hn0 with hz | hp
    · rw [← hz] at he
      simp at he
      linarith
    · omega
  have hk0 : (0 : ℚ) < 2 ^ k := by positivity
  have h2 : (2 : ℚ) ^ (-1074 : ℤ) ≤ 2 ^ k :=
    zpow_le_zpow_right₀ (by norm_num : (1 : ℚ) ≤ 2) hk
  have h3 : (1 : ℚ) ≤ n := by exact_mod_cast hn1
  rw [he]
  nlinarith

theorem round_neg_zpow (k : ℤ) (h1 : -1074 ≤ k) (h2 : k ≤ 1023) :
    round (-(2 : ℚ) ^ k) = fin (-(2 : ℚ) ^ k) := by
  rw [round_neg, round_zpow k h1 h2]
  rfl

/-- An exact result of magnitude at most `2^1023` rounds to a finite value. -/
theorem round_finite {q : ℚ} (h : |q| ≤ (2 : ℚ) ^ (1023 : ℤ)) : ∃ r, round q = fin r := by
  obtain ⟨h1, h2⟩ := abs_le.mp h
  obtain ⟨r, hr, _, _⟩ := round_between (round_neg_zpow 1023 (by norm_num) (by norm_num))
    (round_zpow 1023 (by norm_num) (by norm_num)) h1 h2
  exact ⟨r, hr⟩

/-- A result within a factor 8 of the square root of `q` lies in the binades that the range
of `q` allows. -/
theorem sqrt_range {q r : ℚ} (a b : ℤ) (hr : 0 < r) (h1 : r * r ≤ 8 * q)
    (h2 : q ≤ 8 * (r * r)) (ha : (2 : ℚ) ^ (2 * a + 3) ≤ q) (hb : q < (2 : ℚ) ^ (2 * b - 3)) :
    (2 : ℚ) ^ a ≤ r ∧ r < (2 : ℚ) ^ b := by
  have two0 : (2 : ℚ) ≠ 0 := by norm_num
  have pa : (0 : ℚ) < 2 ^ a := by positivity
  have pb : (0 : ℚ) < 2 ^ b := by positivity
  have e1 : (2 : ℚ) ^ (2 * a + 3) = 8 * (2 ^ a * 2 ^ a) := by
    rw [zpow_add₀ two0, two_mul, zpow_add₀ two0]
    norm_num
    ring
  have e2 : (2 : ℚ) ^ (2 * b - 3) * 8 = 2 ^ b * 2 ^ b := by
    rw [zpow_sub₀ two0, two_mul, zpow_add₀ two0]
    norm_num
  constructor
  · by_contra hc
    rw [not_le] at hc
    have : r * r < 2 ^ a * 2 ^ a := mul_lt_mul'' hc hc hr.le hr.le
    rw [e1] at ha
    linarith
  · by_contra hc
    rw [not_lt] at hc
    have : (2 : ℚ) ^ b * 2 ^ b ≤ r * r := mul_le_mul hc hc pb.le hr.le
    linarith

theorem round_neg_one : round (-1) = fin (-1) := by
  rw [round_neg, round_one]
  rfl

/-- A finite rounded value is not negative when the exact one is not. -/
theorem round_nonneg {q r : ℚ} (h : 0 ≤ q) (hr : round q = fin r) : 0 ≤ r := by
  rcases round_ge round_zero h with h1 | ⟨r1, h1, h2⟩
  · rw [h1] at hr; cases hr
  · rw [h1] at hr
    rw [← Dbl.fin.inj hr]
    exact h2

/-- A finite rounded value is not positive when the exact one is not. -/
theorem round_nonpos {q r : ℚ} (h : q ≤ 0) (hr : round q = fin r) : r ≤ 0 := by
  rcases round_le round_zero h with h1 | ⟨r1, h1, h2⟩
  · rw [h1] at hr; cases hr
  · rw [h1] at hr
    rw [← Dbl.fin.inj hr]
    exact h2

theorem roundMag_error {q : ℚ} : |roundMag q - q| ≤ ulp q / 2 := by
  have hu := ulp_pos q
  have he := nearestEven_error (q / ulp q)
  have e : roundMag q - q = ((nearestEven (q / ulp q) : ℚ) - q / ulp q) * ulp q := by
    unfold roundMag
    field_simp
  rw [e, abs_mul, abs_of_pos hu]
  calc |(nearestEven (q / ulp q) : ℚ) - q / ulp q| * ulp q ≤ 1 / 2 * ulp q :=
        mul_le_mul_of_nonneg_right he hu.le
    _ = ulp q / 2 := by ring

/-- Rounding a value between 0 and 1 raises it by at most `2^(-54)`. -/
theorem round_unit_error {q : ℚ} (h0 : 0 ≤ q) (h1 : q ≤ 1) :
    ∃ r, round q = fin r ∧ r ≤ q + (2 : ℚ) ^ (-54 : ℤ) := by
  have two0 : (2 : ℚ) ≠ 0 := by norm_num
  have hpos54 : (0 : ℚ) < 2 ^ (-54 : ℤ) := by positivity
  rcases eq_or_lt_of_le h0 with hz | hq0
  · exact ⟨0, by rw [← hz, round_zero], by rw [← hz]; linarith⟩
  rcases eq_or_lt_of_le h1 with ho | hq1
  · exact ⟨1, by rw [ho, round_one], by rw [ho]; linarith⟩
  obtain ⟨r, hr, _, _⟩ := round_between round_zero round_one h0 h1
  refine ⟨r, hr, ?_⟩
  have hrm : r = roundMag q := by
    simp only [round, h0, if_true] at hr
    split_ifs at hr
    exact (Dbl.fin.inj hr).symm
  obtain ⟨s1, _⟩ := exponent_spec hq0
  have hexp : exponent q < 0 := by
    have : (2 : ℚ) ^ exponent q < 2 ^ (0 : ℤ) := by
      rw [zpow_zero]
      exact lt_of_le_of_lt s1 hq1
    exact (zpow_lt_zpow_iff_right₀ (by norm_num : (1 : ℚ) < 2)).mp this
  have hulp : ulp q ≤ 2 ^ (-53 : ℤ) := by
    rw [ulp_eq]
    apply zpow_le_zpow_right₀ (by norm_num : (1 : ℚ) ≤ 2)
    rcases max_cases (exponent q) (-1022) with ⟨h, _⟩ | ⟨h, _⟩ <;> omega
  have herr := (abs_le.mp (@roundMag_error q)).2
  have h54 : (2 : ℚ) ^ (-53 : ℤ) / 2 = 2 ^ (-54 : ℤ) := by
    rw [show (-53 : ℤ) = -54 + 1 by norm_num, zpow_add₀ two0, zpow_one]
    ring
  rw [hrm]
  generalize (2 : ℚ) ^ (-53 : ℤ) = A at hulp h54
  generalize (2 : ℚ) ^ (-54 : ℤ) = B at h54 ⊢
  linarith

theorem round_one_plus : round (1 + (2 : ℚ) ^ (-54 : ℤ)) = fin 1 := by
  have e : (1 : ℚ) + 2 ^ (-54 : ℤ) = 18014398509481985 / 18014398509481984 := by
    rw [zpow_neg]
    norm_num
  rw [e]
  decide!

/-- A blending step `s + w·(p - s)` with a weight between 0 and 1, in double arithmetic:
the step has the sign of `p - s` and is no longer than the rounded difference `d`, and the
result lies between `s` and `s + d`. -/
theorem blend {s p w d : ℚ} (hs : round s = fin s) (hw0 : 0 ≤ w) (hw1 : w ≤ 1)
    (hd : round (p - s) = fin d) :
    ∃ t, round (w * d) = fin t ∧
      (s ≤ p → 0 ≤ t ∧ t ≤ d ∧ le (fin s) (round (s + t)) = true ∧
        le (round (s + t)) (round (s + d)) = true) ∧
      (p ≤ s → d ≤ t ∧ t ≤ 0 ∧ le (round (s + d)) (round (s + t)) = true ∧
        le (round (s + t)) (fin s) = true) := by
  have hdd := round_idem hd
  rcases le_total 0 d with hd0 | hd0
  · obtain ⟨t, ht, t0, t1⟩ := round_between round_zero hdd
      (mul_nonneg hw0 hd0) (by nlinarith : w * d ≤ d)
    refine ⟨t, ht, fun _ => ⟨t0, t1, ?_, round_mono (by linarith)⟩, fun hps => ?_⟩
    · have := round_mono (by linarith : s ≤ s + t)
      rwa [hs] at this
    · have hd1 := round_nonpos (by linarith : p - s ≤ 0) hd
      have hdz : d = 0 := le_antisymm hd1 hd0
      have htz : t = 0 := by
        rw [hdz] at t1
        exact le_antisymm t1 t0
      subst hdz
      subst htz
      refine ⟨le_refl _, le_refl _, round_mono (le_refl _), ?_⟩
      have := round_mono (le_refl (s + 0))
      rw [add_zero] at this ⊢
      rwa [hs] at this ⊢
  · obtain ⟨t, ht, t0, t1⟩ := round_between hdd round_zero
      (by nlinarith : d ≤ w * d) (mul_nonpos_of_nonneg_of_nonpos hw0 hd0)
    refine ⟨t, ht, fun hsp => ?_, fun _ => ⟨t0, t1, round_mono (by linarith), ?_⟩⟩
    · have hd1 := round_nonneg (by linarith : 0 ≤ p - s) hd
      have hdz : d = 0 := le_antisymm hd0 hd1
      have htz : t = 0 := by
        rw [hdz] at t0
        exact le_antisymm t1 t0
      subst hdz
      subst htz
      refine ⟨le_refl _, le_refl _, ?_, round_mono (le_refl _)⟩
      have := round_mono (le_refl (s + 0))
      rw [add_zero] at this ⊢
      rwa [hs] at this ⊢
    · have := round_mono (by linarith : s + t ≤ s)
      rwa [hs] at this

/-- A smaller weight makes a shorter blending step. -/
theorem blend_mono {s w1 w2 d t1 t2 : ℚ} (hw : 0 ≤ w2) (hww : w2 ≤ w1)
    (ht1 : round (w1 * d) = fin t1) (ht2 : round (w2 * d) = fin t2) :
    (0 ≤ d → 0 ≤ t2 ∧ t2 ≤ t1 ∧ le (round (s + t2)) (round (s + t1)) = true) ∧
    (d ≤ 0 → t1 ≤ t2 ∧ t2 ≤ 0 ∧ le (round (s + t1)) (round (s + t2)) = true) := by
  constructor
  · intro hd0
    have h1 : w2 * d ≤ w1 * d := mul_le_mul_of_nonneg_right hww hd0
    have c := round_mono h1
    rw [ht1, ht2] at c
    simp only [le, decide_eq_true_eq] at c
    exact ⟨round_nonneg (mul_nonneg hw hd0) ht2, c, round_mono (by linarith)⟩
  · intro hd0
    have h1 : w1 * d ≤ w2 * d := mul_le_mul_of_nonpos_right hww hd0
    have c := round_mono h1
    rw [ht1, ht2] at c
    simp only [le, decide_eq_true_eq] at c
    exact ⟨c, round_nonpos (mul_nonpos_of_nonneg_of_nonpos hw hd0) ht2,
      round_mono (by linarith)⟩

/-- A blending step between values of `[0, 1]` stays in `[0, 1]`. -/
theorem blend_unit {s p w : ℚ} (hs : round s = fin s) (hs0 : 0 ≤ s) (hs1 : s ≤ 1)
    (hp0 : 0 ≤ p) (hp1 : p ≤ 1) (hw0 : 0 ≤ w) (hw1 : w ≤ 1) :
    ∃ d t r, round (p - s) = fin d ∧ round (w * d) = fin t ∧ round (s + t) = fin r ∧
      0 ≤ r ∧ r ≤ 1 := by
  obtain ⟨d, hd, _, _⟩ := round_between round_neg_one round_one
    (by linarith : -1 ≤ p - s) (by linarith : p - s ≤ 1)
  obtain ⟨t, ht, hup, hdown⟩ := blend hs hw0 hw1 hd
  rcases le_total s p with hsp | hps
  · obtain ⟨t0, t1, _, _⟩ := hup hsp
    obtain ⟨d', hd', hde⟩ := round_unit_error (by linarith : 0 ≤ p - s) (by linarith : p - s ≤ 1)
    rw [hd] at hd'
    have hdd : d = d' := Dbl.fin.inj hd'
    subst hdd
    obtain ⟨r, hr, r0, r1⟩ := round_between round_zero round_one_plus
      (by linarith : 0 ≤ s + t) (by linarith : s + t ≤ 1 + (2 : ℚ) ^ (-54 : ℤ))
    exact ⟨d, t, r, hd, ht, hr, r0, r1⟩
  · obtain ⟨t0, t1, _, _⟩ := hdown hps
    have hns : round (-s) = fin (-s) := by
      rw [round_neg, hs]
      rfl
    have c := round_mono (by linarith : -s ≤ p - s)
    rw [hns, hd] at c
    simp only [le, decide_eq_true_eq] at c
    obtain ⟨r, hr, r0, r1⟩ := round_between round_zero round_one
      (by linarith : 0 ≤ s + t) (by linarith : s + t ≤ 1)
    exact ⟨d, t, r, hd, ht, hr, r0, r1⟩

end Dbl

/-! ## Basic facts about slots and the component loops -/

theorem deref_store (model : gaussian_mixture_model_t) (p : Nat)
    (c : gaussian_mixture_cluster_t) (i : Nat) : deref (store model p c) i = deref model i := rfl

theorem deref_eq_some {model : gaussian_mixture_model_t} {i p : Nat} :
    deref model i = some p ↔ model.cluster[i]? = some (some p) := by
  unfold deref
  split
  · next q h => simp [h]
  · next h =>
    constructor
    · intro h1; cases h1
    · intro h1; exact absurd h1 (h p)

theorem Initialised.deref_some {E : Env} {model : gaussian_mixture_model_t}
    (h : Initialised E model) {i : Nat} (hi : i < E.MAX_CLUSTERS) :
    ∃ p, deref model i = some p := by
  have hlen : i < model.cluster.length := by rw [h.length_eq]; exact hi
  have hmem : model.cluster[i] ∈ model.cluster := List.getElem_mem hlen
  cases hs : model.cluster[i] with
  | none => exact absurd hs (h.non_null _ hmem)
  | some p =>
    refine ⟨p, ?_⟩
    rw [deref_eq_some, List.getElem?_eq_getElem hlen, hs]

/-- A component loop leaves everything but the component storage alone. -/
theorem forClusters_frame {σ : Type}
    (body : gaussian_mixture_cluster_t → σ → gaussian_mixture_cluster_t × σ) :
    ∀ (k i : Nat) (model : gaussian_mixture_model_t) (s : σ)
      (r : gaussian_mixture_model_t × σ), forClusters body k i model s = some r →
      r.1.cluster = model.cluster ∧ r.1.num_clusters = model.num_clusters ∧
      r.1.min_in = model.min_in ∧ r.1.max_in = model.max_in ∧
      r.1.min_out = model.min_out ∧ r.1.max_out = model.max_out ∧ r.1.name = model.name := by
  intro k
  induction k with
  | zero =>
    intro i model s r h
    simp only [forClusters, Option.some.injEq] at h
    subst h
    simp
  | succ k ih =>
    intro i model s r h
    simp only [forClusters] at h
    cases hd : deref model i with
    | none => simp [hd] at h
    | some p =>
      simp only [hd] at h
      have := ih _ _ _ _ h
      simpa [store] using this

/-- A component loop returns when every slot it visits holds a component. -/
theorem forClusters_some {σ : Type}
    (body : gaussian_mixture_cluster_t → σ → gaussian_mixture_cluster_t × σ) :
    ∀ (k i : Nat) (model : gaussian_mixture_model_t) (s : σ),
      (∀ j, i ≤ j → j < i + k → ∃ p, deref model j = some p) →
      ∃ r, forClusters body k i model s = some r := by
  intro k
  induction k with
  | zero => intro i model s _; exact ⟨_, rfl⟩
  | succ k ih =>
    intro i model s h
    obtain ⟨p, hp⟩ := h i (Nat.le_refl i) (by omega)
    simp only [forClusters, hp]
    apply ih
    intro j hj1 hj2
    rw [deref_store]
    exact h j (by omega) (by omega)

theorem Initialised.loop_returns {E : Env} {model : gaussian_mixture_model_t}
    (h : Initialised E model) {σ : Type}
    (body : gaussian_mixture_cluster_t → σ → gaussian_mixture_cluster_t × σ) (s : σ) :
    ∃ r, forClusters body model.num_clusters 0 model s = some r := by
  apply Rho.forClusters_some
  intro j _ hj
  exact h.deref_some (by have := h.num_le; omega)

/-- Well-formedness only looks at the slot array and the count. -/
theorem Initialised.of_eq {E : Env} {model model1 : gaussian_mixture_model_t}
    (h : Initialised E model) (hc : model1.cluster = model.cluster)
    (hn : model1.num_clusters = model.num_clusters) : Initialised E model1 :=
  ⟨by rw [hc]; exact h.length_eq, by rw [hn]; exact h.num_le,
   by rw [hc]; exact h.non_null, by rw [hc]; exact h.nodup⟩

theorem Initialize_initialised (E : Env) (name : String) :
    Initialised E (GaussianMixtureModel_Initialize E name) := by
  refine ⟨by simp [GaussianMixtureModel_Initialize], by simp [GaussianMixtureModel_Initialize],
    ?_, ?_⟩
  · intro s hs
    simp only [GaussianMixtureModel_Initialize, List.mem_map] at hs
    obtain ⟨a, _, rfl⟩ := hs
    simp
  · simp only [GaussianMixtureModel_Initialize]
    exact (List.nodup_range _).map (Option.some_injective _)

/-! ## Swapping two slots -/

/-- Exchanging the entries at two positions of a list permutes it. -/
theorem swap_perm {α : Type} [DecidableEq α] (l : List α) (i j : Nat)
    (hi : i < l.length) (hj : j < l.length) :
    List.Perm ((l.set i l[j]).set j l[i]) l := by
  rw [List.perm_iff_count]
  intro b
  have hj1 : j < (l.set i l[j]).length := by simpa using hj
  rw [List.count_set _ _ _ _ hj1, List.count_set _ _ _ _ hi]
  have hget : (l.set i l[j])[j] = l[j] := by
    rw [List.getElem_set]
    split
    · rfl
    · rfl
  rw [hget]
  have h1 := List.boole_getElem_le_count b l i hi
  have h2 := List.boole_getElem_le_count b l j hj
  split <;> split <;> simp_all

theorem mem_live {model : gaussian_mixture_model_t} {p : Nat} :
    p ∈ live model ↔ ∃ j, j < model.num_clusters ∧ deref model j = some p := by
  unfold live
  rw [List.mem_filterMap]
  constructor
  · rintro ⟨j, hj, h⟩
    rw [List.mem_range'_1] at hj
    exact ⟨j, by omega, h⟩
  · rintro ⟨j, hj, h⟩
    exact ⟨j, by rw [List.mem_range'_1]; omega, h⟩

/-- `RemoveCluster` on an index inside the array with a positive count. -/
theorem RemoveCluster_eq {model : gaussian_mixture_model_t} {index : Nat}
    (hn : 0 < model.num_clusters) (hi : index < model.cluster.length)
    (hl : model.num_clusters - 1 < model.cluster.length) :
    GaussianMixtureModel_RemoveCluster model index =
      some { model with
             num_clusters := model.num_clusters - 1
             cluster := (model.cluster.set index model.cluster[model.num_clusters - 1]).set
               (model.num_clusters - 1) model.cluster[index] } := by
  unfold GaussianMixtureModel_RemoveCluster
  rw [if_neg (by omega)]
  simp only [List.getElem?_eq_getElem hi, List.getElem?_eq_getElem hl]

/-- `RemoveCluster` keeps a well-formed model well-formed. -/
theorem RemoveCluster_initialised {E : Env} {model model1 : gaussian_mixture_model_t}
    {index : Nat} (h : Initialised E model) (hi : index < model.num_clusters)
    (hr : GaussianMixtureModel_RemoveCluster model index = some model1) :
    Initialised E model1 ∧ model1.num_clusters + 1 = model.num_clusters ∧
      model1.cluster_mem = model.cluster_mem ∧ List.Perm model1.cluster model.cluster := by
  have hle := h.num_le
  have hlen := h.length_eq
  have hi1 : index < model.cluster.length := by omega
  have hl : model.num_clusters - 1 < model.cluster.length := by omega
  rw [RemoveCluster_eq (by omega) hi1 hl] at hr
  simp only [Option.some.injEq] at hr
  subst hr
  have hperm := swap_perm model.cluster index (model.num_clusters - 1) hi1 hl
  refine ⟨⟨?_, ?_, ?_, ?_⟩, ?_, rfl, hperm⟩
  · simpa using hlen
  · show model.num_clusters - 1 ≤ E.MAX_CLUSTERS
    omega
  · intro s hs
    exact h.non_null s (hperm.mem_iff.mp hs)
  · exact hperm.nodup_iff.mpr h.nodup
  · show model.num_clusters - 1 + 1 = model.num_clusters
    omega

/-- The slots after `RemoveCluster`, read one by one. -/
theorem RemoveCluster_getElem? {E : Env} {model model1 : gaussian_mixture_model_t}
    {index : Nat} (h : Initialised E model) (hi : index < model.num_clusters)
    (hr : GaussianMixtureModel_RemoveCluster model index = some model1) (j : Nat) :
    model1.cluster[j]? =
      if j = model.num_clusters - 1 then model.cluster[index]?
      else if j = index then model.cluster[model.num_clusters - 1]?
      else model.cluster[j]? := by
  have hle := h.num_le
  have hlen := h.length_eq
  have hi1 : index < model.cluster.length := by omega
  have hl : model.num_clusters - 1 < model.cluster.length := by omega
  rw [RemoveCluster_eq (by omega) hi1 hl] at hr
  simp only [Option.some.injEq] at hr
  subst hr
  simp only [List.getElem?_set, List.length_set]
  by_cases h1 : j = model.num_clusters - 1
  · subst h1
    simp [hl, List.getElem?_eq_getElem hi1]
  · rw [if_neg (fun hh => h1 hh.symm), if_neg h1]
    by_cases h2 : j = index
    · subst h2
      simp [hi1, List.getElem?_eq_getElem hl]
    · rw [if_neg (fun hh => h2 hh.symm), if_neg h2]

/-- `RemoveCluster` leaves the range trackers and the name alone. -/
theorem RemoveCluster_frame {model model1 : gaussian_mixture_model_t} {index : Nat}
    (hr : GaussianMixtureModel_RemoveCluster model index = some model1) :
    model1.min_in = model.min_in ∧ model1.max_in = model.max_in ∧
      model1.min_out = model.min_out ∧ model1.max_out = model.max_out ∧
      model1.name = model.name ∧ model1.cluster_mem = model.cluster_mem := by
  unfold GaussianMixtureModel_RemoveCluster at hr
  split at hr
  · cases hr
  · dsimp only at hr
    split at hr
    · simp only [Option.some.injEq] at hr
      subst hr
      simp
    · cases hr

/-- Two slots of a well-formed model that point at the same storage are the same slot. -/
theorem Initialised.deref_inj {E : Env} {model : gaussian_mixture_model_t}
    (h : Initialised E model) {i j p : Nat} (hi : deref model i = some p)
    (hj : deref model j = some p) : i = j := by
  rw [deref_eq_some] at hi hj
  have hi1 : i < model.cluster.length := by
    by_contra hc
    rw [List.getElem?_eq_none (by omega)] at hi
    cases hi
  have hj1 : j < model.cluster.length := by
    by_contra hc
    rw [List.getElem?_eq_none (by omega)] at hj
    cases hj
  rw [List.getElem?_eq_getElem hi1] at hi
  rw [List.getElem?_eq_getElem hj1] at hj
  have : model.cluster[i] = model.cluster[j] := by
    rw [Option.some.inj hi, Option.some.inj hj]
  exact h.nodup.getElem_inj_iff.mp this

/-- The maintenance pass on a well-formed model, started at index `i` with enough
iterations left: it returns, it only permutes slots and lowers the count, slots below
`i` are not touched, and a component still in the slot it had at the start does not
meet the removal test. -/
theorem Update_maintenance_spec (E : Env) (now : Dbl) :
    ∀ (k i : Nat) (model : gaussian_mixture_model_t), Initialised E model →
      model.num_clusters - i ≤ k →
      ∃ model1, Update_maintenance E now k i model = some model1 ∧
        Initialised E model1 ∧ model1.cluster_mem = model.cluster_mem ∧
        model1.num_clusters ≤ model.num_clusters ∧
        (model1.min_in = model.min_in ∧ model1.max_in = model.max_in ∧
          model1.min_out = model.min_out ∧ model1.max_out = model.max_out) ∧
        List.Perm model1.cluster model.cluster ∧
        (∀ j, j < i → model1.cluster[j]? = model.cluster[j]?) ∧
        (∀ j p, i ≤ j → j < model1.num_clusters → deref model1 j = some p →
          deref model j = some p → removal_condition E now (model.cluster_mem p) = false) := by
  intro k
  induction k with
  | zero =>
    intro i model h hk
    refine ⟨model, ?_, h, rfl, Nat.le_refl _, ⟨rfl, rfl, rfl, rfl⟩, List.Perm.refl _,
      fun _ _ => rfl, ?_⟩
    · simp only [Update_maintenance]
      rw [if_neg (by omega)]
    · intro j p h1 h2
      omega
  | succ k ih =>
    intro i model h hk
    by_cases hlt : i < model.num_clusters
    · obtain ⟨p, hp⟩ := @Initialised.deref_some E model h i (by have := h.num_le; omega)
      simp only [Update_maintenance, if_pos hlt, hp]
      cases hrc : removal_condition E now (model.cluster_mem p) with
      | true =>
        have hle := h.num_le
        have hlen := h.length_eq
        obtain ⟨m1, hrem⟩ : ∃ m1, GaussianMixtureModel_RemoveCluster model i = some m1 :=
          ⟨_, @RemoveCluster_eq model i (by omega) (by omega) (by omega)⟩
        obtain ⟨h1, hnum, hmem, hperm⟩ := RemoveCluster_initialised h hlt hrem
        have hget := RemoveCluster_getElem? h hlt hrem
        have hfr := RemoveCluster_frame hrem
        rw [hrem]
        simp only [if_true]
        obtain ⟨m2, hm2, hI2, hmem2, hnum2, hr2, hperm2, hlow2, hc2⟩ :=
          ih (i + 1) m1 h1 (by omega)
        refine ⟨m2, hm2, hI2, hmem2.trans hmem, by omega, ?_, hperm2.trans hperm, ?_, ?_⟩
        · obtain ⟨a1, a2, a3, a4⟩ := hr2
          exact ⟨a1.trans hfr.1, a2.trans hfr.2.1, a3.trans hfr.2.2.1, a4.trans hfr.2.2.2.1⟩
        · intro j hj
          rw [hlow2 j (by omega), hget j, if_neg (by omega), if_neg (by omega)]
        · intro j q hj1 hj2 hd2 hd
          by_cases hji : j = i
          · subst hji
            exfalso
            have e1 := hlow2 j (by omega)
            rw [hget j, if_neg (by omega), if_pos rfl] at e1
            have hlast : deref model (model.num_clusters - 1) = some q := by
              rw [deref_eq_some, ← e1]
              exact deref_eq_some.mp hd2
            have := h.deref_inj hd hlast
            omega
          · have e1 : deref m1 j = some q := by
              rw [deref_eq_some, hget j, if_neg (by omega), if_neg hji]
              exact deref_eq_some.mp hd
            have := hc2 j q (by omega) hj2 hd2 e1
            rw [hmem] at this
            exact this
      | false =>
        simp only [Bool.false_eq_true, if_false]
        obtain ⟨m2, hm2, hI2, hmem2, hnum2, hr2, hperm2, hlow2, hc2⟩ :=
          ih (i + 1) model h (by omega)
        refine ⟨m2, hm2, hI2, hmem2, hnum2, hr2, hperm2, fun j hj => hlow2 j (by omega), ?_⟩
        intro j q hj1 hj2 hd2 hd
        by_cases hji : j = i
        · subst hji
          rw [hp] at hd
          cases hd
          exact hrc
        · exact hc2 j q (by omega) hj2 hd2 hd
    · refine ⟨model, ?_, h, rfl, Nat.le_refl _, ⟨rfl, rfl, rfl, rfl⟩, List.Perm.refl _,
        fun _ _ => rfl, ?_⟩
      · simp only [Update_maintenance, if_neg hlt]
      · intro j p h1 h2
        omega

/-! ## The steps of `AddValue` on a well-formed model -/

theorem AddCluster_scan_full (model : gaussian_mixture_model_t) :
    ∀ (k i : Nat), (∀ j, i ≤ j → j < i + k → ∃ p, deref model j = some p) →
      AddCluster_scan model k i = some (i + k) := by
  intro k
  induction k with
  | zero => intro i _; rfl
  | succ k ih =>
    intro i h
    obtain ⟨p, hp⟩ := h i (Nat.le_refl i) (by omega)
    rw [deref_eq_some] at hp
    simp only [AddCluster_scan, hp]
    rw [ih (i + 1) (fun j h1 h2 => h j (by omega) (by omega))]
    congr 1
    omega

/-- `AddCluster` below capacity initialises the component behind slot `num_clusters` and
raises the count. -/
theorem AddCluster_spec {E : Env} {model : gaussian_mixture_model_t}
    (h : Initialised E model) (hlt : model.num_clusters < E.MAX_CLUSTERS)
    (observation : observation_t) (value : vec2_t) :
    ∃ p, deref model model.num_clusters = some p ∧
      GaussianMixtureModel_AddCluster E model observation value =
        some { store model p
                 (GaussianMixtureCluster_Initialize E (model.cluster_mem p) observation value)
               with num_clusters := model.num_clusters + 1 } := by
  obtain ⟨p, hp⟩ := h.deref_some hlt
  refine ⟨p, hp, ?_⟩
  have hscan := AddCluster_scan_full model model.num_clusters 0
    (fun j _ hj => h.deref_some (by omega))
  rw [Nat.zero_add] at hscan
  unfold GaussianMixtureModel_AddCluster
  rw [hscan]
  rw [deref_eq_some] at hp
  simp only [hp]

/-- The scoring part of `AddValue` returns on a well-formed model and changes only the
component storage and the range trackers. -/
theorem AddValue_score_spec {E : Env} {model : gaussian_mixture_model_t}
    (h : Initialised E model) (observation : observation_t) (value : vec2_t) :
    ∃ s, AddValue_score E model observation value = some s ∧
      s.model.cluster = model.cluster ∧ s.model.num_clusters = model.num_clusters ∧
      s.model.min_in = (AddValue_extrema model observation value).min_in ∧
      s.model.max_in = (AddValue_extrema model observation value).max_in ∧
      s.model.min_out = (AddValue_extrema model observation value).min_out ∧
      s.model.max_out = (AddValue_extrema model observation value).max_out := by
  have hc0 : (AddValue_extrema model observation value).cluster = model.cluster := by
    unfold AddValue_extrema; split <;> rfl
  have hn0 : (AddValue_extrema model observation value).num_clusters = model.num_clusters := by
    unfold AddValue_extrema; split <;> rfl
  have h0 : Initialised E (AddValue_extrema model observation value) := h.of_eq hc0 hn0
  unfold AddValue_score
  obtain ⟨r1, hr1⟩ := h0.loop_returns
    (fun cluster score_sum =>
      let c := GaussianMixtureCluster_GetScore E cluster ⟨observation.density, observation.thresh⟩
      (c, Dbl.add score_sum c.probability_of_in)) d0
  have f1 := forClusters_frame _ _ _ _ _ _ hr1
  have h1 : Initialised E r1.1 := h0.of_eq f1.1 f1.2.1
  obtain ⟨r2, hr2⟩ := h1.loop_returns
    (fun cluster (s : vec2_t × Dbl) =>
      let c := GaussianMixtureCluster_UpdateInputProbability E cluster r1.2
      let out := if Dbl.gt c.score E.MIN_CLUSTER_SCORE
        then GaussianMixtureCluster_ContributeToOutput c ⟨observation.density, observation.thresh⟩ s.1
        else s.1
      let best := if Dbl.lt c.mahalanobis_sq s.2 then c.mahalanobis_sq else s.2
      (c, (out, best))) (⟨d0, d0⟩, E.MAX_DISTANCE)
  have f2 := forClusters_frame _ _ _ _ _ _ hr2
  simp only [GaussianMixtureModel_GetScoreSumOfClusters,
    GaussianMixtureModel_GetOutputAndBestDistance, hr1, hr2]
  refine ⟨_, rfl, ?_, ?_, ?_, ?_, ?_, ?_⟩
  · exact f2.1.trans (f1.1.trans hc0)
  · exact f2.2.1.trans (f1.2.1.trans hn0)
  · exact f2.2.2.1.trans f1.2.2.1
  · exact f2.2.2.2.1.trans f1.2.2.2.1
  · exact f2.2.2.2.2.1.trans f1.2.2.2.2.1
  · exact f2.2.2.2.2.2.1.trans f1.2.2.2.2.2.1

/-- `GaussianMixtureModel_Update` returns on a well-formed model; the result is
well-formed, the count does not grow and the range trackers are untouched. -/
theorem Update_spec {E : Env} {model : gaussian_mixture_model_t}
    (h : Initialised E model) (observation : observation_t) (value : vec2_t) (now : Dbl) :
    ∃ r model2, Update_components E model observation value now = some r ∧
      Update_maintenance E now r.1.num_clusters 0 r.1 = some model2 ∧
      GaussianMixtureModel_Update E model observation value now = some model2 ∧
      r.1.cluster = model.cluster ∧ r.1.num_clusters = model.num_clusters ∧
      Initialised E model2 ∧ model2.num_clusters ≤ model.num_clusters ∧
      model2.cluster_mem = r.1.cluster_mem ∧
      (model2.min_in = model.min_in ∧ model2.max_in = model.max_in ∧
        model2.min_out = model.min_out ∧ model2.max_out = model.max_out) := by
  obtain ⟨r, hr⟩ := h.loop_returns
    (fun cluster (u : Unit) =>
      (GaussianMixtureCluster_Update E cluster observation value now, u)) ()
  have f := forClusters_frame _ _ _ _ _ _ hr
  have h1 : Initialised E r.1 := h.of_eq f.1 f.2.1
  obtain ⟨m2, hm2, hI2, hmem2, hnum2, hr2, _, _, _⟩ :=
    Update_maintenance_spec E now r.1.num_clusters 0 r.1 h1 (by omega)
  refine ⟨r, m2, hr, hm2, ?_, f.1, f.2.1, hI2, by rw [← f.2.1]; exact hnum2, hmem2, ?_⟩
  · unfold GaussianMixtureModel_Update
    simp only [Update_components, hr, hm2]
  · exact ⟨hr2.1.trans f.2.2.1, hr2.2.1.trans f.2.2.2.1, hr2.2.2.1.trans f.2.2.2.2.1,
      hr2.2.2.2.trans f.2.2.2.2.2.1⟩

/-- One `AddValue` on a well-formed model, step by step: scoring, update with
maintenance, then the spawn test. -/
theorem AddValue_spec {E : Env} {model : gaussian_mixture_model_t}
    (h : Initialised E model) (observation : observation_t) (value : vec2_t) (now : Dbl) :
    ∃ s model2 model3, AddValue_score E model observation value = some s ∧
      GaussianMixtureModel_Update E s.model observation value now = some model2 ∧
      GaussianMixtureModel_AddValue E model observation value now = some model3 ∧
      Initialised E model2 ∧ model2.num_clusters ≤ model.num_clusters ∧
      (model2.min_in = (AddValue_extrema model observation value).min_in ∧
        model2.max_in = (AddValue_extrema model observation value).max_in ∧
        model2.min_out = (AddValue_extrema model observation value).min_out ∧
        model2.max_out = (AddValue_extrema model observation value).max_out) ∧
      (spawn_condition E model2 s.max_error s.best_distance = true →
        ∃ p, deref model2 model2.num_clusters = some p ∧
          model3 = { store model2 p
                       (GaussianMixtureCluster_Initialize E (model2.cluster_mem p) observation value)
                     with num_clusters := model2.num_clusters + 1 }) ∧
      (spawn_condition E model2 s.max_error s.best_distance = false → model3 = model2) := by
  obtain ⟨s, hs, hsc, hsn, e1, e2, e3, e4⟩ := AddValue_score_spec h observation value
  have h1 : Initialised E s.model := h.of_eq hsc hsn
  obtain ⟨r, m2, _, _, hu, _, _, hI2, hnum2, _, hr2⟩ := Update_spec h1 observation value now
  cases hsp : spawn_condition E m2 s.max_error s.best_distance with
  | true =>
    have hlt : m2.num_clusters < E.MAX_CLUSTERS := by
      simp only [spawn_condition, Bool.and_eq_true, decide_eq_true_eq] at hsp
      exact hsp.1
    obtain ⟨p, hp, hadd⟩ := AddCluster_spec hI2 hlt observation value
    refine ⟨s, m2, _, hs, hu, ?_, hI2, by omega, ?_, fun _ => ⟨p, hp, rfl⟩, ?_⟩
    · unfold GaussianMixtureModel_AddValue
      simp only [hs, hu, hsp, if_true]
      exact hadd
    · exact ⟨hr2.1.trans e1, hr2.2.1.trans e2, hr2.2.2.1.trans e3, hr2.2.2.2.trans e4⟩
    · intro hc; rw [hsp] at hc; cases hc
  | false =>
    refine ⟨s, m2, m2, hs, hu, ?_, hI2, by omega, ?_, ?_, fun _ => rfl⟩
    · unfold GaussianMixtureModel_AddValue
      simp only [hs, hu, hsp, Bool.false_eq_true, if_false]
    · exact ⟨hr2.1.trans e1, hr2.2.1.trans e2, hr2.2.2.1.trans e3, hr2.2.2.2.trans e4⟩
    · intro hc; rw [hsp] at hc; cases hc

/-- After one `AddValue` a well-formed model is well-formed, holds between one and
`MAX_CLUSTERS` components, and its range trackers are those set at the head of the call. -/
theorem AddValue_invariant {E : Env} {model : gaussian_mixture_model_t}
    (h : Initialised E model) (observation : observation_t) (value : vec2_t) (now : Dbl) :
    ∃ model3, GaussianMixtureModel_AddValue E model observation value now = some model3 ∧
      Initialised E model3 ∧ 1 ≤ model3.num_clusters ∧
      model3.min_in = (AddValue_extrema model observation value).min_in ∧
      model3.max_in = (AddValue_extrema model observation value).max_in ∧
      model3.min_out = (AddValue_extrema model observation value).min_out ∧
      model3.max_out = (AddValue_extrema model observation value).max_out := by
  obtain ⟨s, m2, m3, _, _, h3, hI2, _, hr2, hyes, hno⟩ := AddValue_spec h observation value now
  refine ⟨m3, h3, ?_⟩
  cases hsp : spawn_condition E m2 s.max_error s.best_distance with
  | true =>
    obtain ⟨p, _, rfl⟩ := hyes hsp
    have hlt : m2.num_clusters < E.MAX_CLUSTERS := by
      simp only [spawn_condition, Bool.and_eq_true, decide_eq_true_eq] at hsp
      exact hsp.1
    refine ⟨⟨hI2.length_eq, ?_, hI2.non_null, hI2.nodup⟩, ?_, hr2⟩
    · show m2.num_clusters + 1 ≤ E.MAX_CLUSTERS
      omega
    · show 1 ≤ m2.num_clusters + 1
      omega
  | false =>
    have := hno hsp
    subst this
    refine ⟨hI2, ?_, hr2⟩
    have hle := hI2.num_le
    have hpos := E.MAX_CLUSTERS_pos
    by_contra hc
    have h0 : m3.num_clusters = 0 := by omega
    have hlt : m3.num_clusters < E.MAX_CLUSTERS := by omega
    simp [spawn_condition, h0] at hsp
    omega

/-! ## C1 -/

/-- C1: `AddValue` on a well-formed model with `num_clusters = 0` returns with
`num_clusters = 1`, and the component behind slot 0 has the observation's
`(density, thresh)` as input mean, the target value as output mean and score 1. -/
theorem C1_AddValue_on_empty_spawns_one (E : Env) (model : gaussian_mixture_model_t)
    (observation : observation_t) (value : vec2_t) (now : Dbl)
    (h : Initialised E model) (h0 : model.num_clusters = 0) :
    ∃ model3 p, GaussianMixtureModel_AddValue E model observation value now = some model3 ∧
      model3.num_clusters = 1 ∧ deref model3 0 = some p ∧
      (model3.cluster_mem p).gaussian_in.mean = ⟨observation.density, observation.thresh⟩ ∧
      (model3.cluster_mem p).gaussian_out.mean = value ∧
      (model3.cluster_mem p).score = d1 := by
  obtain ⟨s, m2, m3, _, _, h3, hI2, hnum2, _, hyes, _⟩ := AddValue_spec h observation value now
  have hz : m2.num_clusters = 0 := by omega
  have hsp : spawn_condition E m2 s.max_error s.best_distance = true := by
    have hpos := E.MAX_CLUSTERS_pos
    simp [spawn_condition, hz, hpos]
  obtain ⟨p, hp, rfl⟩ := hyes hsp
  rw [hz] at hp
  refine ⟨_, p, h3, ?_, ?_, ?_, ?_, ?_⟩
  · show m2.num_clusters + 1 = 1
    omega
  · exact hp
  · simp [store, GaussianMixtureCluster_Initialize, GaussianMixtureCluster_UpdateNormal]
  · simp [store, GaussianMixtureCluster_Initialize, GaussianMixtureCluster_UpdateNormal]
  · simp [store, GaussianMixtureCluster_Initialize, GaussianMixtureCluster_UpdateNormal]

/-- C1 at the freshly initialised model of `Env0`. -/
theorem C1_AddValue_on_empty_spawns_one_witness :
    ∃ model3 p,
      GaussianMixtureModel_AddValue Env0 (GaussianMixtureModel_Initialize Env0 "gmm")
        ⟨Dbl.fin 3, Dbl.fin 4, 0⟩ ⟨Dbl.fin 5, Dbl.fin 6⟩ (Dbl.fin 0) = some model3 ∧
      model3.num_clusters = 1 ∧ deref model3 0 = some p ∧
      (model3.cluster_mem p).gaussian_in.mean = ⟨Dbl.fin 3, Dbl.fin 4⟩ ∧
      (model3.cluster_mem p).gaussian_out.mean = ⟨Dbl.fin 5, Dbl.fin 6⟩ ∧
      (model3.cluster_mem p).score = d1 :=
  C1_AddValue_on_empty_spawns_one Env0 (GaussianMixtureModel_Initialize Env0 "gmm")
    ⟨Dbl.fin 3, Dbl.fin 4, 0⟩ ⟨Dbl.fin 5, Dbl.fin 6⟩ (Dbl.fin 0)
    (Initialize_initialised Env0 "gmm") rfl

/-! ## C2 -/

/-- C2: in `AddValue` on a well-formed model, with `s` the scores computed before the
components are updated and `model2` the state after the maintenance pass, the count ends
one above `model2.num_clusters` exactly when `num_clusters < MAX_CLUSTERS` and
(`num_clusters = 0` or (`max_error > MAX_ERROR` and `best_distance > MAX_MAHALANOBIS_SQ`));
otherwise the result is `model2` itself; the count never rises by more than one. -/
theorem C2_spawn_iff (E : Env) (model : gaussian_mixture_model_t)
    (observation : observation_t) (value : vec2_t) (now : Dbl) (h : Initialised E model) :
    ∃ s model2 model3, AddValue_score E model observation value = some s ∧
      GaussianMixtureModel_Update E s.model observation value now = some model2 ∧
      GaussianMixtureModel_AddValue E model observation value now = some model3 ∧
      (model3.num_clusters = model2.num_clusters + 1 ↔
        (model2.num_clusters < E.MAX_CLUSTERS ∧
          (model2.num_clusters = 0 ∨
            (Dbl.gt s.max_error E.MAX_ERROR = true ∧
              Dbl.gt s.best_distance E.MAX_MAHALANOBIS_SQ = true)))) ∧
      (¬ (model2.num_clusters < E.MAX_CLUSTERS ∧
          (model2.num_clusters = 0 ∨
            (Dbl.gt s.max_error E.MAX_ERROR = true ∧
              Dbl.gt s.best_distance E.MAX_MAHALANOBIS_SQ = true))) → model3 = model2) ∧
      model3.num_clusters ≤ model2.num_clusters + 1 := by
  obtain ⟨s, m2, m3, hs, hu, h3, _, _, _, hyes, hno⟩ := AddValue_spec h observation value now
  refine ⟨s, m2, m3, hs, hu, h3, ?_⟩
  have hiff : spawn_condition E m2 s.max_error s.best_distance = true ↔
      (m2.num_clusters < E.MAX_CLUSTERS ∧
        (m2.num_clusters = 0 ∨
          (Dbl.gt s.max_error E.MAX_ERROR = true ∧
            Dbl.gt s.best_distance E.MAX_MAHALANOBIS_SQ = true))) := by
    simp [spawn_condition]
  cases hsp : spawn_condition E m2 s.max_error s.best_distance with
  | true =>
    obtain ⟨p, _, rfl⟩ := hyes hsp
    have hc := hiff.mp hsp
    exact ⟨⟨fun _ => hc, fun _ => rfl⟩, fun hn => absurd hc hn, Nat.le_refl _⟩
  | false =>
    have := hno hsp
    subst this
    have hc : ¬ _ := fun hc => by
      have := hiff.mpr hc
      rw [hsp] at this
      cases this
    exact ⟨⟨fun he => by omega, fun h1 => absurd h1 hc⟩, fun _ => rfl, Nat.le_succ _⟩

/-- C2 at the freshly initialised model of `Env0`. -/
theorem C2_spawn_iff_witness :
    ∃ s model2 model3,
      AddValue_score Env0 (GaussianMixtureModel_Initialize Env0 "gmm")
        ⟨Dbl.fin 3, Dbl.fin 4, 0⟩ ⟨Dbl.fin 5, Dbl.fin 6⟩ = some s ∧
      GaussianMixtureModel_Update Env0 s.model ⟨Dbl.fin 3, Dbl.fin 4, 0⟩ ⟨Dbl.fin 5, Dbl.fin 6⟩
        (Dbl.fin 0) = some model2 ∧
      GaussianMixtureModel_AddValue Env0 (GaussianMixtureModel_Initialize Env0 "gmm")
        ⟨Dbl.fin 3, Dbl.fin 4, 0⟩ ⟨Dbl.fin 5, Dbl.fin 6⟩ (Dbl.fin 0) = some model3 ∧
      (model3.num_clusters = model2.num_clusters + 1 ↔
        (model2.num_clusters < Env0.MAX_CLUSTERS ∧
          (model2.num_clusters = 0 ∨
            (Dbl.gt s.max_error Env0.MAX_ERROR = true ∧
              Dbl.gt s.best_distance Env0.MAX_MAHALANOBIS_SQ = true)))) ∧
      (¬ (model2.num_clusters < Env0.MAX_CLUSTERS ∧
          (model2.num_clusters = 0 ∨
            (Dbl.gt s.max_error Env0.MAX_ERROR = true ∧
              Dbl.gt s.best_distance Env0.MAX_MAHALANOBIS_SQ = true))) → model3 = model2) ∧
      model3.num_clusters ≤ model2.num_clusters + 1 :=
  C2_spawn_iff Env0 (GaussianMixtureModel_Initialize Env0 "gmm")
    ⟨Dbl.fin 3, Dbl.fin 4, 0⟩ ⟨Dbl.fin 5, Dbl.fin 6⟩ (Dbl.fin 0)
    (Initialize_initialised Env0 "gmm")

/-! ## C3 -/

theorem deref_congr {model model1 : gaussian_mixture_model_t}
    (h : model1.cluster = model.cluster) (i : Nat) : deref model1 i = deref model i := by
  unfold deref
  rw [h]

/-- C3 (amended): on a well-formed model `GaussianMixtureModel_Update` returns, and when
its maintenance pass has finished no component that is still in the slot it had before
the pass has `score < MIN_CLUSTER_SCORE`, an expired timestamp or a NaN
`log_gaussian_norm_factor`, the test being made on the state after the per-component
updates. -/
theorem C3_maintenance_removes_in_place (E : Env) (model : gaussian_mixture_model_t)
    (observation : observation_t) (value : vec2_t) (now : Dbl) (h : Initialised E model) :
    ∃ r model2, Update_components E model observation value now = some r ∧
      GaussianMixtureModel_Update E model observation value now = some model2 ∧
      model2.cluster_mem = r.1.cluster_mem ∧
      ∀ j p, j < model2.num_clusters → deref model2 j = some p → deref model j = some p →
        Dbl.lt (model2.cluster_mem p).score E.MIN_CLUSTER_SCORE = false ∧
        E.ISTIMEDOUT now (model2.cluster_mem p).timestamp E.MAX_CLUSTER_LIFETIME = false ∧
        Dbl.isnan (model2.cluster_mem p).log_gaussian_norm_factor = false := by
  obtain ⟨r, hr⟩ := h.loop_returns
    (fun cluster (u : Unit) =>
      (GaussianMixtureCluster_Update E cluster observation value now, u)) ()
  have f := forClusters_frame _ _ _ _ _ _ hr
  have h1 : Initialised E r.1 := h.of_eq f.1 f.2.1
  obtain ⟨m2, hm2, _, hmem2, _, _, _, _, hc⟩ :=
    Update_maintenance_spec E now r.1.num_clusters 0 r.1 h1 (by omega)
  refine ⟨r, m2, hr, ?_, hmem2, ?_⟩
  · unfold GaussianMixtureModel_Update
    simp only [Update_components, hr, hm2]
  · intro j p hj hd2 hd
    have hd1 : deref r.1 j = some p := by rw [deref_congr f.1]; exact hd
    have := hc j p (Nat.zero_le _) hj hd2 hd1
    rw [← hmem2] at this
    simp only [removal_condition, Bool.or_eq_false_iff] at this
    exact ⟨this.1.1, this.1.2, this.2⟩

/-- C3 on the model with two weak components. -/
theorem C3_maintenance_removes_in_place_witness :
    ∃ r model2,
      Update_components Env0 model_two_weak observation_zero ⟨d0, d0⟩ d0 = some r ∧
      GaussianMixtureModel_Update Env0 model_two_weak observation_zero ⟨d0, d0⟩ d0
        = some model2 ∧
      model2.cluster_mem = r.1.cluster_mem ∧
      ∀ j p, j < model2.num_clusters → deref model2 j = some p →
        deref model_two_weak j = some p →
        Dbl.lt (model2.cluster_mem p).score Env0.MIN_CLUSTER_SCORE = false ∧
        Env0.ISTIMEDOUT d0 (model2.cluster_mem p).timestamp Env0.MAX_CLUSTER_LIFETIME = false ∧
        Dbl.isnan (model2.cluster_mem p).log_gaussian_norm_factor = false :=
  C3_maintenance_removes_in_place Env0 model_two_weak observation_zero ⟨d0, d0⟩ d0
    ⟨rfl, by decide, by decide, by decide⟩

/-- C3 as stated fails twice.  With two components below `MIN_CLUSTER_SCORE` the pass
removes the one in slot 0, moves the one of slot 1 into slot 0 and stops: the model
returned has one live component, slot 0 points at storage 1, and its score is below
`MIN_CLUSTER_SCORE`.  With one component whose `log_gaussian_norm_factor` is plus
infinity nothing is removed, the test being `isnan`: the model returned has one live
component, slot 0 points at storage 0, and its normalisation factor is not finite. -/
theorem C3_counterexample :
    (GaussianMixtureModel_Update Env0 model_two_weak observation_zero ⟨d0, d0⟩ d0).map
        (fun model2 => (model2.num_clusters, deref model2 0,
          Dbl.lt (model2.cluster_mem 1).score Env0.MIN_CLUSTER_SCORE))
      = some (1, some 1, true) ∧
    (GaussianMixtureModel_Update Env0 model_one_inf observation_zero ⟨d0, d0⟩ d0).map
        (fun model2 => (model2.num_clusters, deref model2 0,
          Dbl.isfinite (model2.cluster_mem 0).log_gaussian_norm_factor))
      = some (1, some 0, false) := by
  decide!

/-! ## C4 -/

/-- C4: on a well-formed model (`MAX_CLUSTERS` distinct non-NULL slots) and an index
`index < num_clusters`, `RemoveCluster` returns, lowers `num_clusters` by exactly one,
leaves every slot below the new count occupied, keeps as live components exactly the
previously live ones other than the one that was at `index`, puts the removed
component's slot at index `num_clusters`, and permutes the slot array (so that no slot
is lost or duplicated); the component storage is not touched. -/
theorem C4_RemoveCluster_compacts (E : Env) (model : gaussian_mixture_model_t) (index : Nat)
    (h : Initialised E model) (hi : index < model.num_clusters) :
    ∃ model1, GaussianMixtureModel_RemoveCluster model index = some model1 ∧
      model1.num_clusters + 1 = model.num_clusters ∧
      (∀ j, j < model1.num_clusters → ∃ p, deref model1 j = some p) ∧
      (∀ p, p ∈ live model1 ↔ (p ∈ live model ∧ deref model index ≠ some p)) ∧
      model1.cluster[model1.num_clusters]? = model.cluster[index]? ∧
      List.Perm model1.cluster model.cluster ∧ model1.cluster.Nodup ∧
      model1.cluster_mem = model.cluster_mem := by
  have hle := h.num_le
  have hlen := h.length_eq
  obtain ⟨m1, hrem⟩ : ∃ m1, GaussianMixtureModel_RemoveCluster model index = some m1 :=
    ⟨_, @RemoveCluster_eq model index (by omega) (by omega) (by omega)⟩
  obtain ⟨h1, hnum, hmem, hperm⟩ := RemoveCluster_initialised h hi hrem
  have hget := RemoveCluster_getElem? h hi hrem
  have hn1 : m1.num_clusters = model.num_clusters - 1 := by omega
  refine ⟨m1, hrem, hnum, ?_, ?_, ?_, hperm, h1.nodup, hmem⟩
  · intro j hj
    exact h1.deref_some (by have := h1.num_le; omega)
  · intro p
    rw [mem_live, mem_live]
    constructor
    · rintro ⟨j, hj, hd⟩
      rw [deref_eq_some, hget j, if_neg (by omega)] at hd
      by_cases hji : j = index
      · rw [if_pos hji] at hd
        have hlast : deref model (model.num_clusters - 1) = some p := deref_eq_some.mpr hd
        refine ⟨⟨model.num_clusters - 1, by omega, hlast⟩, ?_⟩
        intro hc
        have := h.deref_inj hc hlast
        omega
      · rw [if_neg hji] at hd
        have hdj : deref model j = some p := deref_eq_some.mpr hd
        refine ⟨⟨j, by omega, hdj⟩, ?_⟩
        intro hc
        exact hji (h.deref_inj hdj hc)
    · rintro ⟨⟨j, hj, hd⟩, hne⟩
      have hji : j ≠ index := by
        intro hc
        subst hc
        exact hne hd
      by_cases hjl : j = model.num_clusters - 1
      · refine ⟨index, by omega, ?_⟩
        rw [deref_eq_some, hget index, if_neg (by omega), if_pos rfl, ← hjl]
        exact deref_eq_some.mp hd
      · refine ⟨j, by omega, ?_⟩
        rw [deref_eq_some, hget j, if_neg hjl, if_neg hji]
        exact deref_eq_some.mp hd
  · rw [hget, if_pos hn1]

/-- C4 on the model with two live components, removing index 0. -/
theorem C4_RemoveCluster_compacts_witness :
    ∃ model1, GaussianMixtureModel_RemoveCluster model_two_weak 0 = some model1 ∧
      model1.num_clusters + 1 = model_two_weak.num_clusters ∧
      (∀ j, j < model1.num_clusters → ∃ p, deref model1 j = some p) ∧
      (∀ p, p ∈ live model1 ↔ (p ∈ live model_two_weak ∧ deref model_two_weak 0 ≠ some p)) ∧
      model1.cluster[model1.num_clusters]? = model_two_weak.cluster[0]? ∧
      List.Perm model1.cluster model_two_weak.cluster ∧ model1.cluster.Nodup ∧
      model1.cluster_mem = model_two_weak.cluster_mem :=
  C4_RemoveCluster_compacts Env0 model_two_weak 0 ⟨rfl, by decide, by decide, by decide⟩
    (by decide)

/-! ## C5 -/

/-- A sequence of `AddValue` calls on a well-formed model returns a well-formed model,
which is not empty when the sequence is not. -/
theorem AddValues_invariant (E : Env) :
    ∀ (calls : List Call) (model : gaussian_mixture_model_t), Initialised E model →
      ∃ model1, AddValues E model calls = some model1 ∧ Initialised E model1 ∧
        (calls ≠ [] → 1 ≤ model1.num_clusters) := by
  intro calls
  induction calls with
  | nil => intro model h; exact ⟨model, rfl, h, fun hc => absurd rfl hc⟩
  | cons c cs ih =>
    intro model h
    obtain ⟨m3, h3, hI3, hpos, _⟩ := AddValue_invariant h c.observation c.value c.now
    obtain ⟨m4, h4, hI4, hpos4⟩ := ih m3 hI3
    refine ⟨m4, ?_, hI4, fun _ => ?_⟩
    · simp only [AddValues, h3, h4]
    · cases cs with
      | nil =>
        simp only [AddValues, Option.some.injEq] at h4
        subst h4
        exact hpos
      | cons c1 cs1 => exact hpos4 (by simp)

/-- C5: starting from `GaussianMixtureModel_Initialize`, every sequence of one or more
`AddValue` calls returns (no slot access leaves the array, no count underflows) with
`1 ≤ num_clusters ≤ MAX_CLUSTERS`. -/
theorem C5_num_clusters_bounded (E : Env) (name : String) (c : Call) (cs : List Call) :
    ∃ model, AddValues E (GaussianMixtureModel_Initialize E name) (c :: cs) = some model ∧
      1 ≤ model.num_clusters ∧ model.num_clusters ≤ E.MAX_CLUSTERS := by
  obtain ⟨m, hm, hI, hpos⟩ :=
    AddValues_invariant E (c :: cs) _ (Initialize_initialised E name)
  exact ⟨m, hm, hpos (by simp), hI.num_le⟩

/-! ## C6 -/

theorem Dbl.lt_irrefl (x : Dbl) : Dbl.lt x x = false := by
  cases x <;> simp [Dbl.lt]

theorem Dbl.lt_asymm {x y : Dbl} (h : Dbl.lt x y = true) : Dbl.lt y x = false := by
  cases x <;> cases y <;> simp_all [Dbl.lt]
  exact le_of_lt h

/-- On numbers, "not below" is transitive. -/
theorem Dbl.not_lt_trans {a b c : Dbl} (h1 : Dbl.lt a b = false) (h2 : Dbl.lt b c = false)
    (hb : Dbl.isnan b = false) : Dbl.lt a c = false := by
  cases a <;> cases b <;> cases c <;> simp_all [Dbl.lt, Dbl.isnan]
  exact le_trans h2 h1

theorem minimum_of_one (x : Dbl) : IsMinimumOf x [x] := by
  refine ⟨by simp, ?_⟩
  intro y hy
  simp only [List.mem_singleton] at hy
  subst hy
  exact Dbl.lt_irrefl y

theorem maximum_of_one (x : Dbl) : IsMaximumOf x [x] := by
  refine ⟨by simp, ?_⟩
  intro y hy
  simp only [List.mem_singleton] at hy
  subst hy
  exact Dbl.lt_irrefl y

/-- One more value through the `MIN` of the range tracker. -/
theorem MIN_keeps_minimum {x d : Dbl} {xs : List Dbl} (h : IsMinimumOf x xs)
    (hxs : ∀ y ∈ xs, Dbl.isnan y = false) : IsMinimumOf (MIN x d) (xs ++ [d]) := by
  have hx := hxs x h.1
  unfold MIN
  cases hlt : Dbl.lt x d with
  | true =>
    simp only [if_true]
    refine ⟨by simp [h.1], ?_⟩
    intro y hy
    rw [List.mem_append, List.mem_singleton] at hy
    rcases hy with hy | hy
    · exact h.2 y hy
    · subst hy
      exact Dbl.lt_asymm hlt
  | false =>
    simp only [Bool.false_eq_true, if_false]
    refine ⟨by simp, ?_⟩
    intro y hy
    rw [List.mem_append, List.mem_singleton] at hy
    rcases hy with hy | hy
    · exact Dbl.not_lt_trans (h.2 y hy) hlt hx
    · subst hy
      exact Dbl.lt_irrefl y

/-- One more value through the `MAX` of the range tracker. -/
theorem MAX_keeps_maximum {x d : Dbl} {xs : List Dbl} (h : IsMaximumOf x xs)
    (hxs : ∀ y ∈ xs, Dbl.isnan y = false) : IsMaximumOf (MAX x d) (xs ++ [d]) := by
  have hx := hxs x h.1
  unfold MAX Dbl.gt
  cases hlt : Dbl.lt d x with
  | true =>
    simp only [if_true]
    refine ⟨by simp [h.1], ?_⟩
    intro y hy
    rw [List.mem_append, List.mem_singleton] at hy
    rcases hy with hy | hy
    · exact h.2 y hy
    · subst hy
      exact Dbl.lt_asymm hlt
  | false =>
    simp only [Bool.false_eq_true, if_false]
    refine ⟨by simp, ?_⟩
    intro y hy
    rw [List.mem_append, List.mem_singleton] at hy
    rcases hy with hy | hy
    · exact Dbl.not_lt_trans hlt (h.2 y hy) hx
    · subst hy
      exact Dbl.lt_irrefl y

/-- The range trackers after the first call on an empty model. -/
theorem Tracked.bootstrap {model : gaussian_mixture_model_t} (h0 : model.num_clusters = 0)
    (c : Call) (model1 : gaussian_mixture_model_t)
    (e1 : model1.min_in = (AddValue_extrema model c.observation c.value).min_in)
    (e2 : model1.max_in = (AddValue_extrema model c.observation c.value).max_in)
    (e3 : model1.min_out = (AddValue_extrema model c.observation c.value).min_out)
    (e4 : model1.max_out = (AddValue_extrema model c.observation c.value).max_out) :
    Tracked model1 [c] := by
  simp only [AddValue_extrema, if_pos h0] at e1 e2 e3 e4
  constructor <;> simp only [e1, e2, e3, e4, List.map_cons, List.map_nil]
  · exact minimum_of_one _
  · exact minimum_of_one _
  · exact maximum_of_one _
  · exact maximum_of_one _
  · exact minimum_of_one _
  · exact minimum_of_one _
  · exact maximum_of_one _
  · exact maximum_of_one _

/-- The range trackers after a further call on a model that is not empty. -/
theorem Tracked.next_call {model : gaussian_mixture_model_t} {seen : List Call}
    (ht : Tracked model seen) (hn : model.num_clusters ≠ 0)
    (hseen : ∀ k ∈ seen, Call.numeric k)
    (c : Call) (model1 : gaussian_mixture_model_t)
    (e1 : model1.min_in = (AddValue_extrema model c.observation c.value).min_in)
    (e2 : model1.max_in = (AddValue_extrema model c.observation c.value).max_in)
    (e3 : model1.min_out = (AddValue_extrema model c.observation c.value).min_out)
    (e4 : model1.max_out = (AddValue_extrema model c.observation c.value).max_out) :
    Tracked model1 (seen ++ [c]) := by
  simp only [AddValue_extrema, if_neg hn] at e1 e2 e3 e4
  have n1 : ∀ y ∈ seen.map (fun k => k.observation.density), Dbl.isnan y = false := by
    intro y hy
    obtain ⟨k, hk, rfl⟩ := List.mem_map.mp hy
    exact (hseen k hk).1
  have n2 : ∀ y ∈ seen.map (fun k => k.observation.thresh), Dbl.isnan y = false := by
    intro y hy
    obtain ⟨k, hk, rfl⟩ := List.mem_map.mp hy
    exact (hseen k hk).2.1
  have n3 : ∀ y ∈ seen.map (fun k => k.value.a), Dbl.isnan y = false := by
    intro y hy
    obtain ⟨k, hk, rfl⟩ := List.mem_map.mp hy
    exact (hseen k hk).2.2.1
  have n4 : ∀ y ∈ seen.map (fun k => k.value.b), Dbl.isnan y = false := by
    intro y hy
    obtain ⟨k, hk, rfl⟩ := List.mem_map.mp hy
    exact (hseen k hk).2.2.2
  constructor <;>
    simp only [e1, e2, e3, e4, List.map_append, List.map_cons, List.map_nil]
  · exact MIN_keeps_minimum ht.min_in_a n1
  · exact MIN_keeps_minimum ht.min_in_b n2
  · exact MAX_keeps_maximum ht.max_in_a n1
  · exact MAX_keeps_maximum ht.max_in_b n2
  · exact MIN_keeps_minimum ht.min_out_a n3
  · exact MIN_keeps_minimum ht.min_out_b n4
  · exact MAX_keeps_maximum ht.max_out_a n3
  · exact MAX_keeps_maximum ht.max_out_b n4

/-- Further calls on a model that is not empty keep the trackers on the whole history. -/
theorem AddValues_tracked (E : Env) :
    ∀ (calls : List Call) (model : gaussian_mixture_model_t) (seen : List Call),
      Initialised E model → 1 ≤ model.num_clusters → Tracked model seen →
      (∀ k ∈ seen ++ calls, Call.numeric k) →
      ∃ model1, AddValues E model calls = some model1 ∧ Tracked model1 (seen ++ calls) := by
  intro calls
  induction calls with
  | nil =>
    intro model seen _ _ ht _
    exact ⟨model, rfl, by simpa using ht⟩
  | cons c cs ih =>
    intro model seen h hpos ht hnum
    obtain ⟨m3, h3, hI3, hpos3, e1, e2, e3, e4⟩ :=
      AddValue_invariant h c.observation c.value c.now
    have hseen : ∀ k ∈ seen, Call.numeric k := fun k hk => hnum k (by simp [hk])
    have ht3 : Tracked m3 (seen ++ [c]) := ht.next_call (by omega) hseen c m3 e1 e2 e3 e4
    obtain ⟨m4, h4, ht4⟩ := ih m3 (seen ++ [c]) hI3 hpos3 ht3 (by simpa using hnum)
    refine ⟨m4, ?_, by simpa using ht4⟩
    simp only [AddValues, h3, h4]

/-- C6: after a non-empty sequence of `AddValue` calls with numeric inputs on a freshly
initialised model, `min_in`/`max_in` are the component-wise minimum/maximum of the
`(density, thresh)` inputs of all the calls and `min_out`/`max_out` those of all the
target values, whatever the maintenance passes removed in between. -/
theorem C6_extrema_cover_all_calls (E : Env) (name : String) (c : Call) (cs : List Call)
    (hnum : ∀ k ∈ c :: cs, Call.numeric k) :
    ∃ model, AddValues E (GaussianMixtureModel_Initialize E name) (c :: cs) = some model ∧
      Tracked model (c :: cs) := by
  obtain ⟨m3, h3, hI3, hpos3, e1, e2, e3, e4⟩ :=
    AddValue_invariant (Initialize_initialised E name) c.observation c.value c.now
  have ht3 : Tracked m3 [c] := Tracked.bootstrap rfl c m3 e1 e2 e3 e4
  obtain ⟨m4, h4, ht4⟩ := AddValues_tracked E cs m3 [c] hI3 hpos3 ht3 (by simpa using hnum)
  refine ⟨m4, ?_, by simpa using ht4⟩
  simp only [AddValues, h3, h4]

/-- C6 on the two calls of the scenario of the specification. -/
theorem C6_extrema_cover_all_calls_witness :
    ∃ model,
      AddValues Env0 (GaussianMixtureModel_Initialize Env0 "gmm") (call_first :: [call_second])
        = some model ∧
      Tracked model (call_first :: [call_second]) :=
  C6_extrema_cover_all_calls Env0 "gmm" call_first [call_second] (by
    intro k hk
    simp only [List.mem_cons, List.mem_singleton, List.not_mem_nil, or_false] at hk
    rcases hk with rfl | rfl
    · exact ⟨rfl, rfl, rfl, rfl⟩
    · exact ⟨rfl, rfl, rfl, rfl⟩)

/-! ## C7 -/

theorem UpdateInputProbability_idem (E : Env) (c : gaussian_mixture_cluster_t) (total : Dbl) :
    GaussianMixtureCluster_UpdateInputProbability E
        (GaussianMixtureCluster_UpdateInputProbability E c total) total
      = GaussianMixtureCluster_UpdateInputProbability E c total := rfl

theorem ContributeToOutput_eq (c : gaussian_mixture_cluster_t) (input output : vec2_t) :
    GaussianMixtureCluster_ContributeToOutput c input output
      = Vec2_Add output (weighted_prediction c input) := rfl

/-- The loop of `GetOutputAndBestDistance` from index `i`: the output accumulates the
votes of the visited components that pass the score gate, each with the responsibility
set in this call, and the storage of the visited components holds that responsibility. -/
theorem GetOutput_loop (E : Env) (total : Dbl) (input : vec2_t) :
    ∀ (k i : Nat) (model : gaussian_mixture_model_t) (s : vec2_t × Dbl)
      (r : gaussian_mixture_model_t × (vec2_t × Dbl)),
      forClusters
        (fun cluster (s : vec2_t × Dbl) =>
          let c := GaussianMixtureCluster_UpdateInputProbability E cluster total
          let out := if Dbl.gt c.score E.MIN_CLUSTER_SCORE
            then GaussianMixtureCluster_ContributeToOutput c input s.1 else s.1
          let best := if Dbl.lt c.mahalanobis_sq s.2 then c.mahalanobis_sq else s.2
          (c, (out, best))) k i model s = some r →
      r.2.1 =
        ((((List.range' i k).filterMap (deref model)).filter (fun p =>
            Dbl.gt (GaussianMixtureCluster_UpdateInputProbability E (model.cluster_mem p)
              total).score E.MIN_CLUSTER_SCORE)).map (fun p =>
            weighted_prediction
              (GaussianMixtureCluster_UpdateInputProbability E (model.cluster_mem p) total)
              input)).foldl Vec2_Add s.1 ∧
      ∀ p, r.1.cluster_mem p =
        if p ∈ (List.range' i k).filterMap (deref model)
        then GaussianMixtureCluster_UpdateInputProbability E (model.cluster_mem p) total
        else model.cluster_mem p := by
  intro k
  induction k with
  | zero =>
    intro i model s r h
    simp only [forClusters, Option.some.injEq] at h
    subst h
    simp
  | succ k ih =>
    intro i model s r h
    simp only [forClusters] at h
    cases hd : deref model i with
    | none => simp [hd] at h
    | some p =>
      simp only [hd] at h
      obtain ⟨ih1, ih2⟩ := ih _ _ _ _ h
      have hmem : ∀ q,
          GaussianMixtureCluster_UpdateInputProbability E
            ((store model p
              (GaussianMixtureCluster_UpdateInputProbability E (model.cluster_mem p)
                total)).cluster_mem q) total
          = GaussianMixtureCluster_UpdateInputProbability E (model.cluster_mem q) total := by
        intro q
        by_cases hq : q = p
        · subst hq
          simp only [store, Function.update_same]
          rfl
        · simp only [store, Function.update_noteq hq]
      have hder : ∀ j, deref (store model p
          (GaussianMixtureCluster_UpdateInputProbability E (model.cluster_mem p) total)) j
          = deref model j := fun j => rfl
      have hfm : List.filterMap (deref (store model p
          (GaussianMixtureCluster_UpdateInputProbability E (model.cluster_mem p) total)))
          (List.range' (i + 1) k) = List.filterMap (deref model) (List.range' (i + 1) k) := rfl
      simp only [hmem, hfm] at ih1 ih2
      have hl : (List.range' i (k + 1)).filterMap (deref model)
          = p :: (List.range' (i + 1) k).filterMap (deref model) := by
        rw [List.range'_succ, List.filterMap_cons, hd]
      constructor
      · rw [ih1, hl, List.filter_cons]
        split
        · next hg =>
          simp only [hg, if_true, List.map_cons, List.foldl_cons, ContributeToOutput_eq]
        · next hg =>
          simp only [hg, if_false]
      · intro q
        rw [ih2 q, hl]
        by_cases hq : q = p
        · subst hq
          simp only [List.mem_cons, true_or, if_true, store, Function.update_same]
          split
          · rfl
          · rfl
        · simp only [List.mem_cons, hq, false_or, store, Function.update_noteq hq]

theorem Dbl.isfinite_iff {x : Dbl} : Dbl.isfinite x = true ↔ ∃ q, x = Dbl.fin q := by
  cases x <;> simp [Dbl.isfinite]

theorem Dbl.add_fin (a b : ℚ) : Dbl.add (Dbl.fin a) (Dbl.fin b) = Dbl.round (a + b) := rfl

theorem Dbl.mul_fin (a b : ℚ) : Dbl.mul (Dbl.fin a) (Dbl.fin b) = Dbl.round (a * b) := rfl

theorem Dbl.sub_fin (a b : ℚ) : Dbl.sub (Dbl.fin a) (Dbl.fin b) = Dbl.round (a - b) := by
  simp [Dbl.sub, Dbl.neg, Dbl.add, sub_eq_add_neg]

theorem Dbl.add_zero_double (x : Dbl) (h : Dbl.isDouble x = true) :
    Dbl.add x (Dbl.fin 0) = x := by
  cases x with
  | nan => rfl
  | ninf => rfl
  | pinf => rfl
  | fin q =>
    simp only [Dbl.isDouble, decide_eq_true_eq] at h
    rw [Dbl.add_fin, add_zero, h]

theorem Dbl.zero_mul_fin (q : ℚ) : Dbl.mul (Dbl.fin 0) (Dbl.fin q) = Dbl.fin 0 := by
  rw [Dbl.mul_fin, zero_mul, Dbl.round_zero]

/-- With a zero output covariance, a finite product `inv_covariance_in · (input -
gaussian_in.mean)` and an output mean held in doubles, the vote is the responsibility
times the output mean. -/
theorem weighted_prediction_zero_covariance (c : gaussian_mixture_cluster_t) (input : vec2_t)
    (hcov : c.gaussian_out.covariance = ⟨d0, d0, d0, d0⟩)
    (hfin : (Mat2x2_DotVec2 c.inv_covariance_in
      (Vec2_Subtract input c.gaussian_in.mean)).finite = true)
    (ha : Dbl.isDouble c.gaussian_out.mean.a = true)
    (hb : Dbl.isDouble c.gaussian_out.mean.b = true) :
    weighted_prediction c input
      = Vec2_ScalarMultiply c.probability_condition_input c.gaussian_out.mean := by
  unfold weighted_prediction
  generalize Mat2x2_DotVec2 c.inv_covariance_in (Vec2_Subtract input c.gaussian_in.mean) = w
    at hfin ⊢
  simp only [vec2_t.finite, Bool.and_eq_true, Dbl.isfinite_iff] at hfin
  obtain ⟨⟨x, hx⟩, ⟨y, hy⟩⟩ := hfin
  simp only [hcov, Mat2x2_transpose, d0, Mat2x2_DotVec2, hx, hy, Dbl.zero_mul_fin, Dbl.add_fin,
    add_zero, Dbl.round_zero, Vec2_Add, Dbl.add_zero_double _ ha, Dbl.add_zero_double _ hb]

/-! The theorem of C7. -/

/-- C7 (amended): on a well-formed model `GetOutputAndBestDistance`, started from the
zero accumulator, returns; every live component then carries the responsibility
`UpdateInputProbability` computes from `total_probability`; the output is the sum, in
slot order and in double arithmetic, over exactly the live components with
`score > MIN_CLUSTER_SCORE`, of `probability_condition_input · (gaussian_out.mean +
transpose(gaussian_out.covariance) · inv_covariance_in · (input - gaussian_in.mean))`;
and a live component with zero output covariance votes its responsibility times its
output mean whenever the product `inv_covariance_in · (input - gaussian_in.mean)` it
computes is finite. -/
theorem C7_blended_output (E : Env) (model : gaussian_mixture_model_t) (total : Dbl)
    (input : vec2_t) (h : Initialised E model) :
    ∃ r, GaussianMixtureModel_GetOutputAndBestDistance E model total input ⟨d0, d0⟩ = some r ∧
      (∀ p ∈ live model, r.1.cluster_mem p =
        GaussianMixtureCluster_UpdateInputProbability E (model.cluster_mem p) total) ∧
      r.2.1 = Vec2_sum
        (((live model).filter
            (fun p => Dbl.gt (r.1.cluster_mem p).score E.MIN_CLUSTER_SCORE)).map
          (fun p => weighted_prediction (r.1.cluster_mem p) input)) ∧
      (∀ p ∈ live model,
        (r.1.cluster_mem p).gaussian_out.covariance = ⟨d0, d0, d0, d0⟩ →
        (Mat2x2_DotVec2 (r.1.cluster_mem p).inv_covariance_in
          (Vec2_Subtract input (r.1.cluster_mem p).gaussian_in.mean)).finite = true →
        Dbl.isDouble (r.1.cluster_mem p).gaussian_out.mean.a = true →
        Dbl.isDouble (r.1.cluster_mem p).gaussian_out.mean.b = true →
        weighted_prediction (r.1.cluster_mem p) input
          = Vec2_ScalarMultiply (r.1.cluster_mem p).probability_condition_input
              (r.1.cluster_mem p).gaussian_out.mean) := by
  obtain ⟨r, hr⟩ := h.loop_returns
    (fun cluster (s : vec2_t × Dbl) =>
      let c := GaussianMixtureCluster_UpdateInputProbability E cluster total
      let out := if Dbl.gt c.score E.MIN_CLUSTER_SCORE
        then GaussianMixtureCluster_ContributeToOutput c input s.1 else s.1
      let best := if Dbl.lt c.mahalanobis_sq s.2 then c.mahalanobis_sq else s.2
      (c, (out, best))) (⟨d0, d0⟩, E.MAX_DISTANCE)
  obtain ⟨h1, h2⟩ := GetOutput_loop E total input _ _ _ _ _ hr
  have hmem : ∀ p ∈ live model, r.1.cluster_mem p =
      GaussianMixtureCluster_UpdateInputProbability E (model.cluster_mem p) total := by
    intro p hp
    exact (h2 p).trans (if_pos hp)
  refine ⟨r, hr, hmem, ?_, ?_⟩
  · rw [h1]
    unfold Vec2_sum
    congr 1
    have hf : (live model).filter
          (fun p => Dbl.gt (r.1.cluster_mem p).score E.MIN_CLUSTER_SCORE)
        = (live model).filter (fun p =>
            Dbl.gt (GaussianMixtureCluster_UpdateInputProbability E (model.cluster_mem p)
              total).score E.MIN_CLUSTER_SCORE) := by
      apply List.filter_congr
      intro p hp
      rw [hmem p hp]
    rw [hf]
    apply List.map_congr_left
    intro p hp
    rw [hmem p (List.mem_filter.mp hp).1]
  · intro p _ hcov hfin ha hb
    exact weighted_prediction_zero_covariance _ input hcov hfin ha hb

/-- C7 (amended) in `Env0`, on the model whose one live component, of score 1 and with
zero output covariance, votes for the input `(1, 2)`. -/
theorem C7_blended_output_witness :
    ∃ r, GaussianMixtureModel_GetOutputAndBestDistance Env0 model_fresh d1
        ⟨Dbl.fin 1, Dbl.fin 2⟩ ⟨d0, d0⟩ = some r ∧
      (∀ p ∈ live model_fresh, r.1.cluster_mem p =
        GaussianMixtureCluster_UpdateInputProbability Env0 (model_fresh.cluster_mem p) d1) ∧
      r.2.1 = Vec2_sum
        (((live model_fresh).filter
            (fun p => Dbl.gt (r.1.cluster_mem p).score Env0.MIN_CLUSTER_SCORE)).map
          (fun p => weighted_prediction (r.1.cluster_mem p) ⟨Dbl.fin 1, Dbl.fin 2⟩)) ∧
      (∀ p ∈ live model_fresh,
        (r.1.cluster_mem p).gaussian_out.covariance = ⟨d0, d0, d0, d0⟩ →
        (Mat2x2_DotVec2 (r.1.cluster_mem p).inv_covariance_in
          (Vec2_Subtract ⟨Dbl.fin 1, Dbl.fin 2⟩
            (r.1.cluster_mem p).gaussian_in.mean)).finite = true →
        Dbl.isDouble (r.1.cluster_mem p).gaussian_out.mean.a = true →
        Dbl.isDouble (r.1.cluster_mem p).gaussian_out.mean.b = true →
        weighted_prediction (r.1.cluster_mem p) ⟨Dbl.fin 1, Dbl.fin 2⟩
          = Vec2_ScalarMultiply (r.1.cluster_mem p).probability_condition_input
              (r.1.cluster_mem p).gaussian_out.mean) :=
  C7_blended_output Env0 model_fresh d1 ⟨Dbl.fin 1, Dbl.fin 2⟩
    ⟨rfl, by decide, by decide, by decide⟩

/-- C7 as stated fails for a component with zero output covariance.  The only live
component of `model_fresh` has score 1, responsibility 1 and output mean `(5, 6)`; for
the input `(+∞, 0)` the blended output is `(NaN, NaN)`, not `(5, 6)`.  The only live
component of `model_edge` has the input mean `(-2^1023, 0)`; for the finite input
`(2^1023, 0)` the difference overflows and the blended output is again `(NaN, NaN)`.
For the input `(1, 2)` the output of `model_fresh` is `(5, 6)`. -/
theorem C7_counterexample :
    ((GaussianMixtureModel_GetOutputAndBestDistance Env0 model_fresh d1
        ⟨Dbl.pinf, Dbl.fin 0⟩ ⟨d0, d0⟩).map
      (fun r => (r.2.1, (r.1.cluster_mem 0).score,
        (r.1.cluster_mem 0).probability_condition_input,
        (r.1.cluster_mem 0).gaussian_out.covariance, (r.1.cluster_mem 0).gaussian_out.mean))
      = some (⟨Dbl.nan, Dbl.nan⟩, d1, d1, ⟨d0, d0, d0, d0⟩, ⟨Dbl.fin 5, Dbl.fin 6⟩)) ∧
    ((GaussianMixtureModel_GetOutputAndBestDistance Env0 model_edge d1
        ⟨Dbl.fin (Dbl.pow2 1023), Dbl.fin 0⟩ ⟨d0, d0⟩).map
      (fun r => (r.2.1, (r.1.cluster_mem 0).score,
        (r.1.cluster_mem 0).probability_condition_input,
        (r.1.cluster_mem 0).gaussian_out.covariance, (r.1.cluster_mem 0).gaussian_out.mean))
      = some (⟨Dbl.nan, Dbl.nan⟩, d1, d1, ⟨d0, d0, d0, d0⟩, ⟨Dbl.fin 5, Dbl.fin 6⟩)) ∧
    ((GaussianMixtureModel_GetOutputAndBestDistance Env0 model_fresh d1
        ⟨Dbl.fin 1, Dbl.fin 2⟩ ⟨d0, d0⟩).map (fun r => r.2.1)
      = some ⟨Dbl.fin 5, Dbl.fin 6⟩) := by
  decide!

/-! ## C8 -/

/-- C8: with a floor `MIN_TOTAL_MIXTURE_PROBABILITY` that is not negative,
`UpdateInputProbability` sets `probability_condition_input` to
`probability_of_in / total_probability` when `total_probability` exceeds the floor and to
0 otherwise, and changes no other field. -/
theorem C8_UpdateInputProbability (E : Env) (cluster : gaussian_mixture_cluster_t)
    (total_probability : Dbl)
    (hfloor : Dbl.lt E.MIN_TOTAL_MIXTURE_PROBABILITY (Dbl.fin 0) = false) :
    (Dbl.gt total_probability E.MIN_TOTAL_MIXTURE_PROBABILITY = true →
      (GaussianMixtureCluster_UpdateInputProbability E cluster
          total_probability).probability_condition_input
        = Dbl.div cluster.probability_of_in total_probability) ∧
    (Dbl.gt total_probability E.MIN_TOTAL_MIXTURE_PROBABILITY = false →
      (GaussianMixtureCluster_UpdateInputProbability E cluster
          total_probability).probability_condition_input = d0) ∧
    GaussianMixtureCluster_UpdateInputProbability E cluster total_probability
      = { cluster with
          probability_condition_input :=
            (GaussianMixtureCluster_UpdateInputProbability E cluster
              total_probability).probability_condition_input } := by
  refine ⟨?_, ?_, rfl⟩
  · intro hgt
    have hne : Dbl.eq total_probability d0 = false := by
      revert hgt hfloor
      generalize E.MIN_TOTAL_MIXTURE_PROBABILITY = m
      cases total_probability <;> cases m <;> simp [Dbl.gt, Dbl.lt, Dbl.eq, d0]
      intro h1 h2 h3
      rw [h3] at h2
      exact absurd (lt_of_le_of_lt h1 h2) (lt_irrefl (0 : ℚ))
    simp only [GaussianMixtureCluster_UpdateInputProbability, hgt, if_true, ZDIV, hne,
      Bool.false_eq_true, if_false]
  · intro hgt
    simp only [GaussianMixtureCluster_UpdateInputProbability, hgt, Bool.false_eq_true, if_false]

/-- C8 in `Env0`, on the zeroed component with total probability 1. -/
theorem C8_UpdateInputProbability_witness :
    (Dbl.gt d1 Env0.MIN_TOTAL_MIXTURE_PROBABILITY = true →
      (GaussianMixtureCluster_UpdateInputProbability Env0 cluster_zero
          d1).probability_condition_input
        = Dbl.div cluster_zero.probability_of_in d1) ∧
    (Dbl.gt d1 Env0.MIN_TOTAL_MIXTURE_PROBABILITY = false →
      (GaussianMixtureCluster_UpdateInputProbability Env0 cluster_zero
          d1).probability_condition_input = d0) ∧
    GaussianMixtureCluster_UpdateInputProbability Env0 cluster_zero d1
      = { cluster_zero with
          probability_condition_input :=
            (GaussianMixtureCluster_UpdateInputProbability Env0 cluster_zero
              d1).probability_condition_input } :=
  C8_UpdateInputProbability Env0 cluster_zero d1 (by decide!)

/-! ## C9 -/

/-- C9 (amended): a component whose `log_gaussian_norm_factor` is NaN, or whose
`mahalanobis_sq` exceeds `MAX_MAHALANOBIS_SQ_FOR_UPDATE`, is returned unchanged by
`GaussianMixtureCluster_Update`, whatever the observation, the output and the clock. -/
theorem C9_Update_skips (E : Env) (cluster : gaussian_mixture_cluster_t)
    (observation : observation_t) (output : vec2_t) (now : Dbl)
    (h : Dbl.isnan cluster.log_gaussian_norm_factor = true ∨
      Dbl.gt cluster.mahalanobis_sq E.MAX_MAHALANOBIS_SQ_FOR_UPDATE = true) :
    GaussianMixtureCluster_Update E cluster observation output now = cluster := by
  unfold GaussianMixtureCluster_Update
  rcases h with h | h
  · rw [if_pos h]
  · split
    · rfl
    · simp only [h, if_true]

/-- C9 (amended) in `Env0`, on a component whose last distance is saturated. -/
theorem C9_Update_skips_witness :
    GaussianMixtureCluster_Update Env0 (cluster_far d1 d0) observation_zero ⟨d0, d0⟩ d1
      = cluster_far d1 d0 :=
  C9_Update_skips Env0 (cluster_far d1 d0) observation_zero ⟨d0, d0⟩ d1 (Or.inr (by decide))

/-- C9 as stated fails: the component `cluster_inf` has a `log_gaussian_norm_factor`
that is not finite (plus infinity, which is not NaN) and a distance of 0, and `Update`
at clock value 1 moves its timestamp from 0 to 1. -/
theorem C9_counterexample :
    Dbl.isfinite cluster_inf.log_gaussian_norm_factor = false ∧
    Dbl.gt cluster_inf.mahalanobis_sq Env0.MAX_MAHALANOBIS_SQ_FOR_UPDATE = false ∧
    cluster_inf.timestamp = Dbl.fin 0 ∧
    (GaussianMixtureCluster_Update Env0 cluster_inf observation_zero ⟨d0, d0⟩
      (Dbl.fin 1)).timestamp = Dbl.fin 1 := by
  decide!

/-! ## C10 -/

theorem Dbl.div_fin (a b : ℚ) (hb : b ≠ 0) :
    Dbl.div (Dbl.fin a) (Dbl.fin b) = Dbl.round (a / b) := by
  simp [Dbl.div, hb]

theorem two_pi : Dbl.mul (Dbl.fin 2) M_PI = Dbl.fin (884279719003555 / 140737488355328) := by
  decide!

/-- The normalisation factor after `Initialize` is finite when `INITIAL_VARIANCE` is a
positive double, `sqrt` maps a positive double to a positive double within a factor 8 of
the square root, and `log` is finite on positive doubles. -/
theorem Initialize_log_finite (E : Env) (cluster : gaussian_mixture_cluster_t)
    (observation : observation_t) (output : vec2_t) (v : ℚ) (hv : 0 < v)
    (hV : E.INITIAL_VARIANCE = Dbl.fin v) (hdbl : Dbl.round v = Dbl.fin v)
    (hsqrt : ∀ q : ℚ, 0 < q → Dbl.round q = Dbl.fin q →
      ∃ r : ℚ, 0 < r ∧ E.sqrt (Dbl.fin q) = Dbl.fin r ∧ Dbl.round r = Dbl.fin r ∧
        r * r ≤ 8 * q ∧ q ≤ 8 * (r * r))
    (hlog : ∀ q : ℚ, 0 < q → Dbl.round q = Dbl.fin q → ∃ r : ℚ, E.log (Dbl.fin q) = Dbl.fin r) :
    Dbl.isfinite
      (GaussianMixtureCluster_Initialize E cluster observation
        output).log_gaussian_norm_factor = true := by
  have two0 : (2 : ℚ) ≠ 0 := by norm_num
  have two1 : (1 : ℚ) ≤ 2 := by norm_num
  obtain ⟨hv1, hv2⟩ := Dbl.double_range hv hdbl
  obtain ⟨r1, hr1, e1, d1, s1, s2⟩ := hsqrt v hv hdbl
  obtain ⟨b1, b2⟩ := Dbl.sqrt_range (-539) 514 hr1 s1 s2
    ((zpow_le_zpow_right₀ two1 (by norm_num)).trans hv1)
    (hv2.trans_le (zpow_le_zpow_right₀ two1 (by norm_num)))
  obtain ⟨r3, hr3, e3, d3, s3, s4⟩ := hsqrt r1 hr1 d1
  obtain ⟨b3, b4⟩ := Dbl.sqrt_range (-271) 259 hr3 s3 s4
    ((zpow_le_zpow_right₀ two1 (by norm_num)).trans b1)
    (b2.trans_le (zpow_le_zpow_right₀ two1 (by norm_num)))
  -- the product `2π · sqrt(llt.a)`
  have p1 : (2 : ℚ) ^ (-269 : ℤ) ≤ 884279719003555 / 140737488355328 * r3 := by
    have e : (2 : ℚ) ^ (-269 : ℤ) = 2 ^ (2 : ℤ) * 2 ^ (-271 : ℤ) := by
      rw [← zpow_add₀ two0]
      norm_num
    rw [e]
    exact mul_le_mul (by norm_num) b3 (by positivity) (by norm_num)
  have p2 : 884279719003555 / 140737488355328 * r3 ≤ (2 : ℚ) ^ (262 : ℤ) := by
    have e : (2 : ℚ) ^ (262 : ℤ) = 2 ^ (3 : ℤ) * 2 ^ (259 : ℤ) := by
      rw [← zpow_add₀ two0]
      norm_num
    rw [e]
    exact mul_le_mul (by norm_num) b4.le hr3.le (by norm_num)
  obtain ⟨x2, ex2, lx2, ux2⟩ := Dbl.round_between
    (Dbl.round_zpow (-269) (by norm_num) (by norm_num))
    (Dbl.round_zpow 262 (by norm_num) (by norm_num)) p1 p2
  have hx2 : (0 : ℚ) < x2 := lt_of_lt_of_le (by positivity) lx2
  -- the product with `sqrt(llt.d)`
  have p3 : (2 : ℚ) ^ (-540 : ℤ) ≤ x2 * r3 := by
    have : (2 : ℚ) ^ (-540 : ℤ) = 2 ^ (-269 : ℤ) * 2 ^ (-271 : ℤ) := by
      rw [← zpow_add₀ two0]
      norm_num
    rw [this]
    exact mul_le_mul lx2 b3 (by positivity) hx2.le
  have p4 : x2 * r3 ≤ (2 : ℚ) ^ (521 : ℤ) := by
    have : (2 : ℚ) ^ (521 : ℤ) = 2 ^ (262 : ℤ) * 2 ^ (259 : ℤ) := by
      rw [← zpow_add₀ two0]
      norm_num
    rw [this]
    exact mul_le_mul ux2 b4.le hr3.le (by positivity)
  obtain ⟨x3, ex3, lx3, _⟩ := Dbl.round_between
    (Dbl.round_zpow (-540) (by norm_num) (by norm_num))
    (Dbl.round_zpow 521 (by norm_num) (by norm_num)) p3 p4
  have hx3 : (0 : ℚ) < x3 := lt_of_lt_of_le (by positivity) lx3
  obtain ⟨r5, e5⟩ := hlog x3 hx3 (Dbl.round_idem ex3)
  have hlc : Dbl.div d0 (Dbl.fin r1) = Dbl.fin 0 := by
    rw [d0, Dbl.div_fin 0 r1 (ne_of_gt hr1), zero_div, Dbl.round_zero]
  have hd : Dbl.sub (Dbl.fin v) (Dbl.mul (Dbl.fin 0) (Dbl.fin 0)) = Dbl.fin v := by
    rw [Dbl.mul_fin, mul_zero, Dbl.round_zero, Dbl.sub_fin, sub_zero, hdbl]
  simp only [GaussianMixtureCluster_Initialize, GaussianMixtureCluster_UpdateNormal,
    Mat2x2_LLT, hV, e1, hlc, hd, e3, two_pi]
  simp only [Dbl.mul_fin, ex2, ex3, e5, Dbl.neg, Dbl.isfinite]

/-- C10: with `INITIAL_VARIANCE` a positive double, `sqrt` mapping a positive double to a
positive double within a factor 8 of the square root, and `log` finite on positive
doubles, `Initialize` leaves `score = 1`, a finite `log_gaussian_norm_factor`, the input
covariance `INITIAL_VARIANCE` times the identity, a zero output covariance, and a label
histogram that is zero except for average 1 and count 1 at the observed label. -/
theorem C10_Initialize (E : Env) (cluster : gaussian_mixture_cluster_t)
    (observation : observation_t) (output : vec2_t) (v : ℚ) (hv : 0 < v)
    (hV : E.INITIAL_VARIANCE = Dbl.fin v) (hdbl : Dbl.round v = Dbl.fin v)
    (hsqrt : ∀ q : ℚ, 0 < q → Dbl.round q = Dbl.fin q →
      ∃ r : ℚ, 0 < r ∧ E.sqrt (Dbl.fin q) = Dbl.fin r ∧ Dbl.round r = Dbl.fin r ∧
        r * r ≤ 8 * q ∧ q ≤ 8 * (r * r))
    (hlog : ∀ q : ℚ, 0 < q → Dbl.round q = Dbl.fin q → ∃ r : ℚ, E.log (Dbl.fin q) = Dbl.fin r) :
    (GaussianMixtureCluster_Initialize E cluster observation output).score = d1 ∧
    Dbl.isfinite
      (GaussianMixtureCluster_Initialize E cluster observation
        output).log_gaussian_norm_factor = true ∧
    (GaussianMixtureCluster_Initialize E cluster observation output).gaussian_in.covariance
      = ⟨E.INITIAL_VARIANCE, d0, d0, E.INITIAL_VARIANCE⟩ ∧
    (GaussianMixtureCluster_Initialize E cluster observation output).gaussian_out.covariance
      = ⟨d0, d0, d0, d0⟩ ∧
    (∀ l, (GaussianMixtureCluster_Initialize E cluster observation output).labels.average l
      = if l = observation.label then d1 else d0) ∧
    (∀ l, (GaussianMixtureCluster_Initialize E cluster observation output).labels.count l
      = if l = observation.label then 1 else 0) := by
  refine ⟨rfl, Initialize_log_finite E cluster observation output v hv hV hdbl hsqrt hlog,
    rfl, rfl, ?_, ?_⟩
  · intro l
    simp only [GaussianMixtureCluster_Initialize, GaussianMixtureCluster_UpdateNormal,
      labels_zero, Function.update_apply]
  · intro l
    simp only [GaussianMixtureCluster_Initialize, GaussianMixtureCluster_UpdateNormal,
      labels_zero, Function.update_apply, Nat.zero_add]

theorem sqrtStep_spec {q x : ℚ} (hq : 0 < q) (hx : 0 < x) :
    0 < sqrtStep q x ∧ q ≤ sqrtStep q x * sqrtStep q x ∧ (q ≤ x * x → sqrtStep q x ≤ x) := by
  have hqx : 0 < q / x := div_pos hq hx
  have hmul : x * (q / x) = q := by field_simp
  unfold sqrtStep
  refine ⟨by positivity, ?_, ?_⟩
  · nlinarith [sq_nonneg (x - q / x)]
  · intro h
    have : q / x ≤ x := by
      rw [div_le_iff₀ hx]
      exact h
    linarith

/-- The stand-in `sqrt0` maps a positive double to a positive double within a factor 8 of
the square root. -/
theorem sqrt0_accurate (q : ℚ) (hq : 0 < q) (hd : Dbl.round q = Dbl.fin q) :
    ∃ r : ℚ, 0 < r ∧ sqrt0 (Dbl.fin q) = Dbl.fin r ∧ Dbl.round r = Dbl.fin r ∧
      r * r ≤ 8 * q ∧ q ≤ 8 * (r * r) := by
  have two0 : (2 : ℚ) ≠ 0 := by norm_num
  have two1 : (1 : ℚ) ≤ 2 := by norm_num
  have two2 : (1 : ℚ) < 2 := by norm_num
  obtain ⟨hq1, hq2⟩ := Dbl.double_range hq hd
  obtain ⟨s1, s2⟩ := Dbl.exponent_spec hq
  have hs : sqrt0 (Dbl.fin q) = Dbl.round (sqrtStep q (sqrtStep q (sqrtStep q (sqrtStep q
      (sqrtStep q ((2 : ℚ) ^ ((Dbl.exponent q + 1) / 2))))))) := by
    simp only [sqrt0, if_neg (not_lt.mpr hq.le), if_neg (ne_of_gt hq), Dbl.pow2_eq]
  rw [hs]
  -- the starting value
  generalize hm : (Dbl.exponent q + 1) / 2 = m
  have hm1 : Dbl.exponent q ≤ 2 * m := by omega
  have hm2 : 2 * m ≤ Dbl.exponent q + 1 := by omega
  have hx0 : (0 : ℚ) < 2 ^ m := by positivity
  have hsq : (2 : ℚ) ^ m * 2 ^ m = 2 ^ (2 * m) := by
    rw [← zpow_add₀ two0, two_mul]
  have l0 : q < 2 * ((2 : ℚ) ^ m * 2 ^ m) := by
    rw [hsq]
    have : (2 : ℚ) ^ (Dbl.exponent q + 1) = 2 * 2 ^ Dbl.exponent q := by
      rw [zpow_add₀ two0, zpow_one, mul_comm]
    have := zpow_le_zpow_right₀ two1 hm1
    linarith
  have u0 : (2 : ℚ) ^ m * 2 ^ m ≤ 2 * q := by
    rw [hsq]
    have : (2 : ℚ) ^ (Dbl.exponent q + 1) = 2 * 2 ^ Dbl.exponent q := by
      rw [zpow_add₀ two0, zpow_one, mul_comm]
    have := zpow_le_zpow_right₀ two1 hm2
    linarith
  -- the Newton steps
  obtain ⟨p1, g1, _⟩ := sqrtStep_spec hq hx0
  have u1 : sqrtStep q (2 ^ m) * sqrtStep q (2 ^ m) ≤ 2 * q := by
    have hqx : 0 < q / 2 ^ m := div_pos hq hx0
    have hmul : (2 : ℚ) ^ m * (q / 2 ^ m) = q := by field_simp
    have hle : q / 2 ^ m ≤ 2 * 2 ^ m := by
      rw [div_le_iff₀ hx0]
      linarith
    unfold sqrtStep
    nlinarith
  obtain ⟨p2, g2, d2⟩ := sqrtStep_spec hq p1
  obtain ⟨p3, g3, d3⟩ := sqrtStep_spec hq p2
  obtain ⟨p4, g4, d4⟩ := sqrtStep_spec hq p3
  obtain ⟨p5, g5, d5⟩ := sqrtStep_spec hq p4
  have c2 := d2 g1
  have c3 := d3 g2
  have c4 := d4 g3
  have c5 := d5 g4
  generalize sqrtStep q (2 ^ m) = x1 at *
  generalize sqrtStep q x1 = x2 at *
  generalize sqrtStep q x2 = x3 at *
  generalize sqrtStep q x3 = x4 at *
  generalize sqrtStep q x4 = x5 at *
  have hx51 : x5 ≤ x1 := by linarith
  have u5 : x5 * x5 ≤ 2 * q := (mul_le_mul hx51 hx51 p5.le p1.le).trans u1
  -- the binade of the result
  obtain ⟨t1, t2⟩ := Dbl.exponent_spec p5
  generalize Dbl.exponent x5 = k at t1 t2
  have hk0 : (0 : ℚ) < 2 ^ k := by positivity
  have hk1 : (2 : ℚ) ^ (k + 1) = 2 * 2 ^ k := by rw [zpow_add₀ two0, zpow_one, mul_comm]
  have hklo : -538 ≤ k := by
    by_contra hc
    have h1 : (2 : ℚ) ^ (k + 1) ≤ 2 ^ (-538 : ℤ) := zpow_le_zpow_right₀ two1 (by omega)
    have h2 : x5 * x5 < 2 ^ (-538 : ℤ) * 2 ^ (-538 : ℤ) :=
      mul_lt_mul'' (lt_of_lt_of_le t2 h1) (lt_of_lt_of_le t2 h1) p5.le p5.le
    rw [← zpow_add₀ two0] at h2
    have h3 : (2 : ℚ) ^ ((-538 : ℤ) + -538) ≤ 2 ^ (-1074 : ℤ) :=
      zpow_le_zpow_right₀ two1 (by norm_num)
    linarith
  have hkhi : k ≤ 512 := by
    by_contra hc
    have h1 : (2 : ℚ) ^ (513 : ℤ) ≤ 2 ^ k := zpow_le_zpow_right₀ two1 (by omega)
    have h2 : (2 : ℚ) ^ (513 : ℤ) * 2 ^ (513 : ℤ) ≤ x5 * x5 :=
      mul_le_mul (h1.trans t1) (h1.trans t1) (by positivity) p5.le
    rw [← zpow_add₀ two0] at h2
    have h3 : (2 : ℚ) * 2 ^ (1024 : ℤ) ≤ 2 ^ ((513 : ℤ) + 513) := by
      have e : (2 : ℚ) * 2 ^ (1024 : ℤ) = 2 ^ (1025 : ℤ) := by
        rw [show (1025 : ℤ) = 1 + 1024 by norm_num, zpow_add₀ two0, zpow_one]
      rw [e]
      exact zpow_le_zpow_right₀ two1 (by norm_num)
    linarith
  obtain ⟨r, er, lr, ur⟩ := Dbl.round_between (Dbl.round_zpow k (by omega) (by omega))
    (Dbl.round_zpow (k + 1) (by omega) (by omega)) t1 t2.le
  have hr0 : 0 < r := lt_of_lt_of_le hk0 lr
  refine ⟨r, hr0, er, Dbl.round_idem er, ?_, ?_⟩
  · have h1 : r ≤ 2 * x5 := by linarith
    have h2 : r * r ≤ 2 * x5 * (2 * x5) := mul_le_mul h1 h1 hr0.le (by linarith)
    have h3 : 2 * x5 * (2 * x5) = 4 * (x5 * x5) := by ring
    linarith
  · have h1 : x5 ≤ 2 * r := by linarith
    have h2 : x5 * x5 ≤ 2 * r * (2 * r) := mul_le_mul h1 h1 p5.le (by linarith)
    have h3 : 2 * r * (2 * r) = 4 * (r * r) := by ring
    have h4 : 0 ≤ r * r := by positivity
    linarith

/-- The stand-in `log0` is finite on positive arguments. -/
theorem log0_finite (q : ℚ) (hq : 0 < q) : ∃ r : ℚ, log0 (Dbl.fin q) = Dbl.fin r := by
  simp only [log0, if_neg (not_lt.mpr hq.le), if_neg (ne_of_gt hq)]
  apply Dbl.round_finite
  have hq1 : 0 < q + 1 := by linarith
  have hz1 : (q - 1) / (q + 1) ≤ 1 := by
    rw [div_le_one hq1]
    linarith
  have hz2 : -1 ≤ (q - 1) / (q + 1) := by
    rw [le_div_iff₀ hq1]
    linarith
  generalize (q - 1) / (q + 1) = z at hz1 hz2
  have hbig : (4 : ℚ) ≤ 2 ^ (1023 : ℤ) := by
    have : (4 : ℚ) = 2 ^ (2 : ℤ) := by norm_num
    rw [this]
    exact zpow_le_zpow_right₀ (by norm_num) (by norm_num)
  rw [abs_le]
  constructor <;> nlinarith [sq_nonneg z, sq_nonneg (z - 1), sq_nonneg (z + 1)]

/-- C10 in `Env0`, on the zeroed component with the second observation of the scenario. -/
theorem C10_Initialize_witness :
    (GaussianMixtureCluster_Initialize Env0 cluster_zero call_second.observation
      call_second.value).score = d1 ∧
    Dbl.isfinite
      (GaussianMixtureCluster_Initialize Env0 cluster_zero call_second.observation
        call_second.value).log_gaussian_norm_factor = true ∧
    (GaussianMixtureCluster_Initialize Env0 cluster_zero call_second.observation
      call_second.value).gaussian_in.covariance
      = ⟨Env0.INITIAL_VARIANCE, d0, d0, Env0.INITIAL_VARIANCE⟩ ∧
    (GaussianMixtureCluster_Initialize Env0 cluster_zero call_second.observation
      call_second.value).gaussian_out.covariance = ⟨d0, d0, d0, d0⟩ ∧
    (∀ l, (GaussianMixtureCluster_Initialize Env0 cluster_zero call_second.observation
      call_second.value).labels.average l
      = if l = call_second.observation.label then d1 else d0) ∧
    (∀ l, (GaussianMixtureCluster_Initialize Env0 cluster_zero call_second.observation
      call_second.value).labels.count l
      = if l = call_second.observation.label then 1 else 0) :=
  C10_Initialize Env0 cluster_zero call_second.observation call_second.value 1 (by decide) rfl
    Dbl.round_one sqrt0_accurate (fun q hq _ => log0_finite q hq)

/-! ## C14 -/

/-- C14 (amended): after `Initialize` with the same observation and output, two
components with arbitrary prior contents agree on both Gaussians, the inverse
covariance, the Cholesky factor, the score, the normalisation factor and the label
histogram; `timestamp`, `weight`, `primary_id`, `secondary_id`, `min_y`, `max_y`,
`mahalanobis_sq`, `probability_of_in` and `probability_condition_input` are what the
slot held before. -/
theorem C14_Initialize_sets_statistics_only (E : Env) (c1 c2 : gaussian_mixture_cluster_t)
    (observation : observation_t) (output : vec2_t) :
    ((GaussianMixtureCluster_Initialize E c1 observation output).gaussian_in
        = (GaussianMixtureCluster_Initialize E c2 observation output).gaussian_in ∧
      (GaussianMixtureCluster_Initialize E c1 observation output).gaussian_out
        = (GaussianMixtureCluster_Initialize E c2 observation output).gaussian_out ∧
      (GaussianMixtureCluster_Initialize E c1 observation output).inv_covariance_in
        = (GaussianMixtureCluster_Initialize E c2 observation output).inv_covariance_in ∧
      (GaussianMixtureCluster_Initialize E c1 observation output).llt_in
        = (GaussianMixtureCluster_Initialize E c2 observation output).llt_in ∧
      (GaussianMixtureCluster_Initialize E c1 observation output).score
        = (GaussianMixtureCluster_Initialize E c2 observation output).score ∧
      (GaussianMixtureCluster_Initialize E c1 observation output).log_gaussian_norm_factor
        = (GaussianMixtureCluster_Initialize E c2 observation output).log_gaussian_norm_factor ∧
      (GaussianMixtureCluster_Initialize E c1 observation output).labels
        = (GaussianMixtureCluster_Initialize E c2 observation output).labels) ∧
    ((GaussianMixtureCluster_Initialize E c1 observation output).timestamp = c1.timestamp ∧
      (GaussianMixtureCluster_Initialize E c1 observation output).weight = c1.weight ∧
      (GaussianMixtureCluster_Initialize E c1 observation output).primary_id = c1.primary_id ∧
      (GaussianMixtureCluster_Initialize E c1 observation output).secondary_id
        = c1.secondary_id ∧
      (GaussianMixtureCluster_Initialize E c1 observation output).min_y = c1.min_y ∧
      (GaussianMixtureCluster_Initialize E c1 observation output).max_y = c1.max_y ∧
      (GaussianMixtureCluster_Initialize E c1 observation output).mahalanobis_sq
        = c1.mahalanobis_sq ∧
      (GaussianMixtureCluster_Initialize E c1 observation output).probability_of_in
        = c1.probability_of_in ∧
      (GaussianMixtureCluster_Initialize E c1 observation output).probability_condition_input
        = c1.probability_condition_input) :=
  ⟨⟨rfl, rfl, rfl, rfl, rfl, rfl, rfl⟩, ⟨rfl, rfl, rfl, rfl, rfl, rfl, rfl, rfl, rfl⟩⟩

/-- C14 as stated fails: initialised with the same observation and output, the slot
`cluster_old` keeps timestamp 7, weight 3 and distance 1000 while the zeroed slot keeps
0, 0 and 0, so the two components differ. -/
theorem C14_counterexample :
    (GaussianMixtureCluster_Initialize Env0 cluster_old observation_zero ⟨d0, d0⟩).timestamp
      = Dbl.fin 7 ∧
    (GaussianMixtureCluster_Initialize Env0 cluster_zero observation_zero ⟨d0, d0⟩).timestamp
      = Dbl.fin 0 ∧
    (GaussianMixtureCluster_Initialize Env0 cluster_old observation_zero ⟨d0, d0⟩).weight
      = Dbl.fin 3 ∧
    (GaussianMixtureCluster_Initialize Env0 cluster_zero observation_zero ⟨d0, d0⟩).weight
      = Dbl.fin 0 ∧
    (GaussianMixtureCluster_Initialize Env0 cluster_old observation_zero
      ⟨d0, d0⟩).mahalanobis_sq = Dbl.fin 1000 ∧
    (GaussianMixtureCluster_Initialize Env0 cluster_zero observation_zero
      ⟨d0, d0⟩).mahalanobis_sq = Dbl.fin 0 ∧
    GaussianMixtureCluster_Initialize Env0 cluster_old observation_zero ⟨d0, d0⟩
      ≠ GaussianMixtureCluster_Initialize Env0 cluster_zero observation_zero ⟨d0, d0⟩ := by
  refine ⟨rfl, rfl, rfl, rfl, rfl, rfl, ?_⟩
  intro h
  have ht := congrArg gaussian_mixture_cluster_t.timestamp h
  revert ht
  decide

/-! ## C15 -/

/-- C15 (amended): `AddCluster` has no capacity check of its own.  Whenever it returns
it has raised `num_clusters` by one; on a well-formed model at full capacity it reads
slot index `MAX_CLUSTERS`, outside the slot array, and has no defined result; the test
`num_clusters < MAX_CLUSTERS` is made by `AddValue` before it calls `AddCluster`. -/
theorem C15_AddCluster_has_no_capacity_check (E : Env) (model : gaussian_mixture_model_t)
    (observation : observation_t) (value : vec2_t) :
    (∀ model1, GaussianMixtureModel_AddCluster E model observation value = some model1 →
      model1.num_clusters = model.num_clusters + 1) ∧
    (Initialised E model → model.num_clusters = E.MAX_CLUSTERS →
      GaussianMixtureModel_AddCluster E model observation value = none) ∧
    (∀ max_error best_distance,
      spawn_condition E model max_error best_distance = true →
      model.num_clusters < E.MAX_CLUSTERS) := by
  refine ⟨?_, ?_, ?_⟩
  · intro model1 h
    unfold GaussianMixtureModel_AddCluster at h
    split at h
    · cases h
    · split at h
      · cases h
      · simp only [Option.some.injEq] at h
        subst h
        rfl
      · simp only [Option.some.injEq] at h
        subst h
        rfl
  · intro h hfull
    have hscan := AddCluster_scan_full model model.num_clusters 0
      (fun j _ hj => h.deref_some (by have := h.num_le; omega))
    rw [Nat.zero_add] at hscan
    unfold GaussianMixtureModel_AddCluster
    rw [hscan]
    have hout : model.cluster[model.num_clusters]? = none := by
      rw [List.getElem?_eq_none]
      rw [h.length_eq, hfull]
    simp only [hout]
  · intro me bd h
    simp only [spawn_condition, Bool.and_eq_true, decide_eq_true_eq] at h
    exact h.1

/-- C15 as stated fails: on the well-formed model `model_full` of `Env0`, with
`num_clusters = MAX_CLUSTERS = 4`, `AddCluster` does not return the model unchanged; it
reads `cluster[4]`, outside the array, and returns nothing. -/
theorem C15_counterexample :
    model_full.num_clusters = Env0.MAX_CLUSTERS ∧
    (GaussianMixtureModel_AddCluster Env0 model_full observation_zero ⟨d0, d0⟩).isSome
      = false := by
  decide

/-! ## C17 -/

/-- C17 (amended): after `Initialize`, and after every `Update` that is not skipped,
`llt_in` is the Cholesky factor of the current `gaussian_in.covariance` and
`log_gaussian_norm_factor` is `-log(2π·sqrt(llt_in.a)·sqrt(llt_in.d))`: the formula is
applied to the diagonal of the Cholesky factor, not to that of the covariance. -/
theorem C17_log_norm_of_cholesky (E : Env) (cluster : gaussian_mixture_cluster_t)
    (observation : observation_t) (output : vec2_t) (now : Dbl) :
    ((GaussianMixtureCluster_Initialize E cluster observation output).llt_in
        = Mat2x2_LLT E
            (GaussianMixtureCluster_Initialize E cluster observation
              output).gaussian_in.covariance ∧
      (GaussianMixtureCluster_Initialize E cluster observation output).log_gaussian_norm_factor
        = log_norm_formula E
            (GaussianMixtureCluster_Initialize E cluster observation output).llt_in) ∧
    (Dbl.isnan cluster.log_gaussian_norm_factor = false →
      Dbl.gt cluster.mahalanobis_sq E.MAX_MAHALANOBIS_SQ_FOR_UPDATE = false →
      (GaussianMixtureCluster_Update E cluster observation output now).llt_in
        = Mat2x2_LLT E
            (GaussianMixtureCluster_Update E cluster observation output
              now).gaussian_in.covariance ∧
      (GaussianMixtureCluster_Update E cluster observation output now).log_gaussian_norm_factor
        = log_norm_formula E
            (GaussianMixtureCluster_Update E cluster observation output now).llt_in) := by
  refine ⟨⟨rfl, rfl⟩, ?_⟩
  intro h1 h2
  unfold GaussianMixtureCluster_Update
  simp only [h1, h2, Bool.false_eq_true, if_false]
  exact ⟨rfl, rfl⟩

/-- C17 as stated fails: in `Env4` (initial variance 4) the factor after `Initialize` is
not the formula applied to the diagonal of the covariance, whose entries are 4 while
those of the Cholesky factor are about 2. -/
theorem C17_counterexample :
    (GaussianMixtureCluster_Initialize Env4 cluster_zero observation_zero
        ⟨d0, d0⟩).gaussian_in.covariance = ⟨Dbl.fin 4, d0, d0, Dbl.fin 4⟩ ∧
    (GaussianMixtureCluster_Initialize Env4 cluster_zero observation_zero
        ⟨d0, d0⟩).log_gaussian_norm_factor
      ≠ log_norm_formula Env4
          (GaussianMixtureCluster_Initialize Env4 cluster_zero observation_zero
            ⟨d0, d0⟩).gaussian_in.covariance := by
  decide!

/-! ## C20 -/

theorem live_congr {model model1 : gaussian_mixture_model_t}
    (hc : model1.cluster = model.cluster) (hn : model1.num_clusters = model.num_clusters) :
    live model1 = live model := by
  unfold live
  rw [hn]
  congr 1
  funext i
  exact deref_congr hc i

/-- The live components after `RemoveCluster` are the former ones without the one at
`index`. -/
theorem RemoveCluster_live {E : Env} {model model1 : gaussian_mixture_model_t} {index : Nat}
    (h : Initialised E model) (hi : index < model.num_clusters)
    (hrem : GaussianMixtureModel_RemoveCluster model index = some model1) (p : Nat) :
    p ∈ live model1 ↔ (p ∈ live model ∧ deref model index ≠ some p) := by
  have hle := h.num_le
  have hlen := h.length_eq
  obtain ⟨_, hnum, _, _⟩ := RemoveCluster_initialised h hi hrem
  have hget := RemoveCluster_getElem? h hi hrem
  rw [mem_live, mem_live]
  constructor
  · rintro ⟨j, hj, hd⟩
    rw [deref_eq_some, hget j, if_neg (by omega)] at hd
    by_cases hji : j = index
    · rw [if_pos hji] at hd
      have hlast : deref model (model.num_clusters - 1) = some p := deref_eq_some.mpr hd
      refine ⟨⟨model.num_clusters - 1, by omega, hlast⟩, ?_⟩
      intro hc
      have := h.deref_inj hc hlast
      omega
    · rw [if_neg hji] at hd
      have hdj : deref model j = some p := deref_eq_some.mpr hd
      refine ⟨⟨j, by omega, hdj⟩, ?_⟩
      intro hc
      exact hji (h.deref_inj hdj hc)
  · rintro ⟨⟨j, hj, hd⟩, hne⟩
    have hji : j ≠ index := by
      intro hc
      subst hc
      exact hne hd
    by_cases hjl : j = model.num_clusters - 1
    · refine ⟨index, by omega, ?_⟩
      rw [deref_eq_some, hget index, if_neg (by omega), if_pos rfl, ← hjl]
      exact deref_eq_some.mp hd
    · refine ⟨j, by omega, ?_⟩
      rw [deref_eq_some, hget j, if_neg hjl, if_neg hji]
      exact deref_eq_some.mp hd

/-- The maintenance pass only takes components away, and only ones that meet the
removal test. -/
theorem Update_maintenance_keeps (E : Env) (now : Dbl) :
    ∀ (k i : Nat) (model model1 : gaussian_mixture_model_t), Initialised E model →
      Update_maintenance E now k i model = some model1 →
      (∀ p, p ∈ live model1 → p ∈ live model) ∧
      (∀ p, p ∈ live model → p ∉ live model1 →
        removal_condition E now (model.cluster_mem p) = true) := by
  intro k
  induction k with
  | zero =>
    intro i model model1 _ hm
    simp only [Update_maintenance] at hm
    split at hm
    · cases hm
    · simp only [Option.some.injEq] at hm
      subst hm
      exact ⟨fun _ hp => hp, fun _ hp hn => absurd hp hn⟩
  | succ k ih =>
    intro i model model1 h hm
    simp only [Update_maintenance] at hm
    split at hm
    · next hlt =>
      obtain ⟨p0, hp0⟩ := @Initialised.deref_some E model h i (by have := h.num_le; omega)
      simp only [hp0] at hm
      cases hrc : removal_condition E now (model.cluster_mem p0) with
      | true =>
        simp only [hrc, if_true] at hm
        cases hrem : GaussianMixtureModel_RemoveCluster model i with
        | none => simp [hrem] at hm
        | some m1 =>
          simp only [hrem] at hm
          obtain ⟨h1, _, hmem, _⟩ := RemoveCluster_initialised h hlt hrem
          have hlive := RemoveCluster_live h hlt hrem
          obtain ⟨ih1, ih2⟩ := ih (i + 1) m1 model1 h1 hm
          constructor
          · intro p hp
            exact ((hlive p).mp (ih1 p hp)).1
          · intro p hp hn
            by_cases hp1 : p ∈ live m1
            · have := ih2 p hp1 hn
              rw [hmem] at this
              exact this
            · have hd : deref model i = some p := by
                by_contra hc
                exact hp1 ((hlive p).mpr ⟨hp, hc⟩)
              rw [hp0] at hd
              cases hd
              exact hrc
      | false =>
        simp only [hrc, Bool.false_eq_true, if_false] at hm
        exact ih (i + 1) model model1 h hm
    · simp only [Option.some.injEq] at hm
      subst hm
      exact ⟨fun _ hp => hp, fun _ hp hn => absurd hp hn⟩

/-- C20: on a well-formed model `GaussianMixtureModel_Update` returns; its maintenance
pass leaves the component storage as the per-component updates made it; every live
component whose updated state has `score` not below `MIN_CLUSTER_SCORE`, an unexpired
timestamp and a `log_gaussian_norm_factor` that is not NaN is live after the pass; every
component live after the pass was live before; and a component that is no longer live
met the removal test. -/
theorem C20_healthy_components_survive (E : Env) (model : gaussian_mixture_model_t)
    (observation : observation_t) (value : vec2_t) (now : Dbl) (h : Initialised E model) :
    ∃ r model2, Update_components E model observation value now = some r ∧
      GaussianMixtureModel_Update E model observation value now = some model2 ∧
      model2.cluster_mem = r.1.cluster_mem ∧
      (∀ p, p ∈ live model →
        Dbl.lt (r.1.cluster_mem p).score E.MIN_CLUSTER_SCORE = false →
        E.ISTIMEDOUT now (r.1.cluster_mem p).timestamp E.MAX_CLUSTER_LIFETIME = false →
        Dbl.isnan (r.1.cluster_mem p).log_gaussian_norm_factor = false →
        p ∈ live model2) ∧
      (∀ p, p ∈ live model2 → p ∈ live model) ∧
      (∀ p, p ∈ live model → p ∉ live model2 →
        removal_condition E now (r.1.cluster_mem p) = true) := by
  obtain ⟨r, m2, hr, hm2, hu, hc, hn, _, _, hmem, _⟩ := Update_spec h observation value now
  have h1 : Initialised E r.1 := h.of_eq hc hn
  obtain ⟨k1, k2⟩ := Update_maintenance_keeps E now _ _ _ _ h1 hm2
  have hl : live r.1 = live model := live_congr hc hn
  rw [hl] at k1 k2
  refine ⟨r, m2, hr, hu, hmem, ?_, k1, k2⟩
  intro p hp a1 a2 a3
  by_contra hcon
  have := k2 p hp hcon
  simp [removal_condition, a1, a2, a3] at this

/-- C20 on the model with two weak components. -/
theorem C20_healthy_components_survive_witness :
    ∃ r model2,
      Update_components Env0 model_two_weak observation_zero ⟨d0, d0⟩ d0 = some r ∧
      GaussianMixtureModel_Update Env0 model_two_weak observation_zero ⟨d0, d0⟩ d0
        = some model2 ∧
      model2.cluster_mem = r.1.cluster_mem ∧
      (∀ p, p ∈ live model_two_weak →
        Dbl.lt (r.1.cluster_mem p).score Env0.MIN_CLUSTER_SCORE = false →
        Env0.ISTIMEDOUT d0 (r.1.cluster_mem p).timestamp Env0.MAX_CLUSTER_LIFETIME = false →
        Dbl.isnan (r.1.cluster_mem p).log_gaussian_norm_factor = false →
        p ∈ live model2) ∧
      (∀ p, p ∈ live model2 → p ∈ live model_two_weak) ∧
      (∀ p, p ∈ live model_two_weak → p ∉ live model2 →
        removal_condition Env0 d0 (r.1.cluster_mem p) = true) :=
  C20_healthy_components_survive Env0 model_two_weak observation_zero ⟨d0, d0⟩ d0
    ⟨rfl, by decide, by decide, by decide⟩

/-! ## The stand-in `SafeExp0` -/

theorem round_two_pow_1000 : Dbl.round (2 ^ 1000) = Dbl.fin (2 ^ 1000) := by
  rw [← zpow_natCast (2 : ℚ) 1000]
  exact Dbl.round_zpow _ (by norm_num) (by norm_num)

theorem SafeExp0_neg (q : ℚ) (h2 : q < 0) :
    ∃ y, Dbl.round (1 / (1 - q + q * q / 2)) = Dbl.fin y ∧ 0 ≤ y ∧ y ≤ 1 ∧
      Dbl.round y = Dbl.fin y := by
  have hden : 1 ≤ 1 - q + q * q / 2 := by nlinarith [mul_self_nonneg q]
  obtain ⟨y, hy, y0, y1⟩ := Dbl.round_between Dbl.round_zero Dbl.round_one
    (by positivity : (0 : ℚ) ≤ 1 / (1 - q + q * q / 2))
    (by rw [div_le_one (by linarith)]; exact hden)
  exact ⟨y, hy, y0, y1, Dbl.round_idem hy⟩

theorem SafeExp0_pos (q : ℚ) (h1 : 0 ≤ q) (h2 : q ≤ 700) :
    ∃ y, Dbl.round (1 + q + q * q / 2) = Dbl.fin y ∧ 1 ≤ y ∧ Dbl.round y = Dbl.fin y := by
  have hhi : 1 + q + q * q / 2 ≤ (2 : ℚ) ^ (18 : ℤ) := by
    have : (2 : ℚ) ^ (18 : ℤ) = 262144 := by norm_num
    rw [this]
    nlinarith
  obtain ⟨y, hy, y0, _⟩ := Dbl.round_between Dbl.round_one
    (Dbl.round_zpow 18 (by norm_num) (by norm_num))
    (by nlinarith : (1 : ℚ) ≤ 1 + q + q * q / 2) hhi
  exact ⟨y, hy, y0, Dbl.round_idem hy⟩

theorem SafeExp0_probability : SafeExp_probability Env0 := by
  intro x
  show ∃ q : ℚ, SafeExp0 x = Dbl.fin q ∧ 0 ≤ q ∧ Dbl.round q = Dbl.fin q
  cases x with
  | nan => exact ⟨0, rfl, le_refl _, Dbl.round_zero⟩
  | ninf => exact ⟨0, rfl, le_refl _, Dbl.round_zero⟩
  | pinf => exact ⟨2 ^ 1000, rfl, by positivity, round_two_pow_1000⟩
  | fin q =>
    by_cases h1 : q < -700
    · exact ⟨0, by simp only [SafeExp0, if_pos h1], le_refl _, Dbl.round_zero⟩
    · by_cases h2 : 700 < q
      · exact ⟨2 ^ 1000, by simp only [SafeExp0, if_neg h1, if_pos h2], by positivity,
          round_two_pow_1000⟩
      · by_cases h3 : q < 0
        · obtain ⟨y, hy, y0, _, yd⟩ := SafeExp0_neg q h3
          exact ⟨y, by simp only [SafeExp0, if_neg h1, if_neg h2, if_pos h3, hy], y0, yd⟩
        · obtain ⟨y, hy, y1, yd⟩ := SafeExp0_pos q (not_lt.mp h3) (not_lt.mp h2)
          exact ⟨y, by simp only [SafeExp0, if_neg h1, if_neg h2, if_neg h3, hy], by linarith, yd⟩

theorem SafeExp0_finite : SafeExp_finite Env0 := by
  intro x
  obtain ⟨q, hq, _, _⟩ := SafeExp0_probability x
  rw [hq]
  rfl

/-- On arguments that are not positive `SafeExp0` rounds a value that does not decrease
with the argument and lies between 0 and 1. -/
theorem SafeExp0_nonpos (q : ℚ) (hq : q ≤ 0) :
    SafeExp0 (Dbl.fin q)
      = Dbl.round (if q < -700 then 0 else if q < 0 then 1 / (1 - q + q * q / 2) else 1) := by
  by_cases h1 : q < -700
  · simp only [SafeExp0, if_pos h1, Dbl.round_zero]
  · by_cases h2 : q < 0
    · have h3 : ¬ (700 : ℚ) < q := by linarith
      simp only [SafeExp0, if_neg h1, if_neg h3, if_pos h2]
    · have h0 : q = 0 := le_antisymm hq (not_lt.mp h2)
      subst h0
      have h3 : ¬ (700 : ℚ) < 0 := by norm_num
      have h4 : ¬ (0 : ℚ) < -700 := by norm_num
      simp only [SafeExp0, if_neg h4, if_neg h3, lt_irrefl, if_false]
      norm_num

theorem SafeExp0_shape (q q' : ℚ) (h : q ≤ q') (h' : q' ≤ 0) :
    (if q < -700 then (0 : ℚ) else if q < 0 then 1 / (1 - q + q * q / 2) else 1)
      ≤ (if q' < -700 then 0 else if q' < 0 then 1 / (1 - q' + q' * q' / 2) else 1) ∧
    (0 : ℚ) ≤ (if q < -700 then 0 else if q < 0 then 1 / (1 - q + q * q / 2) else 1) ∧
    (if q' < -700 then (0 : ℚ) else if q' < 0 then 1 / (1 - q' + q' * q' / 2) else 1) ≤ 1 := by
  have hden : ∀ x : ℚ, x ≤ 0 → 1 ≤ 1 - x + x * x / 2 := by
    intro x hx
    nlinarith [mul_self_nonneg x]
  have hq : q ≤ 0 := h.trans h'
  have d1 := hden q hq
  have d2 := hden q' h'
  have hmono : 1 / (1 - q + q * q / 2) ≤ 1 / (1 - q' + q' * q' / 2) := by
    apply one_div_le_one_div_of_le (by linarith)
    nlinarith
  have hle1 : ∀ x : ℚ, x ≤ 0 → 1 / (1 - x + x * x / 2) ≤ 1 := by
    intro x hx
    rw [div_le_one (by linarith [hden x hx])]
    exact hden x hx
  have hpos : ∀ x : ℚ, x ≤ 0 → 0 ≤ 1 / (1 - x + x * x / 2) := by
    intro x hx
    have := hden x hx
    positivity
  have a1 := hle1 q hq
  have a2 := hle1 q' h'
  have a3 := hpos q hq
  have a4 := hpos q' h'
  refine ⟨?_, ?_, ?_⟩ <;> split_ifs <;> linarith

theorem SafeExp0_decays : SafeExp_decays Env0 := by
  have hrange : ∀ (x : Dbl) (y : ℚ), Dbl.le x (Dbl.fin 0) = true → SafeExp0 x = Dbl.fin y →
      0 ≤ y ∧ y ≤ 1 := by
    intro x y hx hy
    cases x with
    | nan => simp [Dbl.le] at hx
    | pinf => simp [Dbl.le] at hx
    | ninf =>
      have : y = 0 := (Dbl.fin.inj hy).symm
      subst this
      exact ⟨le_refl _, zero_le_one⟩
    | fin q =>
      simp only [Dbl.le, decide_eq_true_eq] at hx
      obtain ⟨_, s0, s1⟩ := SafeExp0_shape q q (le_refl q) hx
      rw [SafeExp0_nonpos q hx] at hy
      obtain ⟨r, hr, r0, r1⟩ := Dbl.round_between Dbl.round_zero Dbl.round_one s0 s1
      rw [hr] at hy
      rw [← Dbl.fin.inj hy]
      exact ⟨r0, r1⟩
  constructor
  · intro x hx
    show ∃ y : ℚ, SafeExp0 x = Dbl.fin y ∧ 0 ≤ y ∧ y ≤ 1
    obtain ⟨y, hy, _, _⟩ := SafeExp0_probability x
    exact ⟨y, hy, hrange x y hx hy⟩
  · intro x x' y y' hxx hx' hy hy'
    change SafeExp0 x = Dbl.fin y at hy
    change SafeExp0 x' = Dbl.fin y' at hy'
    obtain ⟨hy'0, _⟩ := hrange x' y' hx' hy'
    cases x with
    | nan => simp [Dbl.le] at hxx
    | pinf => cases x' <;> simp [Dbl.le] at hxx hx'
    | ninf =>
      have : y = 0 := (Dbl.fin.inj hy).symm
      subst this
      exact hy'0
    | fin q =>
      cases x' with
      | nan => simp [Dbl.le] at hxx
      | pinf => simp [Dbl.le] at hx'
      | ninf => simp [Dbl.le] at hxx
      | fin q' =>
        simp only [Dbl.le, decide_eq_true_eq] at hxx hx'
        obtain ⟨hm, _, _⟩ := SafeExp0_shape q q' hxx hx'
        have c := Dbl.round_mono hm
        rw [← SafeExp0_nonpos q (hxx.trans hx'), ← SafeExp0_nonpos q' hx', hy, hy'] at c
        simpa [Dbl.le] using c

theorem BOUNDU_spec (x m : Dbl) (hm : Dbl.isnan m = false) :
    Dbl.gt (BOUNDU x m) m = false ∧ Dbl.isnan (BOUNDU x m) = Dbl.isnan x ∧
      (Dbl.isnan x = false → Dbl.le (BOUNDU x m) m = true) := by
  unfold BOUNDU
  cases h : Dbl.gt x m with
  | true =>
    simp only [if_true]
    cases x <;> cases m <;> simp_all [Dbl.gt, Dbl.lt, Dbl.le, Dbl.isnan]
  | false =>
    simp only [Bool.false_eq_true, if_false]
    cases x <;> cases m <;> simp_all [Dbl.gt, Dbl.lt, Dbl.le, Dbl.isnan]

/-! ## C13 -/

/-- C13 (amended): with a `MAX_DISTANCE` that is a number, `GetScore` stores
`BOUNDU(MahalanobisSq, MAX_DISTANCE)`: never a value above `MAX_DISTANCE`, NaN exactly
when the Mahalanobis form is NaN, and otherwise a value that is at most `MAX_DISTANCE`;
it stores `probability_of_in = SafeExp(log_gaussian_norm_factor - 0.5·mahalanobis_sq)`,
which an always-finite `SafeExp` makes finite for every component state and input. -/
theorem C13_GetScore_is_clamped (E : Env) (cluster : gaussian_mixture_cluster_t)
    (input : vec2_t) (hsafe : SafeExp_finite E) (hmax : Dbl.isnan E.MAX_DISTANCE = false) :
    Dbl.gt (GaussianMixtureCluster_GetScore E cluster input).mahalanobis_sq E.MAX_DISTANCE
      = false ∧
    Dbl.isnan (GaussianMixtureCluster_GetScore E cluster input).mahalanobis_sq
      = Dbl.isnan (MahalanobisSq cluster.inv_covariance_in
          (Vec2_Subtract input cluster.gaussian_in.mean)) ∧
    (Dbl.isnan (MahalanobisSq cluster.inv_covariance_in
        (Vec2_Subtract input cluster.gaussian_in.mean)) = false →
      Dbl.le (GaussianMixtureCluster_GetScore E cluster input).mahalanobis_sq E.MAX_DISTANCE
        = true) ∧
    (GaussianMixtureCluster_GetScore E cluster input).probability_of_in
      = E.SafeExp (Dbl.sub cluster.log_gaussian_norm_factor
          (Dbl.mul (Dbl.fin (1 / 2))
            (GaussianMixtureCluster_GetScore E cluster input).mahalanobis_sq)) ∧
    Dbl.isfinite (GaussianMixtureCluster_GetScore E cluster input).probability_of_in = true := by
  obtain ⟨b1, b2, b3⟩ := BOUNDU_spec (MahalanobisSq cluster.inv_covariance_in
    (Vec2_Subtract input cluster.gaussian_in.mean)) E.MAX_DISTANCE hmax
  exact ⟨b1, b2, b3, rfl, hsafe _⟩

/-- C13 (amended) in `Env0`, on the component whose normalisation factor is plus
infinity. -/
theorem C13_GetScore_is_clamped_witness :
    Dbl.gt (GaussianMixtureCluster_GetScore Env0 cluster_inf
        ⟨Dbl.fin 10, Dbl.fin 10⟩).mahalanobis_sq Env0.MAX_DISTANCE = false ∧
    Dbl.isnan (GaussianMixtureCluster_GetScore Env0 cluster_inf
        ⟨Dbl.fin 10, Dbl.fin 10⟩).mahalanobis_sq
      = Dbl.isnan (MahalanobisSq cluster_inf.inv_covariance_in
          (Vec2_Subtract ⟨Dbl.fin 10, Dbl.fin 10⟩ cluster_inf.gaussian_in.mean)) ∧
    (Dbl.isnan (MahalanobisSq cluster_inf.inv_covariance_in
        (Vec2_Subtract ⟨Dbl.fin 10, Dbl.fin 10⟩ cluster_inf.gaussian_in.mean)) = false →
      Dbl.le (GaussianMixtureCluster_GetScore Env0 cluster_inf
        ⟨Dbl.fin 10, Dbl.fin 10⟩).mahalanobis_sq Env0.MAX_DISTANCE = true) ∧
    (GaussianMixtureCluster_GetScore Env0 cluster_inf
        ⟨Dbl.fin 10, Dbl.fin 10⟩).probability_of_in
      = Env0.SafeExp (Dbl.sub cluster_inf.log_gaussian_norm_factor
          (Dbl.mul (Dbl.fin (1 / 2))
            (GaussianMixtureCluster_GetScore Env0 cluster_inf
              ⟨Dbl.fin 10, Dbl.fin 10⟩).mahalanobis_sq)) ∧
    Dbl.isfinite (GaussianMixtureCluster_GetScore Env0 cluster_inf
        ⟨Dbl.fin 10, Dbl.fin 10⟩).probability_of_in = true :=
  C13_GetScore_is_clamped Env0 cluster_inf ⟨Dbl.fin 10, Dbl.fin 10⟩ SafeExp0_finite rfl

/-- C13 as stated fails: for the input `(+∞, 0)` the component `cluster_fresh`, whose
inverse covariance is the identity, gets `mahalanobis_sq = NaN`, which is not at most
`MAX_DISTANCE`; so does the component `cluster_edge`, at input mean `(-2^1023, 0)`, for
the finite input `(2^1023, 0)`, whose difference from the mean overflows.  In both cases
`probability_of_in` is finite. -/
theorem C13_counterexample :
    (Dbl.isnan (GaussianMixtureCluster_GetScore Env0 cluster_fresh
        ⟨Dbl.pinf, Dbl.fin 0⟩).mahalanobis_sq = true ∧
      Dbl.le (GaussianMixtureCluster_GetScore Env0 cluster_fresh
        ⟨Dbl.pinf, Dbl.fin 0⟩).mahalanobis_sq Env0.MAX_DISTANCE = false ∧
      Dbl.isfinite (GaussianMixtureCluster_GetScore Env0 cluster_fresh
        ⟨Dbl.pinf, Dbl.fin 0⟩).probability_of_in = true) ∧
    (Dbl.isnan (GaussianMixtureCluster_GetScore Env0 cluster_edge
        ⟨Dbl.fin (Dbl.pow2 1023), Dbl.fin 0⟩).mahalanobis_sq = true ∧
      Dbl.le (GaussianMixtureCluster_GetScore Env0 cluster_edge
        ⟨Dbl.fin (Dbl.pow2 1023), Dbl.fin 0⟩).mahalanobis_sq Env0.MAX_DISTANCE = false ∧
      Dbl.isfinite (GaussianMixtureCluster_GetScore Env0 cluster_edge
        ⟨Dbl.fin (Dbl.pow2 1023), Dbl.fin 0⟩).probability_of_in = true) := by
  decide!

/-! ## C18 -/

/-- The score after an `Update` that is not skipped. -/
theorem Update_score (E : Env) (cluster : gaussian_mixture_cluster_t)
    (observation : observation_t) (output : vec2_t) (now : Dbl)
    (hnan : Dbl.isnan cluster.log_gaussian_norm_factor = false)
    (hnear : Dbl.gt cluster.mahalanobis_sq E.MAX_MAHALANOBIS_SQ_FOR_UPDATE = false) :
    (GaussianMixtureCluster_Update E cluster observation output now).score
      = Dbl.add cluster.score
          (Dbl.mul (Dbl.mul E.ALPHA (E.SafeExp (Dbl.mul (Dbl.neg E.BETA) cluster.mahalanobis_sq)))
            (Dbl.sub cluster.probability_condition_input cluster.score)) := by
  unfold GaussianMixtureCluster_Update
  simp only [hnan, hnear, Bool.false_eq_true, if_false]
  rfl

/-- The weight `ALPHA · SafeExp(-BETA · mahalanobis_sq)` of the score update lies between
0 and 1. -/
theorem score_weight_spec (E : Env) (α β μ : ℚ)
    (hα : E.ALPHA = Dbl.fin α) (hα0 : 0 ≤ α) (hα1 : α ≤ 1)
    (hβ : E.BETA = Dbl.fin β) (hβ0 : 0 ≤ β) (hμ0 : 0 ≤ μ) (hexp : SafeExp_decays E) :
    Dbl.le (Dbl.mul (Dbl.neg E.BETA) (Dbl.fin μ)) (Dbl.fin 0) = true ∧
    ∃ e w : ℚ, E.SafeExp (Dbl.mul (Dbl.neg E.BETA) (Dbl.fin μ)) = Dbl.fin e ∧ 0 ≤ e ∧ e ≤ 1 ∧
      Dbl.mul E.ALPHA (E.SafeExp (Dbl.mul (Dbl.neg E.BETA) (Dbl.fin μ))) = Dbl.fin w ∧
      0 ≤ w ∧ w ≤ 1 := by
  have harg : Dbl.le (Dbl.mul (Dbl.neg E.BETA) (Dbl.fin μ)) (Dbl.fin 0) = true := by
    rw [hβ]
    show Dbl.le (Dbl.round (-β * μ)) (Dbl.fin 0) = true
    have := Dbl.round_mono (by nlinarith : -β * μ ≤ 0)
    rwa [Dbl.round_zero] at this
  obtain ⟨e, he, e0, e1⟩ := hexp.1 _ harg
  obtain ⟨w, hw, w0, w1⟩ := Dbl.round_between Dbl.round_zero Dbl.round_one
    (mul_nonneg hα0 e0) (by nlinarith : α * e ≤ 1)
  exact ⟨harg, e, w, he, e0, e1, by rw [he, hα]; exact hw, w0, w1⟩

/-- C18 (amended): when `Update` is not skipped the new score is
`score + (ALPHA·SafeExp(-BETA·mahalanobis_sq))·(probability_condition_input - score)`
in double arithmetic.  With `0 ≤ ALPHA ≤ 1`, `BETA ≥ 0`, `mahalanobis_sq ≥ 0`, a score
held in a double, a difference `d = probability_condition_input - score` that does not
overflow, and `SafeExp` behaving as the exponential on arguments that are not positive:
the new score lies between the old score and the full step `score + d`, which is the
responsibility itself when the difference is exact; it stays in `[0,1]` when score and
responsibility are there; and the same component at a larger distance ends between the
old score and the score it reaches at the smaller distance. -/
theorem C18_score_moves_toward_responsibility (E : Env)
    (cluster : gaussian_mixture_cluster_t) (observation : observation_t) (output : vec2_t)
    (now : Dbl) (α β μ s p d : ℚ)
    (hα : E.ALPHA = Dbl.fin α) (hα0 : 0 ≤ α) (hα1 : α ≤ 1)
    (hβ : E.BETA = Dbl.fin β) (hβ0 : 0 ≤ β)
    (hμ : cluster.mahalanobis_sq = Dbl.fin μ) (hμ0 : 0 ≤ μ)
    (hs : cluster.score = Dbl.fin s) (hsd : Dbl.round s = Dbl.fin s)
    (hp : cluster.probability_condition_input = Dbl.fin p)
    (hd : Dbl.sub (Dbl.fin p) (Dbl.fin s) = Dbl.fin d)
    (hnan : Dbl.isnan cluster.log_gaussian_norm_factor = false)
    (hnear : Dbl.gt cluster.mahalanobis_sq E.MAX_MAHALANOBIS_SQ_FOR_UPDATE = false)
    (hexp : SafeExp_decays E) :
    (GaussianMixtureCluster_Update E cluster observation output now).score
      = Dbl.add cluster.score
          (Dbl.mul (Dbl.mul E.ALPHA (E.SafeExp (Dbl.mul (Dbl.neg E.BETA) cluster.mahalanobis_sq)))
            (Dbl.sub cluster.probability_condition_input cluster.score)) ∧
    (s ≤ p →
      Dbl.le (Dbl.fin s)
        (GaussianMixtureCluster_Update E cluster observation output now).score = true ∧
      Dbl.le (GaussianMixtureCluster_Update E cluster observation output now).score
        (Dbl.add (Dbl.fin s) (Dbl.fin d)) = true) ∧
    (p ≤ s →
      Dbl.le (Dbl.add (Dbl.fin s) (Dbl.fin d))
        (GaussianMixtureCluster_Update E cluster observation output now).score = true ∧
      Dbl.le (GaussianMixtureCluster_Update E cluster observation output now).score
        (Dbl.fin s) = true) ∧
    (d = p - s → Dbl.round p = Dbl.fin p → Dbl.add (Dbl.fin s) (Dbl.fin d) = Dbl.fin p) ∧
    (0 ≤ s → s ≤ 1 → 0 ≤ p → p ≤ 1 →
      ∃ s1 : ℚ,
        (GaussianMixtureCluster_Update E cluster observation output now).score = Dbl.fin s1 ∧
        0 ≤ s1 ∧ s1 ≤ 1) ∧
    ∀ (cluster2 : gaussian_mixture_cluster_t) (μ2 : ℚ),
      cluster2.score = cluster.score →
      cluster2.probability_condition_input = cluster.probability_condition_input →
      cluster2.mahalanobis_sq = Dbl.fin μ2 → μ ≤ μ2 →
      Dbl.isnan cluster2.log_gaussian_norm_factor = false →
      Dbl.gt cluster2.mahalanobis_sq E.MAX_MAHALANOBIS_SQ_FOR_UPDATE = false →
      (s ≤ p →
        Dbl.le (Dbl.fin s)
          (GaussianMixtureCluster_Update E cluster2 observation output now).score = true ∧
        Dbl.le (GaussianMixtureCluster_Update E cluster2 observation output now).score
          (GaussianMixtureCluster_Update E cluster observation output now).score = true) ∧
      (p ≤ s →
        Dbl.le (GaussianMixtureCluster_Update E cluster observation output now).score
          (GaussianMixtureCluster_Update E cluster2 observation output now).score = true ∧
        Dbl.le (GaussianMixtureCluster_Update E cluster2 observation output now).score
          (Dbl.fin s) = true) := by
  have hform := Update_score E cluster observation output now hnan hnear
  obtain ⟨harg, e, w, he, e0, e1, hw, w0, w1⟩ :=
    score_weight_spec E α β μ hα hα0 hα1 hβ hβ0 hμ0 hexp
  have hdr : Dbl.round (p - s) = Dbl.fin d := by rw [← Dbl.sub_fin]; exact hd
  obtain ⟨t, ht, hup, hdown⟩ := Dbl.blend hsd w0 w1 hdr
  have hnew : (GaussianMixtureCluster_Update E cluster observation output now).score
      = Dbl.round (s + t) := by
    rw [hform, hμ, hw, hs, hp, hd, Dbl.mul_fin, ht, Dbl.add_fin]
  refine ⟨hform, ?_, ?_, ?_, ?_, ?_⟩
  · intro hsp
    obtain ⟨_, _, a1, a2⟩ := hup hsp
    rw [hnew]
    exact ⟨a1, a2⟩
  · intro hps
    obtain ⟨_, _, a1, a2⟩ := hdown hps
    rw [hnew]
    exact ⟨a1, a2⟩
  · intro hex hpd
    rw [Dbl.add_fin, hex]
    simpa using hpd
  · intro s0 s1 p0 p1
    obtain ⟨d', t', r, hd', ht', hr, r0, r1⟩ := Dbl.blend_unit hsd s0 s1 p0 p1 w0 w1
    rw [hdr] at hd'
    have e1 : d = d' := Dbl.fin.inj hd'
    subst e1
    rw [ht] at ht'
    have e2 : t = t' := Dbl.fin.inj ht'
    subst e2
    exact ⟨r, by rw [hnew, hr], r0, r1⟩
  · intro c2 μ2 hs2 hp2 hμ2 hle hnan2 hnear2
    have hform2 := Update_score E c2 observation output now hnan2 hnear2
    have hμ20 : 0 ≤ μ2 := hμ0.trans hle
    obtain ⟨harg2, e2, w2, he2, e20, _, hw2, w20, w21⟩ :=
      score_weight_spec E α β μ2 hα hα0 hα1 hβ hβ0 hμ20 hexp
    have hargs : Dbl.le (Dbl.mul (Dbl.neg E.BETA) (Dbl.fin μ2))
        (Dbl.mul (Dbl.neg E.BETA) (Dbl.fin μ)) = true := by
      rw [hβ]
      exact Dbl.round_mono (by nlinarith : -β * μ2 ≤ -β * μ)
    have hee : e2 ≤ e := hexp.2 _ _ e2 e hargs harg he2 he
    have hww : w2 ≤ w := by
      have c := Dbl.round_mono (mul_le_mul_of_nonneg_left hee hα0)
      rw [he, hα] at hw
      rw [he2, hα] at hw2
      rw [Dbl.mul_fin] at hw hw2
      rw [hw, hw2] at c
      simpa [Dbl.le] using c
    obtain ⟨t2, ht2, hup2, hdown2⟩ := Dbl.blend hsd w20 w21 hdr
    have hnew2 : (GaussianMixtureCluster_Update E c2 observation output now).score
        = Dbl.round (s + t2) := by
      rw [hform2, hμ2, hw2, hs2, hp2, hs, hp, hd, Dbl.mul_fin, ht2, Dbl.add_fin]
    obtain ⟨m1, m2⟩ := @Dbl.blend_mono s w w2 d t t2 w20 hww ht ht2
    rw [hnew, hnew2]
    constructor
    · intro hsp
      obtain ⟨_, _, a1, _⟩ := hup2 hsp
      have hd0 : 0 ≤ d := Dbl.round_nonneg (by linarith : 0 ≤ p - s) hdr
      exact ⟨a1, (m1 hd0).2.2⟩
    · intro hps
      obtain ⟨_, _, _, a2⟩ := hdown2 hps
      have hd0 : d ≤ 0 := Dbl.round_nonpos (by linarith : p - s ≤ 0) hdr
      exact ⟨(m2 hd0).2.2, a2⟩

/-- C18 (amended) in `Env0`, on a zeroed component of score 1 and responsibility 0 at
distance 0, compared with components at larger distances. -/
theorem C18_score_moves_toward_responsibility_witness :
    (GaussianMixtureCluster_Update Env0 cluster_inf observation_zero ⟨d0, d0⟩ d1).score
      = Dbl.add cluster_inf.score
          (Dbl.mul (Dbl.mul Env0.ALPHA
              (Env0.SafeExp (Dbl.mul (Dbl.neg Env0.BETA) cluster_inf.mahalanobis_sq)))
            (Dbl.sub cluster_inf.probability_condition_input cluster_inf.score)) ∧
    ((1 : ℚ) ≤ 0 →
      Dbl.le (Dbl.fin 1)
        (GaussianMixtureCluster_Update Env0 cluster_inf observation_zero ⟨d0, d0⟩ d1).score
          = true ∧
      Dbl.le (GaussianMixtureCluster_Update Env0 cluster_inf observation_zero ⟨d0, d0⟩ d1).score
        (Dbl.add (Dbl.fin 1) (Dbl.fin (-1))) = true) ∧
    ((0 : ℚ) ≤ 1 →
      Dbl.le (Dbl.add (Dbl.fin 1) (Dbl.fin (-1)))
        (GaussianMixtureCluster_Update Env0 cluster_inf observation_zero ⟨d0, d0⟩ d1).score
          = true ∧
      Dbl.le (GaussianMixtureCluster_Update Env0 cluster_inf observation_zero ⟨d0, d0⟩ d1).score
        (Dbl.fin 1) = true) ∧
    ((-1 : ℚ) = 0 - 1 → Dbl.round 0 = Dbl.fin 0 →
      Dbl.add (Dbl.fin 1) (Dbl.fin (-1)) = Dbl.fin 0) ∧
    ((0 : ℚ) ≤ 1 → (1 : ℚ) ≤ 1 → (0 : ℚ) ≤ 0 → (0 : ℚ) ≤ 1 →
      ∃ s1 : ℚ,
        (GaussianMixtureCluster_Update Env0 cluster_inf observation_zero ⟨d0, d0⟩ d1).score
          = Dbl.fin s1 ∧
        0 ≤ s1 ∧ s1 ≤ 1) ∧
    ∀ (cluster2 : gaussian_mixture_cluster_t) (μ2 : ℚ),
      cluster2.score = cluster_inf.score →
      cluster2.probability_condition_input = cluster_inf.probability_condition_input →
      cluster2.mahalanobis_sq = Dbl.fin μ2 → 0 ≤ μ2 →
      Dbl.isnan cluster2.log_gaussian_norm_factor = false →
      Dbl.gt cluster2.mahalanobis_sq Env0.MAX_MAHALANOBIS_SQ_FOR_UPDATE = false →
      ((1 : ℚ) ≤ 0 →
        Dbl.le (Dbl.fin 1)
          (GaussianMixtureCluster_Update Env0 cluster2 observation_zero ⟨d0, d0⟩ d1).score
            = true ∧
        Dbl.le (GaussianMixtureCluster_Update Env0 cluster2 observation_zero ⟨d0, d0⟩ d1).score
          (GaussianMixtureCluster_Update Env0 cluster_inf observation_zero ⟨d0, d0⟩ d1).score
            = true) ∧
      ((0 : ℚ) ≤ 1 →
        Dbl.le
          (GaussianMixtureCluster_Update Env0 cluster_inf observation_zero ⟨d0, d0⟩ d1).score
          (GaussianMixtureCluster_Update Env0 cluster2 observation_zero ⟨d0, d0⟩ d1).score
            = true ∧
        Dbl.le (GaussianMixtureCluster_Update Env0 cluster2 observation_zero ⟨d0, d0⟩ d1).score
          (Dbl.fin 1) = true) :=
  C18_score_moves_toward_responsibility Env0 cluster_inf observation_zero ⟨d0, d0⟩ d1
    (3602879701896397 / 36028797018963968) 1 0 1 0 (-1) (by decide!) (by norm_num)
    (by norm_num) rfl (by norm_num) rfl (le_refl 0) rfl Dbl.round_one rfl (by decide!) rfl
    (by decide) SafeExp0_decays

/-- C18 as stated fails at `ALPHA = 1`: the component `cluster_tenth` has score 1,
responsibility 0.1 (the double nearest to it) and distance 0, so the weight is
`1 · SafeExp(0) = 1`; in double arithmetic `1 + 1·(0.1 - 1)` is
`0.09999999999999997779...`, below the responsibility, so the new score does not lie
between the old score and the responsibility. -/
theorem C18_counterexample :
    Env1.ALPHA = Dbl.fin 1 ∧ Env1.BETA = Dbl.fin 1 ∧
    cluster_tenth.mahalanobis_sq = Dbl.fin 0 ∧ cluster_tenth.score = Dbl.fin 1 ∧
    cluster_tenth.probability_condition_input
      = Dbl.fin (3602879701896397 / 36028797018963968) ∧
    (GaussianMixtureCluster_Update Env1 cluster_tenth observation_zero ⟨d0, d0⟩ d1).score
      = Dbl.fin (3602879701896396 / 36028797018963968) ∧
    Dbl.lt (GaussianMixtureCluster_Update Env1 cluster_tenth observation_zero ⟨d0, d0⟩ d1).score
      cluster_tenth.probability_condition_input = true := by
  decide!

/-! ## C16 -/

theorem Dbl.not_lt_of_lt {a b y : Dbl} (h1 : Dbl.lt a b = true) (h2 : Dbl.lt a y = false) :
    Dbl.lt b y = false := by
  cases a <;> cases b <;> cases y <;> simp_all [Dbl.lt]
  exact le_trans h2 (le_of_lt h1)

theorem Dbl.eq_zero_of_not_lt {x : Dbl} (h1 : Dbl.lt d0 x = false) (h2 : Dbl.lt x d0 = false)
    (h3 : Dbl.isnan x = false) : x = d0 := by
  cases x <;> simp_all [Dbl.lt, Dbl.isnan, d0]
  exact le_antisymm h1 h2

/-- One more value through the first/second scan of `Weigh`. -/
theorem IsTopTwo_next {first second check : Dbl} {pre : List Dbl}
    (h : IsTopTwo first second pre)
    (hc : Dbl.isnan check = false ∧ Dbl.lt check d0 = false) :
    IsTopTwo
      (if Dbl.gt check first then check else first)
      (if Dbl.gt check first then first else if Dbl.gt check second then check else second)
      (pre ++ [check]) := by
  obtain ⟨rest, hperm, hmax, hnil, hcons⟩ := h
  have hp1 : List.Perm (pre ++ [check]) (check :: first :: rest) :=
    (List.perm_append_comm).trans (List.Perm.cons check hperm)
  cases h1 : Dbl.gt check first with
  | true =>
    simp only [if_true]
    refine ⟨first :: rest, hp1, ⟨by simp, ?_⟩, fun hc => absurd hc (List.cons_ne_nil _ _), fun _ => ⟨by simp, ?_⟩⟩
    · intro y hy
      rw [List.mem_append, List.mem_singleton] at hy
      rcases hy with hy | hy
      · exact Dbl.not_lt_of_lt h1 (hmax.2 y hy)
      · subst hy
        exact Dbl.lt_irrefl y
    · intro y hy
      exact hmax.2 y (hperm.mem_iff.mpr hy)
  | false =>
    simp only [Bool.false_eq_true, if_false]
    have hp2 : List.Perm (pre ++ [check]) (first :: check :: rest) :=
      hp1.trans (List.Perm.swap first check rest)
    have hmax2 : IsMaximumOf first (pre ++ [check]) := by
      refine ⟨by simp [hmax.1], ?_⟩
      intro y hy
      rw [List.mem_append, List.mem_singleton] at hy
      rcases hy with hy | hy
      · exact hmax.2 y hy
      · subst hy
        exact h1
    cases h2 : Dbl.gt check second with
    | true =>
      simp only [if_true]
      refine ⟨check :: rest, hp2, hmax2, fun hc => absurd hc (List.cons_ne_nil _ _), fun _ => ⟨by simp, ?_⟩⟩
      intro y hy
      rw [List.mem_cons] at hy
      rcases hy with hy | hy
      · subst hy
        exact Dbl.lt_irrefl y
      · have hne : rest ≠ [] := fun hc => by rw [hc] at hy; cases hy
        exact Dbl.not_lt_of_lt h2 ((hcons hne).2 y hy)
    | false =>
      simp only [Bool.false_eq_true, if_false]
      refine ⟨check :: rest, hp2, hmax2, fun hc => absurd hc (List.cons_ne_nil _ _), fun _ => ?_⟩
      by_cases hr : rest = []
      · have hs : second = d0 := hnil hr
        rw [hs] at h2
        have hz : check = d0 := Dbl.eq_zero_of_not_lt h2 hc.2 hc.1
        rw [hs, hr, hz]
        exact maximum_of_one d0
      · obtain ⟨hm1, hm2⟩ := hcons hr
        refine ⟨by simp [hm1], ?_⟩
        intro y hy
        rw [List.mem_cons] at hy
        rcases hy with hy | hy
        · subst hy
          exact h2
        · exact hm2 y hy

/-- The loop of `Weigh` from index `i`, with `k` iterations left, on values that are
numbers and not negative. -/
theorem Weigh_scan_spec (average : Nat → Dbl) :
    ∀ (k i : Nat) (first second : Dbl) (pre : List Dbl),
      IsTopTwo first second pre →
      (∀ j, i ≤ j → j < i + k →
        Dbl.isnan (average j) = false ∧ Dbl.lt (average j) d0 = false) →
      IsTopTwo (Weigh_scan average k i (first, second)).1
        (Weigh_scan average k i (first, second)).2
        (pre ++ (List.range' i k).map average) := by
  intro k
  induction k with
  | zero =>
    intro i first second pre h _
    simpa [Weigh_scan] using h
  | succ k ih =>
    intro i first second pre h hv
    have hstep := IsTopTwo_next h (hv i (Nat.le_refl i) (by omega))
    have hrest := fun j (h1 : i + 1 ≤ j) (h2 : j < i + 1 + k) => hv j (by omega) (by omega)
    have hl : pre ++ (List.range' i (k + 1)).map average
        = (pre ++ [average i]) ++ (List.range' (i + 1) k).map average := by
      rw [List.range'_succ, List.map_cons, List.append_assoc, List.singleton_append]
    rw [hl]
    simp only [Weigh_scan]
    cases h1 : Dbl.gt (average i) first with
    | true =>
      simp only [h1, if_true] at hstep ⊢
      exact ih (i + 1) _ _ _ hstep hrest
    | false =>
      cases h2 : Dbl.gt (average i) second with
      | true =>
        simp only [h1, h2, Bool.false_eq_true, if_false, if_true] at hstep ⊢
        exact ih (i + 1) _ _ _ hstep hrest
      | false =>
        simp only [h1, h2, Bool.false_eq_true, if_false] at hstep ⊢
        exact ih (i + 1) _ _ _ hstep hrest

/-- C16 (amended): for a component with at least one valid label whose first
`num_valid` averages are numbers and not negative, `Weigh` sets `primary_id` to the
largest and `secondary_id` to the second largest of those averages (the largest that
remains after one occurrence of the maximum is taken out, 0 when nothing remains), as
values, sets `weight = (primary_id + secondary_id) · ZDIV(cov.b·cov.c, cov.a·cov.d)` and
changes no other field. -/
theorem C16_Weigh_top_two (cluster : gaussian_mixture_cluster_t)
    (hn : 1 ≤ cluster.labels.num_valid)
    (hv : ∀ j, j < cluster.labels.num_valid →
      Dbl.isnan (cluster.labels.average j) = false ∧
      Dbl.lt (cluster.labels.average j) d0 = false) :
    IsTopTwo (GaussianMixtureCluster_Weigh cluster).primary_id
      (GaussianMixtureCluster_Weigh cluster).secondary_id
      ((List.range' 0 cluster.labels.num_valid).map cluster.labels.average) ∧
    (GaussianMixtureCluster_Weigh cluster).weight
      = Dbl.mul
          (Dbl.add (GaussianMixtureCluster_Weigh cluster).primary_id
            (GaussianMixtureCluster_Weigh cluster).secondary_id)
          (ZDIV (Dbl.mul cluster.gaussian_in.covariance.b cluster.gaussian_in.covariance.c)
            (Dbl.mul cluster.gaussian_in.covariance.a cluster.gaussian_in.covariance.d)) ∧
    GaussianMixtureCluster_Weigh cluster
      = { cluster with
          weight := (GaussianMixtureCluster_Weigh cluster).weight
          primary_id := (GaussianMixtureCluster_Weigh cluster).primary_id
          secondary_id := (GaussianMixtureCluster_Weigh cluster).secondary_id } := by
  refine ⟨?_, rfl, rfl⟩
  have h0 : IsTopTwo (cluster.labels.average 0) d0 [cluster.labels.average 0] :=
    ⟨[], List.Perm.refl _, maximum_of_one _, fun _ => rfl, fun hc => absurd rfl hc⟩
  have hs := Weigh_scan_spec cluster.labels.average (cluster.labels.num_valid - 1) 1
    (cluster.labels.average 0) d0 [cluster.labels.average 0] h0
    (fun j h1 h2 => hv j (by omega))
  have hl : (List.range' 0 cluster.labels.num_valid).map cluster.labels.average
      = [cluster.labels.average 0]
        ++ (List.range' 1 (cluster.labels.num_valid - 1)).map cluster.labels.average := by
    obtain ⟨k, hk⟩ : ∃ k, cluster.labels.num_valid = k + 1 := ⟨_, (Nat.sub_add_cancel hn).symm⟩
    rw [hk, List.range'_succ]
    simp
  rw [hl]
  exact hs

/-- C16 (amended) on a component with the averages 1/4, 1/2 and 1/4. -/
theorem C16_Weigh_top_two_witness :
    IsTopTwo (GaussianMixtureCluster_Weigh cluster_three_labels).primary_id
      (GaussianMixtureCluster_Weigh cluster_three_labels).secondary_id
      ((List.range' 0 cluster_three_labels.labels.num_valid).map
        cluster_three_labels.labels.average) ∧
    (GaussianMixtureCluster_Weigh cluster_three_labels).weight
      = Dbl.mul
          (Dbl.add (GaussianMixtureCluster_Weigh cluster_three_labels).primary_id
            (GaussianMixtureCluster_Weigh cluster_three_labels).secondary_id)
          (ZDIV
            (Dbl.mul cluster_three_labels.gaussian_in.covariance.b
              cluster_three_labels.gaussian_in.covariance.c)
            (Dbl.mul cluster_three_labels.gaussian_in.covariance.a
              cluster_three_labels.gaussian_in.covariance.d)) ∧
    GaussianMixtureCluster_Weigh cluster_three_labels
      = { cluster_three_labels with
          weight := (GaussianMixtureCluster_Weigh cluster_three_labels).weight
          primary_id := (GaussianMixtureCluster_Weigh cluster_three_labels).primary_id
          secondary_id := (GaussianMixtureCluster_Weigh cluster_three_labels).secondary_id } :=
  C16_Weigh_top_two cluster_three_labels (by decide) (by
    intro j hj
    have h3 : j < 3 := hj
    interval_cases j <;> decide!)

/-- C16 as stated fails twice.  A component fresh from `Initialize` with label 0 has
`num_valid = 0` and `average[0] = 1`, and `Weigh` sets `primary_id = 1` from an entry
that is not among the first `num_valid`; on the zeroed component, equal on those
entries, it sets 0.  With the two valid averages -1 and -2, `secondary_id` is 0, which
is none of them, and not the second largest -2. -/
theorem C16_counterexample :
    ((GaussianMixtureCluster_Initialize Env0 cluster_zero observation_zero
        ⟨d0, d0⟩).labels.num_valid = 0 ∧
      (GaussianMixtureCluster_Weigh
        (GaussianMixtureCluster_Initialize Env0 cluster_zero observation_zero
          ⟨d0, d0⟩)).primary_id = Dbl.fin 1 ∧
      cluster_zero.labels.num_valid = 0 ∧
      (GaussianMixtureCluster_Weigh cluster_zero).primary_id = Dbl.fin 0) ∧
    (cluster_negative.labels.num_valid = 2 ∧
      cluster_negative.labels.average 0 = Dbl.fin (-1) ∧
      cluster_negative.labels.average 1 = Dbl.fin (-2) ∧
      (GaussianMixtureCluster_Weigh cluster_negative).primary_id = Dbl.fin (-1) ∧
      (GaussianMixtureCluster_Weigh cluster_negative).secondary_id = Dbl.fin 0) := by
  decide!

/-! ## C19 -/

theorem AddValue_extrema_frame (model : gaussian_mixture_model_t) (observation : observation_t)
    (value : vec2_t) :
    (AddValue_extrema model observation value).cluster = model.cluster ∧
    (AddValue_extrema model observation value).num_clusters = model.num_clusters ∧
    (AddValue_extrema model observation value).cluster_mem = model.cluster_mem := by
  unfold AddValue_extrema
  split <;> exact ⟨rfl, rfl, rfl⟩

theorem forClusters_one {σ : Type}
    (body : gaussian_mixture_cluster_t → σ → gaussian_mixture_cluster_t × σ)
    (model : gaussian_mixture_model_t) (s : σ) (p : Nat) (hp : deref model 0 = some p) :
    forClusters body 1 0 model s
      = some (store model p (body (model.cluster_mem p) s).1, (body (model.cluster_mem p) s).2) := by
  simp only [forClusters, hp]

theorem store_store (model : gaussian_mixture_model_t) (p : Nat)
    (a b : gaussian_mixture_cluster_t) : store (store model p a) p b = store model p b := by
  simp only [store, Function.update_idem]

theorem store_mem_same (model : gaussian_mixture_model_t) (p : Nat)
    (a : gaussian_mixture_cluster_t) : (store model p a).cluster_mem p = a := by
  simp only [store, Function.update_same]

/-- The scoring part of `AddValue` on a model with one live component. -/
theorem AddValue_score_sole {E : Env} {model : gaussian_mixture_model_t} {p : Nat}
    (hn : model.num_clusters = 1) (hp : deref model 0 = some p)
    (observation : observation_t) (value : vec2_t) :
    AddValue_score E model observation value = some
      { model := store (AddValue_extrema model observation value) p
          (sole_scored E (model.cluster_mem p) ⟨observation.density, observation.thresh⟩)
        output := sole_output E (model.cluster_mem p) ⟨observation.density, observation.thresh⟩
        best_distance :=
          sole_best E (model.cluster_mem p) ⟨observation.density, observation.thresh⟩
        max_error := GaussianMixtureModel_GetMaxError
          (sole_output E (model.cluster_mem p) ⟨observation.density, observation.thresh⟩) value
          (Vec2_Subtract (AddValue_extrema model observation value).max_out
            (AddValue_extrema model observation value).min_out) } := by
  obtain ⟨hc, hnum, hmem⟩ := AddValue_extrema_frame model observation value
  have hd : deref (AddValue_extrema model observation value) 0 = some p := by
    rw [deref_congr hc]; exact hp
  have hnum1 : (AddValue_extrema model observation value).num_clusters = 1 := hnum.trans hn
  unfold AddValue_score GaussianMixtureModel_GetScoreSumOfClusters
    GaussianMixtureModel_GetOutputAndBestDistance
  simp only [hnum1]
  rw [forClusters_one _ _ _ p hd]
  have hnum2 : (store (AddValue_extrema model observation value) p
      (GaussianMixtureCluster_GetScore E
        ((AddValue_extrema model observation value).cluster_mem p)
        ⟨observation.density, observation.thresh⟩)).num_clusters = 1 := hnum1
  simp only [hnum2]
  rw [forClusters_one _ _ _ p (by rw [deref_store]; exact hd)]
  simp only [store_store, store_mem_same, hmem]
  rfl

/-- `Update` on a model with one live component that passes the maintenance test. -/
theorem Update_sole {E : Env} {model : gaussian_mixture_model_t} {p : Nat}
    (hn : model.num_clusters = 1) (hp : deref model 0 = some p)
    (observation : observation_t) (value : vec2_t) (now : Dbl)
    (hkeep : removal_condition E now
      (GaussianMixtureCluster_Update E (model.cluster_mem p) observation value now) = false) :
    GaussianMixtureModel_Update E model observation value now
      = some (store model p
          (GaussianMixtureCluster_Update E (model.cluster_mem p) observation value now)) := by
  unfold GaussianMixtureModel_Update Update_components
  simp only [hn]
  rw [forClusters_one _ _ _ p hp]
  have hnum : (store model p
      (GaussianMixtureCluster_Update E (model.cluster_mem p) observation value now)).num_clusters
      = 1 := hn
  simp only [hnum, Update_maintenance, Nat.lt_one_iff, if_true, deref_store, hp, store_mem_same,
    hkeep, Bool.false_eq_true, if_false, Nat.zero_add, Nat.lt_irrefl]

/-- One `AddValue` on a well-formed model with one live component that passes the
maintenance test: the component stays in slot 0 in its updated state, and a second
component is initialised behind slot 1 exactly when the spawn test holds. -/
theorem AddValue_sole {E : Env} {model : gaussian_mixture_model_t} {p : Nat}
    (h : Initialised E model) (hn : model.num_clusters = 1) (hp : deref model 0 = some p)
    (observation : observation_t) (value : vec2_t) (now : Dbl)
    (hkeep : removal_condition E now
      (sole_updated E (model.cluster_mem p) observation value now) = false) :
    ∃ model3, GaussianMixtureModel_AddValue E model observation value now = some model3 ∧
      Initialised E model3 ∧ model3.cluster = model.cluster ∧
      deref model3 0 = some p ∧
      model3.cluster_mem p = sole_updated E (model.cluster_mem p) observation value now ∧
      (model3.min_out = (AddValue_extrema model observation value).min_out ∧
        model3.max_out = (AddValue_extrema model observation value).max_out) ∧
      (spawn_condition E model
          (GaussianMixtureModel_GetMaxError
            (sole_output E (model.cluster_mem p) ⟨observation.density, observation.thresh⟩) value
            (Vec2_Subtract (AddValue_extrema model observation value).max_out
              (AddValue_extrema model observation value).min_out))
          (sole_best E (model.cluster_mem p) ⟨observation.density, observation.thresh⟩) = false →
        model3.num_clusters = 1 ∧
        ∀ q, q ≠ p → model3.cluster_mem q = model.cluster_mem q) ∧
      (spawn_condition E model
          (GaussianMixtureModel_GetMaxError
            (sole_output E (model.cluster_mem p) ⟨observation.density, observation.thresh⟩) value
            (Vec2_Subtract (AddValue_extrema model observation value).max_out
              (AddValue_extrema model observation value).min_out))
          (sole_best E (model.cluster_mem p) ⟨observation.density, observation.thresh⟩) = true →
        model3.num_clusters = 2 ∧
        ∃ p1, deref model3 1 = some p1 ∧ p1 ≠ p ∧
          model3.cluster_mem p1
            = GaussianMixtureCluster_Initialize E (model.cluster_mem p1) observation value) := by
  obtain ⟨hc, hnum, hmem⟩ := AddValue_extrema_frame model observation value
  have hscore := @AddValue_score_sole E model p hn hp observation value
  obtain ⟨s, m2, m3, hs, hu, h3, hI2, _, hr2, hyes, hno⟩ := AddValue_spec h observation value now
  rw [hscore] at hs
  simp only [Option.some.injEq] at hs
  subst hs
  have hd1 : deref (store (AddValue_extrema model observation value) p
      (sole_scored E (model.cluster_mem p) ⟨observation.density, observation.thresh⟩)) 0
      = some p := by
    rw [deref_store, deref_congr hc]; exact hp
  have hkeep1 : removal_condition E now
      (GaussianMixtureCluster_Update E
        ((store (AddValue_extrema model observation value) p
          (sole_scored E (model.cluster_mem p)
            ⟨observation.density, observation.thresh⟩)).cluster_mem p)
        observation value now) = false := by
    rw [store_mem_same]; exact hkeep
  have hn1 : (store (AddValue_extrema model observation value) p
      (sole_scored E (model.cluster_mem p)
        ⟨observation.density, observation.thresh⟩)).num_clusters = 1 := hnum.trans hn
  have hupd := Update_sole hn1 hd1 observation value now hkeep1
  rw [store_mem_same] at hupd
  dsimp only at hu hyes hno
  rw [hupd] at hu
  simp only [Option.some.injEq] at hu
  subst hu
  have hsp : ∀ me bd, spawn_condition E
      (store (store (AddValue_extrema model observation value) p
        (sole_scored E (model.cluster_mem p) ⟨observation.density, observation.thresh⟩)) p
        (GaussianMixtureCluster_Update E
          (sole_scored E (model.cluster_mem p) ⟨observation.density, observation.thresh⟩)
          observation value now)) me bd = spawn_condition E model me bd := by
    intro me bd
    simp only [spawn_condition, store, hnum]
  simp only [hsp] at hyes hno
  have hd2 : ∀ j, deref (store (store (AddValue_extrema model observation value) p
        (sole_scored E (model.cluster_mem p) ⟨observation.density, observation.thresh⟩)) p
        (GaussianMixtureCluster_Update E
          (sole_scored E (model.cluster_mem p) ⟨observation.density, observation.thresh⟩)
          observation value now)) j = deref model j := by
    intro j
    rw [deref_store, deref_store, deref_congr hc]
  refine ⟨m3, h3, ?_⟩
  cases hcond : spawn_condition E model
      (GaussianMixtureModel_GetMaxError
        (sole_output E (model.cluster_mem p) ⟨observation.density, observation.thresh⟩) value
        (Vec2_Subtract (AddValue_extrema model observation value).max_out
          (AddValue_extrema model observation value).min_out))
      (sole_best E (model.cluster_mem p) ⟨observation.density, observation.thresh⟩) with
  | false =>
    have e := hno hcond
    subst e
    refine ⟨hI2, hc, (hd2 0).trans hp, ?_, ⟨hr2.2.2.1, hr2.2.2.2⟩, fun _ => ⟨hnum.trans hn, ?_⟩,
      fun hx => by cases hx⟩
    · simp only [store_store, store_mem_same, sole_updated]
    · intro q hq
      simp only [store, Function.update_noteq hq, hmem]
  | true =>
    obtain ⟨p1, hp1, e⟩ := hyes hcond
    subst e
    have hnum2 : (store (store (AddValue_extrema model observation value) p
        (sole_scored E (model.cluster_mem p) ⟨observation.density, observation.thresh⟩)) p
        (GaussianMixtureCluster_Update E
          (sole_scored E (model.cluster_mem p) ⟨observation.density, observation.thresh⟩)
          observation value now)).num_clusters = 1 := hnum.trans hn
    rw [hnum2, hd2] at hp1
    have hne : p1 ≠ p := by
      intro hc1
      subst hc1
      have := h.deref_inj hp hp1
      omega
    have hlt : model.num_clusters < E.MAX_CLUSTERS := by
      simp only [spawn_condition, Bool.and_eq_true, decide_eq_true_eq] at hcond
      exact hcond.1
    refine ⟨⟨hI2.length_eq, ?_, hI2.non_null, hI2.nodup⟩, hc, (hd2 0).trans hp, ?_,
      ⟨hr2.2.2.1, hr2.2.2.2⟩, fun hx => Bool.noConfusion hx,
      fun _ => ⟨?_, p1, (hd2 1).trans hp1, hne, ?_⟩⟩
    · show _ + 1 ≤ E.MAX_CLUSTERS
      rw [hnum2]
      omega
    · simp only [store, Function.update_noteq hne.symm, Function.update_same, sole_updated,
        Function.update_idem]
    · show _ + 1 = 2
      rw [hnum2]
    · simp only [store, Function.update_same, Function.update_noteq hne, hmem]

/-! ## C12 -/

/-- `AddValue` on a model without live components: the range trackers are set from the
call and the component behind slot 0 is initialised. -/
theorem AddValue_empty {E : Env} {model : gaussian_mixture_model_t} {p : Nat}
    (hn : model.num_clusters = 0) (hp : deref model 0 = some p)
    (observation : observation_t) (value : vec2_t) (now : Dbl) :
    GaussianMixtureModel_AddValue E model observation value now
      = some { store (AddValue_extrema model observation value) p
                 (GaussianMixtureCluster_Initialize E (model.cluster_mem p) observation value)
               with num_clusters := 1 } := by
  obtain ⟨hc, hnum, hmem⟩ := AddValue_extrema_frame model observation value
  have hn0 : (AddValue_extrema model observation value).num_clusters = 0 := hnum.trans hn
  have hslot : (AddValue_extrema model observation value).cluster[0]? = some (some p) := by
    rw [hc]; exact deref_eq_some.mp hp
  have hpos := E.MAX_CLUSTERS_pos
  simp only [GaussianMixtureModel_AddValue, AddValue_score,
    GaussianMixtureModel_GetScoreSumOfClusters, GaussianMixtureModel_GetOutputAndBestDistance,
    GaussianMixtureModel_Update, Update_components, hn0, forClusters, Update_maintenance,
    Nat.lt_irrefl, if_false, spawn_condition, hpos, decide_True, Bool.true_and, Bool.true_or,
    if_true, GaussianMixtureModel_AddCluster, AddCluster_scan, hslot, hmem]

theorem Dbl.gt_fin (a b : ℚ) : Dbl.gt (Dbl.fin a) (Dbl.fin b) = decide (b < a) := rfl

/-- The distance scored by the first component of the scenario for the input
`(10, 10)`: the Mahalanobis distance under the initial inverse covariance, clamped at
`MAX_DISTANCE`. -/
theorem scenario_distance (E : Env) (c : gaussian_mixture_cluster_t) (iv D μ : ℚ)
    (hinv : c.inv_covariance_in = ⟨Dbl.fin iv, d0, d0, Dbl.fin iv⟩)
    (hmean : c.gaussian_in.mean = ⟨Dbl.fin 0, Dbl.fin 0⟩)
    (hD : E.MAX_DISTANCE = Dbl.fin D)
    (hμ : MahalanobisSq ⟨Dbl.fin iv, d0, d0, Dbl.fin iv⟩ ⟨Dbl.fin 10, Dbl.fin 10⟩ = Dbl.fin μ) :
    (GaussianMixtureCluster_GetScore E c ⟨Dbl.fin 10, Dbl.fin 10⟩).mahalanobis_sq
      = Dbl.fin (if D < μ then D else μ) := by
  have hsub : Vec2_Subtract ⟨Dbl.fin 10, Dbl.fin 10⟩ ⟨Dbl.fin 0, Dbl.fin 0⟩
      = ⟨Dbl.fin 10, Dbl.fin 10⟩ := by decide!
  simp only [GaussianMixtureCluster_GetScore, hmean, hinv, hsub, hμ, BOUNDU, hD, Dbl.gt_fin]
  split
  · next h => simp only [decide_eq_true_eq] at h; rw [if_pos h]
  · next h => simp only [decide_eq_true_eq] at h; rw [if_neg h]

/-- A finite Mahalanobis distance of `(10, 10)` has a finite product
`inv_covariance · (10, 10)`. -/
theorem MahalanobisSq_finite (inv : mat2x2) (μ : ℚ)
    (h : MahalanobisSq inv ⟨Dbl.fin 10, Dbl.fin 10⟩ = Dbl.fin μ) :
    (Mat2x2_DotVec2 inv ⟨Dbl.fin 10, Dbl.fin 10⟩).finite = true := by
  unfold MahalanobisSq at h
  dsimp only at h
  generalize Mat2x2_DotVec2 inv ⟨Dbl.fin 10, Dbl.fin 10⟩ = w at h ⊢
  obtain ⟨wa, wb⟩ := w
  have hadd : ∀ x y : Dbl, Dbl.add x y = Dbl.fin μ →
      Dbl.isfinite x = true ∧ Dbl.isfinite y = true := by
    intro x y hxy
    cases x <;> cases y <;> simp [Dbl.add, Dbl.isfinite] at hxy ⊢
  have hmul : ∀ x : Dbl, Dbl.isfinite (Dbl.mul (Dbl.fin 10) x) = true →
      Dbl.isfinite x = true := by
    intro x hx
    cases x <;> simp [Dbl.mul, Dbl.infTimes, Dbl.isfinite] at hx ⊢
  obtain ⟨ha, hb⟩ := hadd _ _ h
  simp only [vec2_t.finite, Bool.and_eq_true]
  exact ⟨hmul _ ha, hmul _ hb⟩

/-- The zero-safe quotient of a finite value by itself is finite. -/
theorem ZDIV_self (q : ℚ) : ∃ r : ℚ, ZDIV (Dbl.fin q) (Dbl.fin q) = Dbl.fin r := by
  by_cases hq : q = 0
  · subst hq
    exact ⟨0, by simp [ZDIV, Dbl.eq, d0]⟩
  · refine ⟨1, ?_⟩
    have hne : Dbl.eq (Dbl.fin q) d0 = false := by simp [Dbl.eq, d0, hq]
    rw [ZDIV, hne, Dbl.div_fin q q hq, div_self hq]
    exact Dbl.round_one

/-- The responsibility of the only live component is finite when `SafeExp` returns
doubles. -/
theorem sole_scored_pci_finite (E : Env) (c : gaussian_mixture_cluster_t) (x : vec2_t)
    (hsafe : SafeExp_probability E) :
    ∃ r : ℚ, (sole_scored E c x).probability_condition_input = Dbl.fin r := by
  obtain ⟨q, hq, _, hqd⟩ := hsafe
    (Dbl.sub c.log_gaussian_norm_factor
      (Dbl.mul (Dbl.fin (1 / 2)) (GaussianMixtureCluster_GetScore E c x).mahalanobis_sq))
  have hp : (GaussianMixtureCluster_GetScore E c x).probability_of_in = Dbl.fin q := hq
  have hT : Dbl.add d0 (Dbl.fin q) = Dbl.fin q := by
    simp only [d0, Dbl.add_fin, zero_add, hqd]
  simp only [sole_scored, GaussianMixtureCluster_UpdateInputProbability, hp, hT]
  split
  · exact ZDIV_self q
  · exact ⟨0, rfl⟩

/-- The blended output of the scenario at the second call: the first component has a
zero output mean and a zero output covariance, so its vote is `(0, 0)`. -/
theorem scenario_output (E : Env) (c : gaussian_mixture_cluster_t) (iv μ : ℚ)
    (hinv : c.inv_covariance_in = ⟨Dbl.fin iv, d0, d0, Dbl.fin iv⟩)
    (hmean : c.gaussian_in.mean = ⟨Dbl.fin 0, Dbl.fin 0⟩)
    (hout : c.gaussian_out = ⟨⟨Dbl.fin 0, Dbl.fin 0⟩, ⟨d0, d0, d0, d0⟩⟩)
    (hμ : MahalanobisSq ⟨Dbl.fin iv, d0, d0, Dbl.fin iv⟩ ⟨Dbl.fin 10, Dbl.fin 10⟩ = Dbl.fin μ)
    (hsafe : SafeExp_probability E) :
    sole_output E c ⟨Dbl.fin 10, Dbl.fin 10⟩ = ⟨d0, d0⟩ := by
  obtain ⟨r, hr⟩ := sole_scored_pci_finite E c ⟨Dbl.fin 10, Dbl.fin 10⟩ hsafe
  have h1 : (sole_scored E c ⟨Dbl.fin 10, Dbl.fin 10⟩).gaussian_out = c.gaussian_out := rfl
  have h2 : (sole_scored E c ⟨Dbl.fin 10, Dbl.fin 10⟩).gaussian_in = c.gaussian_in := rfl
  have h3 : (sole_scored E c ⟨Dbl.fin 10, Dbl.fin 10⟩).inv_covariance_in
      = c.inv_covariance_in := rfl
  have hsub : Vec2_Subtract ⟨Dbl.fin 10, Dbl.fin 10⟩ ⟨Dbl.fin 0, Dbl.fin 0⟩
      = ⟨Dbl.fin 10, Dbl.fin 10⟩ := by decide!
  have hfin : (Mat2x2_DotVec2 (sole_scored E c ⟨Dbl.fin 10, Dbl.fin 10⟩).inv_covariance_in
      (Vec2_Subtract ⟨Dbl.fin 10, Dbl.fin 10⟩
        (sole_scored E c ⟨Dbl.fin 10, Dbl.fin 10⟩).gaussian_in.mean)).finite = true := by
    rw [h3, h2, hinv, hmean, hsub]
    exact MahalanobisSq_finite _ μ hμ
  unfold sole_output
  split
  · rw [ContributeToOutput_eq, weighted_prediction_zero_covariance _ _
      (by rw [h1, hout]) hfin (by rw [h1, hout]; decide!) (by rw [h1, hout]; decide!),
      hr, h1, hout]
    simp only [Vec2_Add, Vec2_ScalarMultiply, d0, Dbl.mul_fin, Dbl.add_fin, mul_zero, add_zero,
      Dbl.round_zero]
  · rfl

/-- C11 (amended): the scenario of the specification, in every configuration with
`MAX_CLUSTERS = 4` in which the second observation exceeds the thresholds and the first
component is kept: the Mahalanobis distance of `(10, 10)` from `(0, 0)` under the
initial inverse covariance is a finite `μ`; `MAX_MAHALANOBIS_SQ` and
`MAX_MAHALANOBIS_SQ_FOR_UPDATE` are below both `μ` and `MAX_DISTANCE`; `MAX_ERROR < 1`;
`SafeExp` returns doubles that are not negative; a score of 1 is not below
`MIN_CLUSTER_SCORE`; a zero timestamp is not expired at the clock value of the second
call; `INITIAL_VARIANCE` is a positive double, `sqrt` is accurate within a factor 8 and
`log` finite on positive doubles.  After the first call the model has one component with
input mean `(0,0)` and output mean `(0,0)`; at the second call `max_error > MAX_ERROR`
and `best_distance > MAX_MAHALANOBIS_SQ`, and the model ends with two components: the
first one, unchanged in slot 0, and a new one behind slot 1 with input mean `(10,10)`
and output mean `(10,10)`. -/
theorem C11_scenario (E : Env) (name : String) (now1 now2 : Dbl) (iv μ D M U e v : ℚ)
    (hcap : E.MAX_CLUSTERS = 4)
    (hinv : E.INV_INITIAL_VARIANCE = Dbl.fin iv)
    (hμ : MahalanobisSq ⟨Dbl.fin iv, d0, d0, Dbl.fin iv⟩ ⟨Dbl.fin 10, Dbl.fin 10⟩ = Dbl.fin μ)
    (hD : E.MAX_DISTANCE = Dbl.fin D)
    (hM : E.MAX_MAHALANOBIS_SQ = Dbl.fin M) (hfar1 : M < μ) (hfar2 : M < D)
    (hU : E.MAX_MAHALANOBIS_SQ_FOR_UPDATE = Dbl.fin U) (hskip1 : U < μ)
    (hskip2 : U < D)
    (he : E.MAX_ERROR = Dbl.fin e) (herr : e < 1)
    (hsafe : SafeExp_probability E)
    (hscore : Dbl.lt d1 E.MIN_CLUSTER_SCORE = false)
    (hclock : E.ISTIMEDOUT now2 (Dbl.fin 0) E.MAX_CLUSTER_LIFETIME = false)
    (hV : E.INITIAL_VARIANCE = Dbl.fin v) (hv : 0 < v) (hdbl : Dbl.round v = Dbl.fin v)
    (hsqrt : ∀ q : ℚ, 0 < q → Dbl.round q = Dbl.fin q →
      ∃ r : ℚ, 0 < r ∧ E.sqrt (Dbl.fin q) = Dbl.fin r ∧ Dbl.round r = Dbl.fin r ∧
        r * r ≤ 8 * q ∧ q ≤ 8 * (r * r))
    (hlog : ∀ q : ℚ, 0 < q → Dbl.round q = Dbl.fin q →
      ∃ r : ℚ, E.log (Dbl.fin q) = Dbl.fin r) :
    ∃ model1 s2 model2,
      GaussianMixtureModel_AddValue E (GaussianMixtureModel_Initialize E name)
        ⟨Dbl.fin 0, Dbl.fin 0, 0⟩ ⟨Dbl.fin 0, Dbl.fin 0⟩ now1 = some model1 ∧
      model1.num_clusters = 1 ∧ deref model1 0 = some 0 ∧
      (model1.cluster_mem 0).gaussian_in.mean = ⟨Dbl.fin 0, Dbl.fin 0⟩ ∧
      (model1.cluster_mem 0).gaussian_out.mean = ⟨Dbl.fin 0, Dbl.fin 0⟩ ∧
      AddValue_score E model1 ⟨Dbl.fin 10, Dbl.fin 10, 1⟩ ⟨Dbl.fin 10, Dbl.fin 10⟩ = some s2 ∧
      Dbl.gt s2.max_error E.MAX_ERROR = true ∧
      Dbl.gt s2.best_distance E.MAX_MAHALANOBIS_SQ = true ∧
      GaussianMixtureModel_AddValue E model1 ⟨Dbl.fin 10, Dbl.fin 10, 1⟩
        ⟨Dbl.fin 10, Dbl.fin 10⟩ now2 = some model2 ∧
      model2.num_clusters = 2 ∧ deref model2 0 = some 0 ∧
      (model2.cluster_mem 0).gaussian_in.mean = ⟨Dbl.fin 0, Dbl.fin 0⟩ ∧
      (model2.cluster_mem 0).gaussian_out.mean = ⟨Dbl.fin 0, Dbl.fin 0⟩ ∧
      deref model2 1 = some 1 ∧
      (model2.cluster_mem 1).gaussian_in.mean = ⟨Dbl.fin 10, Dbl.fin 10⟩ ∧
      (model2.cluster_mem 1).gaussian_out.mean = ⟨Dbl.fin 10, Dbl.fin 10⟩ := by
  have hI0 := Initialize_initialised E name
  have hc0 : (GaussianMixtureModel_Initialize E name).cluster
      = [some 0, some 1, some 2, some 3] := by
    simp [GaussianMixtureModel_Initialize, hcap, List.range, List.range.loop]
  have hd00 : deref (GaussianMixtureModel_Initialize E name) 0 = some 0 := by
    rw [deref_eq_some, hc0]; rfl
  have h1 := @AddValue_empty E (GaussianMixtureModel_Initialize E name) 0 rfl hd00
    ⟨Dbl.fin 0, Dbl.fin 0, 0⟩ ⟨Dbl.fin 0, Dbl.fin 0⟩ now1
  obtain ⟨hce, _, _⟩ := AddValue_extrema_frame (GaussianMixtureModel_Initialize E name)
    ⟨Dbl.fin 0, Dbl.fin 0, 0⟩ ⟨Dbl.fin 0, Dbl.fin 0⟩
  generalize hm1 : ({ store (AddValue_extrema (GaussianMixtureModel_Initialize E name)
      ⟨Dbl.fin 0, Dbl.fin 0, 0⟩ ⟨Dbl.fin 0, Dbl.fin 0⟩) 0
        (GaussianMixtureCluster_Initialize E
          ((GaussianMixtureModel_Initialize E name).cluster_mem 0)
          ⟨Dbl.fin 0, Dbl.fin 0, 0⟩ ⟨Dbl.fin 0, Dbl.fin 0⟩)
      with num_clusters := 1 } : gaussian_mixture_model_t) = m1 at h1
  have hcl1 : m1.cluster = [some 0, some 1, some 2, some 3] := by
    rw [← hm1]; exact hce.trans hc0
  have hn1 : m1.num_clusters = 1 := by rw [← hm1]
  have hmem0 : m1.cluster_mem 0 = GaussianMixtureCluster_Initialize E cluster_zero
      ⟨Dbl.fin 0, Dbl.fin 0, 0⟩ ⟨Dbl.fin 0, Dbl.fin 0⟩ := by
    rw [← hm1]
    dsimp only
    rw [store_mem_same]
    rfl
  have hmem1 : m1.cluster_mem 1 = cluster_zero := by
    rw [← hm1]; rfl
  have hmin : m1.min_out = ⟨Dbl.fin 0, Dbl.fin 0⟩ := by rw [← hm1]; rfl
  have hmax : m1.max_out = ⟨Dbl.fin 0, Dbl.fin 0⟩ := by rw [← hm1]; rfl
  have hI1 : Initialised E m1 :=
    ⟨by rw [hcl1, hcap]; rfl, by rw [hn1, hcap]; decide, by rw [hcl1]; decide,
      by rw [hcl1]; decide⟩
  have hd10 : deref m1 0 = some 0 := by rw [deref_eq_some, hcl1]; rfl
  have hd11 : deref m1 1 = some 1 := by rw [deref_eq_some, hcl1]; rfl
  -- the first component, as scored at the second call
  have hcinv : (m1.cluster_mem 0).inv_covariance_in = ⟨Dbl.fin iv, d0, d0, Dbl.fin iv⟩ := by
    rw [hmem0, ← hinv]; rfl
  have hcmean : (m1.cluster_mem 0).gaussian_in.mean = ⟨Dbl.fin 0, Dbl.fin 0⟩ := by
    rw [hmem0]; rfl
  have hcout : (m1.cluster_mem 0).gaussian_out = ⟨⟨Dbl.fin 0, Dbl.fin 0⟩, ⟨d0, d0, d0, d0⟩⟩ := by
    rw [hmem0]; rfl
  have hclog : Dbl.isnan (m1.cluster_mem 0).log_gaussian_norm_factor = false := by
    rw [hmem0]
    have hf := Initialize_log_finite E cluster_zero ⟨Dbl.fin 0, Dbl.fin 0, 0⟩
      ⟨Dbl.fin 0, Dbl.fin 0⟩ v hv hV hdbl hsqrt hlog
    revert hf
    generalize (GaussianMixtureCluster_Initialize E cluster_zero ⟨Dbl.fin 0, Dbl.fin 0, 0⟩
      ⟨Dbl.fin 0, Dbl.fin 0⟩).log_gaussian_norm_factor = x
    cases x <;> simp [Dbl.isfinite, Dbl.isnan]
  have hdist : (sole_scored E (m1.cluster_mem 0) ⟨Dbl.fin 10, Dbl.fin 10⟩).mahalanobis_sq
      = Dbl.fin (if D < μ then D else μ) :=
    scenario_distance E (m1.cluster_mem 0) iv D μ hcinv hcmean hD hμ
  have hμM : M < (if D < μ then D else μ) := by split <;> assumption
  have hμU : U < (if D < μ then D else μ) := by split <;> assumption
  have hupd : sole_updated E (m1.cluster_mem 0) ⟨Dbl.fin 10, Dbl.fin 10, 1⟩
      ⟨Dbl.fin 10, Dbl.fin 10⟩ now2
      = sole_scored E (m1.cluster_mem 0) ⟨Dbl.fin 10, Dbl.fin 10⟩ := by
    have hg : Dbl.gt (sole_scored E (m1.cluster_mem 0) ⟨Dbl.fin 10, Dbl.fin 10⟩).mahalanobis_sq
        E.MAX_MAHALANOBIS_SQ_FOR_UPDATE = true := by
      rw [hdist, hU, Dbl.gt_fin]
      exact decide_eq_true hμU
    have hl : Dbl.isnan
        (sole_scored E (m1.cluster_mem 0) ⟨Dbl.fin 10, Dbl.fin 10⟩).log_gaussian_norm_factor
        = false := hclog
    unfold sole_updated GaussianMixtureCluster_Update
    simp only [hl, hg, Bool.false_eq_true, if_false, if_true]
  have hkeep : removal_condition E now2
      (sole_updated E (m1.cluster_mem 0) ⟨Dbl.fin 10, Dbl.fin 10, 1⟩
        ⟨Dbl.fin 10, Dbl.fin 10⟩ now2) = false := by
    rw [hupd]
    have a1 : (sole_scored E (m1.cluster_mem 0) ⟨Dbl.fin 10, Dbl.fin 10⟩).score = d1 := by
      show (m1.cluster_mem 0).score = d1
      rw [hmem0]; rfl
    have a2 : (sole_scored E (m1.cluster_mem 0) ⟨Dbl.fin 10, Dbl.fin 10⟩).timestamp
        = Dbl.fin 0 := by
      show (m1.cluster_mem 0).timestamp = Dbl.fin 0
      rw [hmem0]; rfl
    have a3 : Dbl.isnan
        (sole_scored E (m1.cluster_mem 0) ⟨Dbl.fin 10, Dbl.fin 10⟩).log_gaussian_norm_factor
        = false := hclog
    simp only [removal_condition, a1, a2, a3, hscore, hclock, Bool.or_self]
  have hout : sole_output E (m1.cluster_mem 0) ⟨Dbl.fin 10, Dbl.fin 10⟩ = ⟨d0, d0⟩ :=
    scenario_output E (m1.cluster_mem 0) iv μ hcinv hcmean hcout hμ hsafe
  have hext : Vec2_Subtract
      (AddValue_extrema m1 ⟨Dbl.fin 10, Dbl.fin 10, 1⟩ ⟨Dbl.fin 10, Dbl.fin 10⟩).max_out
      (AddValue_extrema m1 ⟨Dbl.fin 10, Dbl.fin 10, 1⟩ ⟨Dbl.fin 10, Dbl.fin 10⟩).min_out
      = ⟨Dbl.fin 10, Dbl.fin 10⟩ := by
    simp only [AddValue_extrema, hn1, one_ne_zero, if_false, hmin, hmax]
    decide!
  have hme : GaussianMixtureModel_GetMaxError
      (sole_output E (m1.cluster_mem 0) ⟨Dbl.fin 10, Dbl.fin 10⟩) ⟨Dbl.fin 10, Dbl.fin 10⟩
      (Vec2_Subtract
        (AddValue_extrema m1 ⟨Dbl.fin 10, Dbl.fin 10, 1⟩ ⟨Dbl.fin 10, Dbl.fin 10⟩).max_out
        (AddValue_extrema m1 ⟨Dbl.fin 10, Dbl.fin 10, 1⟩ ⟨Dbl.fin 10, Dbl.fin 10⟩).min_out)
      = Dbl.fin 1 := by
    rw [hout, hext]
    decide!
  have hbest : Dbl.gt (sole_best E (m1.cluster_mem 0) ⟨Dbl.fin 10, Dbl.fin 10⟩)
      E.MAX_MAHALANOBIS_SQ = true := by
    unfold sole_best
    rw [hdist, hD, hM]
    generalize (if D < μ then D else μ) = ν at hμM ⊢
    by_cases hc : Dbl.lt (Dbl.fin ν) (Dbl.fin D) = true
    · rw [if_pos hc, Dbl.gt_fin]; exact decide_eq_true hμM
    · rw [if_neg hc, Dbl.gt_fin]; exact decide_eq_true hfar2
  have hgerr : Dbl.gt (Dbl.fin 1) E.MAX_ERROR = true := by
    rw [he, Dbl.gt_fin]; exact decide_eq_true herr
  have hspawn : spawn_condition E m1
      (GaussianMixtureModel_GetMaxError
        (sole_output E (m1.cluster_mem 0) ⟨Dbl.fin 10, Dbl.fin 10⟩) ⟨Dbl.fin 10, Dbl.fin 10⟩
        (Vec2_Subtract
          (AddValue_extrema m1 ⟨Dbl.fin 10, Dbl.fin 10, 1⟩ ⟨Dbl.fin 10, Dbl.fin 10⟩).max_out
          (AddValue_extrema m1 ⟨Dbl.fin 10, Dbl.fin 10, 1⟩ ⟨Dbl.fin 10, Dbl.fin 10⟩).min_out))
      (sole_best E (m1.cluster_mem 0) ⟨Dbl.fin 10, Dbl.fin 10⟩) = true := by
    rw [hme]
    simp [spawn_condition, hn1, hcap, hgerr, hbest]
  have hs2 := @AddValue_score_sole E m1 0 hn1 hd10 ⟨Dbl.fin 10, Dbl.fin 10, 1⟩
    ⟨Dbl.fin 10, Dbl.fin 10⟩
  obtain ⟨m2, hm2, _, hcl2, hd20, hmem20, _, _, hyes⟩ :=
    AddValue_sole hI1 hn1 hd10 ⟨Dbl.fin 10, Dbl.fin 10, 1⟩ ⟨Dbl.fin 10, Dbl.fin 10⟩ now2 hkeep
  obtain ⟨hn2, p1, hp1, _, hmemp1⟩ := hyes hspawn
  have hp1eq : p1 = 1 := by
    rw [deref_congr hcl2, hd11] at hp1
    exact (Option.some.inj hp1).symm
  subst hp1eq
  refine ⟨m1, _, m2, h1, hn1, hd10, hcmean, by rw [hcout], hs2, ?_, hbest, hm2, hn2, hd20,
    ?_, ?_, hp1, ?_, ?_⟩
  · show Dbl.gt (GaussianMixtureModel_GetMaxError _ _ _) E.MAX_ERROR = true
    rw [hme]; exact hgerr
  · rw [hmem20, hupd]; exact hcmean
  · rw [hmem20, hupd]
    show (m1.cluster_mem 0).gaussian_out.mean = _
    rw [hcout]
  · rw [hmemp1]; rfl
  · rw [hmemp1]; rfl

/-- C11 (amended) in `Env0`, with the clock at 0 for the first call and at 1 for the second. -/
theorem C11_scenario_witness :
    ∃ model1 s2 model2,
      GaussianMixtureModel_AddValue Env0 (GaussianMixtureModel_Initialize Env0 "gmm")
        ⟨Dbl.fin 0, Dbl.fin 0, 0⟩ ⟨Dbl.fin 0, Dbl.fin 0⟩ (Dbl.fin 0) = some model1 ∧
      model1.num_clusters = 1 ∧ deref model1 0 = some 0 ∧
      (model1.cluster_mem 0).gaussian_in.mean = ⟨Dbl.fin 0, Dbl.fin 0⟩ ∧
      (model1.cluster_mem 0).gaussian_out.mean = ⟨Dbl.fin 0, Dbl.fin 0⟩ ∧
      AddValue_score Env0 model1 ⟨Dbl.fin 10, Dbl.fin 10, 1⟩ ⟨Dbl.fin 10, Dbl.fin 10⟩
        = some s2 ∧
      Dbl.gt s2.max_error Env0.MAX_ERROR = true ∧
      Dbl.gt s2.best_distance Env0.MAX_MAHALANOBIS_SQ = true ∧
      GaussianMixtureModel_AddValue Env0 model1 ⟨Dbl.fin 10, Dbl.fin 10, 1⟩
        ⟨Dbl.fin 10, Dbl.fin 10⟩ (Dbl.fin 1) = some model2 ∧
      model2.num_clusters = 2 ∧ deref model2 0 = some 0 ∧
      (model2.cluster_mem 0).gaussian_in.mean = ⟨Dbl.fin 0, Dbl.fin 0⟩ ∧
      (model2.cluster_mem 0).gaussian_out.mean = ⟨Dbl.fin 0, Dbl.fin 0⟩ ∧
      deref model2 1 = some 1 ∧
      (model2.cluster_mem 1).gaussian_in.mean = ⟨Dbl.fin 10, Dbl.fin 10⟩ ∧
      (model2.cluster_mem 1).gaussian_out.mean = ⟨Dbl.fin 10, Dbl.fin 10⟩ :=
  C11_scenario Env0 "gmm" (Dbl.fin 0) (Dbl.fin 1) 1 200 1000 9 20
    (3602879701896397 / 18014398509481984) 1 rfl rfl (by decide!) rfl rfl
    (by norm_num) (by norm_num) rfl (by norm_num) (by norm_num) (by decide!) (by norm_num)
    SafeExp0_probability (by decide!) (by decide!) rfl (by norm_num) Dbl.round_one
    sqrt0_accurate (fun q hq _ => log0_finite q hq)

/-- C11 as stated fails.  In `Env0`, with the first call at clock value 0 and the second
at clock value 11 (lifetime 10), the first component expires in the maintenance pass of
the second call, because `Initialize` leaves its timestamp at 0: the model ends with one
component, at input mean `(10, 10)`.  In `Env50` (initial variance 50) the second
observation is at distance 4 from the first component, not above
`MAX_MAHALANOBIS_SQ = 9`: nothing is spawned and the model ends with one component,
moved to input mean `(1, 1)`. -/
theorem C11_counterexample :
    (AddValues Env0 (GaussianMixtureModel_Initialize Env0 "gmm")
        [call_first, call_second_late]).map
        (fun model => (model.num_clusters, deref model 0,
          (model.cluster_mem 0).gaussian_in.mean))
      = some (1, some 0, ⟨Dbl.fin 10, Dbl.fin 10⟩) ∧
    ((AddValues Env50 (GaussianMixtureModel_Initialize Env50 "gmm") [call_first]).bind
        (fun model => (AddValue_score Env50 model call_second.observation
          call_second.value).map (fun s => (s.max_error, s.best_distance))))
      = some (Dbl.fin 1, Dbl.fin 4) ∧
    (AddValues Env50 (GaussianMixtureModel_Initialize Env50 "gmm")
        [call_first, call_second]).map
        (fun model => (model.num_clusters, deref model 0,
          (model.cluster_mem 0).gaussian_in.mean))
      = some (1, some 0, ⟨Dbl.fin 1, Dbl.fin 1⟩) := by
  refine ⟨?_, ?_, ?_⟩ <;> decide!

end Rho
